import Mathlib

/-!
Verification development for the drbdmanage server core
(src/drbdmanage/server.py, src/drbdmanage/consts.py).

The Python sources are shallowly embedded as pure Lean functions over an
explicit `ServerState`.  Classes of the repository that are referenced by
`server.py` but whose module is not part of the analyzed sources
(drbdmanage.drbd.drbdcore, drbdmanage.utils, drbdmanage.storage.storagecore,
drbdmanage.drbd.persistence) are modelled from the specification; each such
definition carries a doc comment starting with `Modelled from the spec:`.
-/

/-! ## Constants (src/drbdmanage/consts.py) -/

def NODE_ADDR : String := "addr"
def NODE_AF : String := "addrfam"
def RES_PORT : String := "port"
def VOL_MINOR : String := "minor"
def DRBDCTRL_RES_NAME : String := ".drbdctrl"

/-- Modelled from the spec: `RES_PORT_NR_AUTO` is imported by server.py from
the consts module, whose copy in the analyzed sources does not define it; it
is the sentinel meaning "allocate a port automatically". -/
def RES_PORT_NR_AUTO : Int := -1

/-- Modelled from the spec: `RES_PORT_NR_ERROR` is the error sentinel of the
port allocator ("allocation/range errors", spec section 7); imported by
server.py from the consts module but not defined in the analyzed copy. -/
def RES_PORT_NR_ERROR : Int := -2

/-! ## Event classification constants (class DrbdManageServer, server.py) -/

def EVT_TYPE_CHANGE : String := "change"
def EVT_SRC_CON : String := "connection"
def EVT_SRC_PEERDEV : String := "peer-device"
def EVT_ARG_NAME : String := "name"
def EVT_ARG_ROLE : String := "role"
def EVT_ARG_REPL : String := "replication"
def EVT_ROLE_SECONDARY : String := "Secondary"
def EVT_REPL_SYNCTARGET : String := "SyncTarget"

/-! ## Property bags

Python dictionaries with string keys are embedded as association lists; a
lookup returns the value of the first matching key (keys of a dict are
unique, so this matches dict lookup). -/

def props_get (props : List (String × String)) (key : String) : Option String :=
  match props with
  | [] => none
  | (k, v) :: rest => if k == key then some v else props_get rest key

/-- Modelled from the spec: `aux_props_selector` (drbdmanage.utils, not among
the analyzed sources) filters a properties map down to the keys bearing the
auxiliary prefix `aux/`; only those may be merged into an entity's property
container (spec section 4.1). -/
def aux_props_selector (props : List (String × String)) : List (String × String) :=
  props.filter (fun kv => kv.fst.startsWith "aux/")

/-- Modelled from the spec: `merge_gen` of the property bag replaces values
for existing keys and appends new ones (spec section 4.1). -/
def merge_gen (props new_props : List (String × String)) : List (String × String) :=
  match new_props with
  | [] => props
  | (k, v) :: rest =>
    let replaced :=
      if (props_get props k).isSome then
        props.map (fun kv => if kv.fst == k then (k, v) else kv)
      else
        props ++ [(k, v)]
    merge_gen replaced rest

/-! ## Event pipeline (server.py, drbd_event / _drbd_event_change_trigger)

A line of the `drbdsetup events2 all` stream is embedded in its parsed form:
`none` stands for a line not matched by the event pattern `_evt_pat`, and
`some (evt_type, evt_source, line_data)` for a matched line, where
`line_data` is the dictionary built from the `key:value` attribute tokens. -/

/-- Embedding of `DrbdManageServer._drbd_event_change_trigger`
(server.py lines 433-469).  A `KeyError` on a missing attribute aborts the
corresponding check (the `name` lookup aborts the whole classification). -/
def drbd_event_change_trigger (evt_type evt_source : String)
    (line_data : List (String × String)) : Bool :=
  if evt_type == EVT_TYPE_CHANGE then
    match props_get line_data EVT_ARG_NAME with
    | none => false
    | some nm =>
      if nm == DRBDCTRL_RES_NAME then
        let role_check :=
          match props_get line_data EVT_ARG_ROLE with
          | none => false
          | some role => evt_source == EVT_SRC_CON && role == EVT_ROLE_SECONDARY
        let repl_check :=
          match props_get line_data EVT_ARG_REPL with
          | none => false
          | some repl => evt_source == EVT_SRC_PEERDEV && repl == EVT_REPL_SYNCTARGET
        role_check || repl_check
      else false
  else false

/-- A drained event line in parsed form. -/
def EventLine : Type := Option (String × String × List (String × String))

/-- Whether one drained line is a triggering line. -/
def line_triggers : EventLine → Bool
  | none => false
  | some (t, s, attrs) => drbd_event_change_trigger t s attrs

/-- Embedding of the classification loop of `DrbdManageServer.drbd_event`
(server.py lines 390-426): lines are read until the pipe is empty; a line is
only parsed while `changed` is still false. -/
def drbd_event_changed (lines : List EventLine) : Bool :=
  lines.foldl (fun changed l => if changed then changed else line_triggers l) false

/-- Embedding of the tail of `DrbdManageServer.drbd_event` (server.py lines
427-428): the number of times `self._drbd_mgr.run(False, False)` is invoked
for one drain of the event pipe. -/
def drbd_event_run_count (lines : List EventLine) : Nat :=
  if drbd_event_changed lines then 1 else 0

/-! ## Return codes (drbdmanage.exceptions, referenced by server.py)

The exceptions module is not among the analyzed sources; the spec (section 7)
documents the taxonomy as a set of distinct stable codes, embedded here as an
inductive type. -/

/-- Modelled from the spec: the error/status taxonomy of section 7. -/
inductive DmRc where
  | success
  | enoent
  | eexist
  | einval
  | ename
  | eport
  | eminor
  | evolid
  | evolsz
  | enodeid
  | enodecnt
  | esecretg
  | epersist
  | eplugin
  | estorage
  | ectrlvol
  | enotimpl
  | debug
deriving DecidableEq, Repr

/-- Embedding of `add_rc_entry` (drbdmanage.utils): appends one result entry
to the return-code list; detail pairs are not modelled. -/
def add_rc_entry (fn_rc : List DmRc) (code : DmRc) : List DmRc :=
  fn_rc ++ [code]

/-- The `if len(fn_rc) == 0: add_rc_entry(fn_rc, DM_SUCCESS, ...)` epilogue
shared by the public mutators of server.py. -/
def finish_rc (fn_rc : List DmRc) : List DmRc :=
  if fn_rc.isEmpty then [DmRc.success] else fn_rc

/-! ## State flags

The flag constants live in drbdmanage.drbd.drbdcore, which is not among the
analyzed sources.  The spec (section 3) lists the flag sets; they are
embedded as distinct bits.  `set_flags` and `clear_flags` follow the
mask idiom visible in server.py (lines 1736-1739). -/

/-- Modelled from the spec: `set_flags(mask)` on a state bitfield. -/
def set_flags (state mask : Nat) : Nat := state ||| mask

/-- Modelled from the spec: `clear_flags(mask)` on a state bitfield, using
the `(state | mask) ^ mask` idiom of server.py lines 1736-1739. -/
def clear_flags (state mask : Nat) : Nat := (state ||| mask) ^^^ mask

/-- Modelled from the spec: Assignment state flag bits (spec section 3,
`cstate`/`tstate` drawn from DEPLOY, ATTACH, CONNECT, DISKLESS, OVERWRITE,
DISCARD, RECONNECT, UPD_CON, UPD_CONFIG). -/
def Assignment.FLAG_DEPLOY : Nat := 1
def Assignment.FLAG_ATTACH : Nat := 2
def Assignment.FLAG_CONNECT : Nat := 4
def Assignment.FLAG_DISKLESS : Nat := 8
def Assignment.FLAG_OVERWRITE : Nat := 16
def Assignment.FLAG_DISCARD : Nat := 32
def Assignment.FLAG_RECONNECT : Nat := 64
def Assignment.FLAG_UPD_CON : Nat := 128
def Assignment.FLAG_UPD_CONFIG : Nat := 256

/-- Modelled from the spec: VolumeState flag bits (spec section 3). -/
def DrbdVolumeState.FLAG_DEPLOY : Nat := 1
def DrbdVolumeState.FLAG_ATTACH : Nat := 2

/-- Modelled from the spec: Node state flag bits (spec section 3). -/
def DrbdNode.FLAG_REMOVE : Nat := 1
def DrbdNode.FLAG_UPDATE : Nat := 2
def DrbdNode.FLAG_QIGNORE : Nat := 4

/-- Modelled from the spec: Resource state flag bit (spec section 3). -/
def DrbdResource.FLAG_REMOVE : Nat := 1

/-- Modelled from the spec: Volume state flag bit (spec section 3). -/
def DrbdVolume.FLAG_REMOVE : Nat := 1

/-- Modelled from the spec: `MAX_RES_VOLS` bounds volume ids within a
resource (spec section 4.3); the constant lives in drbdcore. -/
def MAX_RES_VOLS : Int := 64

/-- Modelled from the spec: `MinorNr.MINOR_NR_MAX` is the upper bound of the
minor-number allocation range (drbdmanage.storage.storagecore, not among the
analyzed sources). -/
def MINOR_NR_MAX : Int := 1048575

/-- Modelled from the spec: sentinel for "allocate a minor automatically". -/
def MINOR_NR_AUTO : Int := -1

/-- Modelled from the spec: error sentinel of the minor-number allocator. -/
def MINOR_NR_ERROR : Int := -2

/-! ## Domain model

The entity classes live in drbdmanage.drbd.drbdcore, which is not among the
analyzed sources; their record layout is modelled from the spec (section 3).
Assignments are kept in a central store keyed by `(node_name, res_name)`
(the re-architecture described in spec section 9 for the cyclic
Assignment-Node / Assignment-Resource references). -/

structure DrbdVolumeState where
  vol_id : Int
  cstate : Nat
  tstate : Nat
deriving DecidableEq, Repr

structure DrbdVolume where
  vol_id : Int
  size_kiB : Int
  minor : Int
  state : Nat
  props : List (String × String)
deriving DecidableEq, Repr

structure DrbdResource where
  name : String
  port : Int
  secret : String
  state : Nat
  volumes : List DrbdVolume
  props : List (String × String)
deriving DecidableEq, Repr

structure DrbdNode where
  name : String
  addr : String
  addrfam : Nat
  node_id : Int
  state : Nat
  poolsize : Int
  poolfree : Int
  props : List (String × String)
deriving DecidableEq, Repr

structure Assignment where
  node_name : String
  res_name : String
  node_id : Int
  cstate : Nat
  tstate : Nat
  vol_states : List DrbdVolumeState
  props : List (String × String)
deriving DecidableEq, Repr

/-- The mutable state of a `DrbdManageServer` instance: the configuration
object maps `_nodes` and `_resources`, the central assignment store, the
`SERIAL` entry of `_cluster_conf`, the change-generation flag `_change_open`,
whether a persistence session is currently open, and the numeric server
configuration values used by the allocators. -/
structure ServerState where
  instance_node_name : String
  nodes : List DrbdNode
  resources : List DrbdResource
  assignments : List Assignment
  serial_conf : Option Nat
  change_open : Bool
  session_open : Bool
  conf_min_minor : Int
  conf_min_port : Int
  conf_max_port : Int
  conf_max_node_id : Int
deriving DecidableEq, Repr

/-! ## Serial numbers (server.py, peek_serial / get_serial / close_serial) -/

/-- Embedding of `DrbdManageServer.peek_serial` (server.py lines 560-590):
returns the current serial without changing it; a missing entry reads as 0. -/
def peek_serial (st : ServerState) : Nat :=
  match st.serial_conf with
  | none => 0
  | some serial => serial

/-- Embedding of `DrbdManageServer.get_serial` (server.py lines 593-607):
upon the first call in a sequence of changes a new serial number is
generated, stored and returned; subsequent calls return the same number
until the change generation is closed. -/
def get_serial (st : ServerState) : Nat × ServerState :=
  let serial := peek_serial st
  if st.change_open == false then
    let serial1 := serial + 1
    (serial1, { st with change_open := true, serial_conf := some serial1 })
  else
    (serial, st)

/-- Embedding of `DrbdManageServer.close_serial` (server.py lines 610-618). -/
def close_serial (st : ServerState) : ServerState :=
  { st with change_open := false }

/-! ## Free-number allocation (spec section 4.3; callers in server.py) -/

/-- Scan helper for `get_free_number`: tries `k` consecutive candidates
starting at `cand`. -/
def get_free_number_go (cand : Int) (k : Nat) (nr_list : List Int) : Int :=
  match k with
  | 0 => -1
  | Nat.succ k1 =>
    if nr_list.contains cand then get_free_number_go (cand + 1) k1 nr_list
    else cand

/-- Modelled from the spec: `get_free_number` (drbdmanage.utils, not among
the analyzed sources) returns the smallest integer of the closed interval
`min_nr..max_nr` that is not in `nr_list`, or -1 when all numbers of the
interval are taken; the result is deterministic and independent of the
order of `nr_list` (spec sections 4.3 and 8/P6). -/
def get_free_number (min_nr max_nr : Int) (nr_list : List Int) : Int :=
  get_free_number_go min_nr (max_nr + 1 - min_nr).toNat nr_list

/-- Embedding of `DrbdManageServer.get_free_minor_nr` (server.py lines
3853-3879): collects the in-range minor numbers of all volumes of all
resources and picks the smallest free one; -1 from `get_free_number` becomes
the allocator's error sentinel. -/
def collected_minor_list (min_nr : Int) (resources : List DrbdResource) : List Int :=
  resources.foldr (fun resource acc =>
    (resource.volumes.filterMap (fun vol =>
      if min_nr ≤ vol.minor && vol.minor ≤ MINOR_NR_MAX then some vol.minor
      else none)) ++ acc) []

def get_free_minor_nr (st : ServerState) : Int :=
  let min_nr := st.conf_min_minor
  let minor_list := collected_minor_list min_nr st.resources
  let minor_nr := get_free_number min_nr MINOR_NR_MAX minor_list
  if minor_nr == -1 then MINOR_NR_ERROR else minor_nr

/-- Embedding of `DrbdManageServer.get_free_port_nr` (server.py lines
3882-3906): collects the in-range port numbers of all resources and picks
the smallest free one; -1 from `get_free_number` becomes the allocator's
error sentinel. -/
def collected_port_list (min_nr max_nr : Int) (resources : List DrbdResource) : List Int :=
  resources.filterMap (fun resource =>
    if min_nr ≤ resource.port && resource.port ≤ max_nr then some resource.port
    else none)

def get_free_port_nr (st : ServerState) : Int :=
  let min_nr := st.conf_min_port
  let max_nr := st.conf_max_port
  let port_list := collected_port_list min_nr max_nr st.resources
  let port := get_free_number min_nr max_nr port_list
  if port == -1 then RES_PORT_NR_ERROR else port

/-- The assignments of one resource, in store order (embedding of
`DrbdResource.iterate_assignments`). -/
def assignments_of_resource (st : ServerState) (res_name : String) : List Assignment :=
  st.assignments.filter (fun a => a.res_name == res_name)

/-- The assignments of one node, in store order (embedding of
`DrbdNode.iterate_assignments`). -/
def assignments_of_node (st : ServerState) (node_name : String) : List Assignment :=
  st.assignments.filter (fun a => a.node_name == node_name)

/-- Embedding of `DrbdManageServer.get_free_node_id` (server.py lines
3909-3929): per-resource node ids in `0..max-node-id`; -1 on exhaustion. -/
def get_free_node_id (st : ServerState) (res_name : String) : Int :=
  let max_node_id := st.conf_max_node_id
  let id_list :=
    (assignments_of_resource st res_name).filterMap (fun assg =>
      if 0 ≤ assg.node_id && assg.node_id ≤ max_node_id then some assg.node_id
      else none)
  get_free_number 0 max_node_id id_list

/-- Embedding of `DrbdManageServer.get_free_drbdctrl_node_id` (server.py
lines 3932-3953): node ids in `0..max-node-id`, unique across nodes. -/
def get_free_drbdctrl_node_id (st : ServerState) : Int :=
  let max_node_id := st.conf_max_node_id
  let id_list :=
    st.nodes.filterMap (fun node =>
      if 0 ≤ node.node_id && node.node_id ≤ max_node_id then some node.node_id
      else none)
  get_free_number 0 max_node_id id_list

/-- Embedding of `DrbdManageServer.get_free_volume_id` (server.py lines
3956-3970): volume ids in `0..MAX_RES_VOLS` within one resource. -/
def get_free_volume_id (resource : DrbdResource) : Int :=
  let id_list :=
    resource.volumes.filterMap (fun vol =>
      if 0 ≤ vol.vol_id && vol.vol_id ≤ MAX_RES_VOLS then some vol.vol_id
      else none)
  get_free_number 0 MAX_RES_VOLS id_list

/-! ## Store accessors (dict lookups of server.py) -/

/-- Embedding of `self._nodes.get(name)`. -/
def get_node (st : ServerState) (name : String) : Option DrbdNode :=
  st.nodes.find? (fun n => n.name == name)

/-- Embedding of `self._resources.get(name)`. -/
def get_resource (st : ServerState) (name : String) : Option DrbdResource :=
  st.resources.find? (fun r => r.name == name)

/-- Embedding of `node.get_assignment(res_name)` through the central
assignment store. -/
def get_assignment (st : ServerState) (node_name res_name : String) : Option Assignment :=
  st.assignments.find? (fun a => a.node_name == node_name && a.res_name == res_name)

/-- Embedding of `assignment.get_volume_state(vol_id)`. -/
def get_volume_state (assg : Assignment) (vol_id : Int) : Option DrbdVolumeState :=
  assg.vol_states.find? (fun vs => vs.vol_id == vol_id)

/-- Embedding of `node.has_assignments()`. -/
def node_has_assignments (st : ServerState) (node_name : String) : Bool :=
  st.assignments.any (fun a => a.node_name == node_name)

/-- Embedding of `resource.has_assignments()`. -/
def resource_has_assignments (st : ServerState) (res_name : String) : Bool :=
  st.assignments.any (fun a => a.res_name == res_name)

/-- Replaces a resource in the resource map (embedding of in-place mutation
of the object stored under its name). -/
def put_resource (st : ServerState) (resource : DrbdResource) : ServerState :=
  { st with resources :=
      st.resources.map (fun r => if r.name == resource.name then resource else r) }

/-- Applies an update to the assignment stored under `(node_name, res_name)`
(embedding of in-place mutation of the assignment object). -/
def update_assignment (st : ServerState) (node_name res_name : String)
    (f : Assignment → Assignment) : ServerState :=
  { st with assignments :=
      st.assignments.map (fun a =>
        if a.node_name == node_name && a.res_name == res_name then f a else a) }

/-! ## Entity mutators (drbdmanage.drbd.drbdcore, not among the analyzed
sources; modelled from the spec, sections 3 and 4.2) -/

/-- Modelled from the spec: `Assignment.undeploy` clears the DEPLOY bit of
the target state (spec sections 3 and 8/S5). -/
def Assignment.undeploy (a : Assignment) : Assignment :=
  { a with tstate := clear_flags a.tstate Assignment.FLAG_DEPLOY }

/-- Modelled from the spec: `Assignment.connect` sets the CONNECT bit of the
target state (server.py docstring of `connect`). -/
def Assignment.connect (a : Assignment) : Assignment :=
  { a with tstate := set_flags a.tstate Assignment.FLAG_CONNECT }

/-- Modelled from the spec: `Assignment.reconnect` sets the RECONNECT bit of
the target state (server.py docstring of `connect`). -/
def Assignment.reconnect (a : Assignment) : Assignment :=
  { a with tstate := set_flags a.tstate Assignment.FLAG_RECONNECT }

/-- Modelled from the spec: `Assignment.disconnect` clears the CONNECT bit
of the target state (server.py docstring of `disconnect`). -/
def Assignment.disconnect (a : Assignment) : Assignment :=
  { a with tstate := clear_flags a.tstate Assignment.FLAG_CONNECT }

/-- Modelled from the spec: `Assignment.update_connections` flags the
assignment for a connection update (tstate UPD_CON, spec section 3). -/
def Assignment.update_connections (a : Assignment) : Assignment :=
  { a with tstate := set_flags a.tstate Assignment.FLAG_UPD_CON }

/-- Embedding of `Assignment.is_deployed` (current state DEPLOY bit). -/
def Assignment.is_deployed (a : Assignment) : Bool :=
  a.cstate &&& Assignment.FLAG_DEPLOY != 0

/-- Embedding of `assg.clear_tstate_flags(mask)`. -/
def Assignment.clear_tstate_flags (a : Assignment) (mask : Nat) : Assignment :=
  { a with tstate := clear_flags a.tstate mask }

/-- Embedding of `assg.set_tstate_flags(mask)`. -/
def Assignment.set_tstate_flags (a : Assignment) (mask : Nat) : Assignment :=
  { a with tstate := set_flags a.tstate mask }

/-- Embedding of `assg.clear_cstate_flags(mask)`. -/
def Assignment.clear_cstate_flags (a : Assignment) (mask : Nat) : Assignment :=
  { a with cstate := clear_flags a.cstate mask }

/-- Embedding of `assg.set_cstate_flags(mask)`. -/
def Assignment.set_cstate_flags (a : Assignment) (mask : Nat) : Assignment :=
  { a with cstate := set_flags a.cstate mask }

/-- Modelled from the spec: `DrbdVolumeState.deploy` sets the DEPLOY bit of
the volume target state. -/
def DrbdVolumeState.deploy (vs : DrbdVolumeState) : DrbdVolumeState :=
  { vs with tstate := set_flags vs.tstate DrbdVolumeState.FLAG_DEPLOY }

/-- Modelled from the spec: `DrbdVolumeState.undeploy` clears the DEPLOY bit
of the volume target state. -/
def DrbdVolumeState.undeploy (vs : DrbdVolumeState) : DrbdVolumeState :=
  { vs with tstate := clear_flags vs.tstate DrbdVolumeState.FLAG_DEPLOY }

/-- Modelled from the spec: `DrbdVolumeState.attach` sets the ATTACH bit of
the volume target state. -/
def DrbdVolumeState.attach (vs : DrbdVolumeState) : DrbdVolumeState :=
  { vs with tstate := set_flags vs.tstate DrbdVolumeState.FLAG_ATTACH }

/-- Modelled from the spec: `DrbdVolumeState.detach` clears the ATTACH bit
of the volume target state. -/
def DrbdVolumeState.detach (vs : DrbdVolumeState) : DrbdVolumeState :=
  { vs with tstate := clear_flags vs.tstate DrbdVolumeState.FLAG_ATTACH }

/-- Modelled from the spec: `DrbdNode.remove` marks the node for removal
(state REMOVE, spec section 3 invariant 6; the explicit undeploy of its
assignments is done by the caller `remove_node`). -/
def DrbdNode.remove (n : DrbdNode) : DrbdNode :=
  { n with state := set_flags n.state DrbdNode.FLAG_REMOVE }

/-- Modelled from the spec: `DrbdResource.remove` marks the resource for
removal (state REMOVE). -/
def DrbdResource.remove (r : DrbdResource) : DrbdResource :=
  { r with state := set_flags r.state DrbdResource.FLAG_REMOVE }

/-- Modelled from the spec: `DrbdVolume.remove` marks the volume for removal
(state REMOVE). -/
def DrbdVolume.remove (v : DrbdVolume) : DrbdVolume :=
  { v with state := set_flags v.state DrbdVolume.FLAG_REMOVE }

/-- Modelled from the spec: `Assignment.update_volume_states` creates the
missing per-volume state entries so that the VolumeStates of an assignment
cover the volumes of its resource (spec section 3, invariant 3). -/
def Assignment.update_volume_states (a : Assignment) (resource : DrbdResource) : Assignment :=
  let missing :=
    resource.volumes.filterMap (fun vol =>
      if (get_volume_state a vol.vol_id).isSome then none
      else some { vol_id := vol.vol_id, cstate := 0, tstate := 0 : DrbdVolumeState })
  { a with vol_states := a.vol_states ++ missing }

/-- Embedding of `DrbdManageServer._cluster_nodes_update` (server.py lines
725-733): flags every node other than the instance node for
reconfiguration of the control volume. -/
def cluster_nodes_update (st : ServerState) : ServerState :=
  match get_node st st.instance_node_name with
  | none =>
    { st with nodes :=
        st.nodes.map (fun n => { n with state := set_flags n.state DrbdNode.FLAG_UPDATE }) }
  | some _ =>
    { st with nodes :=
        st.nodes.map (fun n =>
          if n.name == st.instance_node_name then n
          else { n with state := set_flags n.state DrbdNode.FLAG_UPDATE }) }

/-! ## Persistence gateway and reconciler stand-ins -/

/-- Modelled from the spec: a successful `begin_modify_conf` opens the
persistence session (open + exclusive lock + reload if the stored hash
changed); whether opening succeeds is an input of each mutator embedding
(`persist_ok`).  On-medium data is outside the model, so a successful open
only records that the session is open. -/
def begin_modify_conf (st : ServerState) : ServerState :=
  { st with session_open := true }

/-- Embedding of `DrbdManageServer.end_modify_conf` (server.py lines
2611-2622): closes the persistence session if one was opened and closes the
current change generation. -/
def end_modify_conf (st : ServerState) : ServerState :=
  close_serial { st with session_open := false }

/-- Modelled from the spec: `DrbdManager.perform_changes` (the
reconciliation engine, drbdmanage.drbd.drbdcore, not among the analyzed
sources) drives the local OS state toward the target state through the
storage backend and the DRBD admin tool; it drives `cstate` toward `tstate`
(spec glossary) and does not modify the configuration intent, so on the
configuration model it is the identity. -/
def perform_changes (st : ServerState) : ServerState := st

/-- Modelled from the spec: `save_conf_data` serializes the configuration
and updates the stored hash (spec section 4.4); the hash is outside the
model, so on the configuration model it is the identity. -/
def save_conf_data (st : ServerState) : ServerState := st

/-! ## Input parsing helpers -/

/-- Modelled from the spec: the name rules of section 3 (non-empty, no
whitespace or brackets); `DrbdNode`/`DrbdResource` constructors raise
`InvalidNameException` for invalid names. -/
def valid_name (nm : String) : Bool :=
  nm.length > 0 &&
  nm.all (fun c =>
    !(c == ' ' || c == '\t' || c == '\n' || c == '[' || c == ']' ||
      c == '(' || c == ')'))

/-- Modelled from the spec: `string_to_bool` (drbdmanage.utils, not among
the analyzed sources); `none` stands for the `ValueError` raised on an
unparseable value. -/
def string_to_bool (v : String) : Option Bool :=
  if v == "true" || v == "1" then some true
  else if v == "false" || v == "0" then some false
  else none

/-- Modelled from the spec: the flag property keys imported by server.py
from the consts module (FLAG_OVERWRITE, FLAG_DISKLESS, FLAG_CONNECT,
FLAG_DISCARD), which the analyzed copy of consts.py does not define. -/
def KEY_FLAG_OVERWRITE : String := "overwrite"
def KEY_FLAG_DISKLESS : String := "diskless"
def KEY_FLAG_CONNECT : String := "connect"
def KEY_FLAG_DISCARD : String := "discard"

/-- One `try: flag = string_to_bool(props[key]) except (KeyError, TypeError):
pass` block of `assign` (server.py lines 1212-1227); a missing key keeps the
default, an unparseable value is a `ValueError` (`none`). -/
def parse_bool_prop (props : List (String × String)) (key : String)
    (dflt : Bool) : Option Bool :=
  match props_get props key with
  | none => some dflt
  | some v => string_to_bool v

/-! ## Public mutators (server.py)

Each mutator takes the outcome of `persistence_impl(self).open(True)` as the
boolean input `persist_ok` (`false` embeds `begin_modify_conf` returning
`None`) and returns the final server state together with the return-code
list.  The `finally: self.end_modify_conf(persist)` epilogue and the
success-append epilogue are applied on every path, as in the source. -/

/-- Embedding of `DrbdManageServer._create_node` (server.py lines 788-851);
`_configure_drbdctrl` and `adjust_drbdctrl` are external control-volume
operations (modelled from the spec as succeeding without touching the
configuration model). -/
def _create_node (st : ServerState) (node_name : String)
    (props : List (String × String)) : DmRc × ServerState :=
  if (get_node st node_name).isSome then (DmRc.eexist, st)
  else
    let addrfam : Nat :=
      match props_get props NODE_AF with
      | none => 4
      | some af_label => if af_label == "ipv6" then 6 else 4
    match props_get props NODE_ADDR with
    | none => (DmRc.einval, st)
    | some addr =>
      let node_id := get_free_drbdctrl_node_id st
      if node_id == -1 then (DmRc.enodeid, st)
      else if !(valid_name node_name) then (DmRc.ename, st)
      else
        let node : DrbdNode :=
          { name := node_name, addr := addr, addrfam := addrfam,
            node_id := node_id, state := 0, poolsize := -1, poolfree := -1,
            props := merge_gen [] (aux_props_selector props) }
        let st1 := { st with nodes := st.nodes ++ [node] }
        (DmRc.success, cluster_nodes_update st1)

/-- Embedding of `DrbdManageServer.create_node` (server.py lines 759-785). -/
def create_node_body (st : ServerState) (persist_ok : Bool) (node_name : String)
    (props : List (String × String)) : ServerState × List DmRc :=
  if persist_ok then
    let st1 := begin_modify_conf st
    let r := _create_node st1 node_name props
    if r.1 == DmRc.success || r.1 == DmRc.ectrlvol then
      (save_conf_data r.2, [])
    else
      (r.2, [r.1])
  else
    (st, [DmRc.epersist])

/-- Embedding of `DrbdManageServer.remove_node` (server.py lines 854-907). -/
def remove_node_body (st : ServerState) (persist_ok : Bool) (node_name : String)
    (force : Bool) : ServerState × List DmRc :=
  if persist_ok then
    let st1 := begin_modify_conf st
    match get_node st1 node_name with
    | none => (st1, [DmRc.enoent])
    | some _ =>
      if !force && node_has_assignments st1 node_name then
        let res_names := (assignments_of_node st1 node_name).map (fun a => a.res_name)
        let st2 := res_names.foldl (fun acc rn =>
          let acc1 := update_assignment acc node_name rn Assignment.undeploy
          { acc1 with assignments := acc1.assignments.map (fun a =>
              if a.res_name == rn then a.update_connections else a) }) st1
        let st3 := { st2 with nodes := st2.nodes.map (fun n =>
            if n.name == node_name then n.remove else n) }
        (save_conf_data (perform_changes st3), [])
      else
        let res_names := (assignments_of_node st1 node_name).map (fun a => a.res_name)
        let st2 := res_names.foldl (fun acc rn =>
          let acc1 := { acc with assignments := acc.assignments.filter (fun a =>
              !(a.node_name == node_name && a.res_name == rn)) }
          { acc1 with assignments := acc1.assignments.map (fun a =>
              if a.res_name == rn then a.update_connections else a) }) st1
        let st3 := { st2 with nodes := st2.nodes.filter (fun n => !(n.name == node_name)) }
        let st4 := cluster_nodes_update st3
        (save_conf_data st4, [])
  else
    (st, [DmRc.epersist])

/-- Embedding of `DrbdManageServer.create_resource` (server.py lines
910-973); `generate_secret` is external (its result is the input `secret`,
`none` embedding the generation failure). -/
def create_resource_body (st : ServerState) (persist_ok : Bool) (res_name : String)
    (props : List (String × String)) (secret : Option String) :
    ServerState × List DmRc :=
  if persist_ok then
    let st1 := begin_modify_conf st
    if (get_resource st1 res_name).isSome then
      (st1, [DmRc.eexist])
    else
      match secret with
      | none => (st1, [DmRc.esecretg])
      | some sec =>
        let port0 : Option Int :=
          match props_get props RES_PORT with
          | none => some RES_PORT_NR_AUTO
          | some v => v.toInt?
        match port0 with
        | none => (st1, [DmRc.einval])
        | some port1 =>
          let port := if port1 == RES_PORT_NR_AUTO then get_free_port_nr st1 else port1
          if port < 1 || port > 65535 then
            (st1, [DmRc.eport])
          else if !(valid_name res_name) then
            (st1, [DmRc.ename])
          else
            let resource : DrbdResource :=
              { name := res_name, port := port, secret := sec, state := 0,
                volumes := [], props := merge_gen [] (aux_props_selector props) }
            let st2 := { st1 with resources := st1.resources ++ [resource] }
            (save_conf_data st2, [DmRc.success])
  else
    (st, [DmRc.epersist])

/-- Embedding of `DrbdManageServer.remove_resource` (server.py lines
1043-1080). -/
def remove_resource_body (st : ServerState) (persist_ok : Bool) (res_name : String)
    (force : Bool) : ServerState × List DmRc :=
  if persist_ok then
    let st1 := begin_modify_conf st
    match get_resource st1 res_name with
    | none => (st1, [DmRc.enoent])
    | some resource =>
      if !force && resource_has_assignments st1 res_name then
        let st2 := { st1 with assignments := st1.assignments.map (fun a =>
            if a.res_name == res_name then a.undeploy else a) }
        let st3 := put_resource st2 resource.remove
        (save_conf_data (perform_changes st3), [])
      else
        let st2 := { st1 with assignments := st1.assignments.filter (fun a =>
            !(a.res_name == res_name)) }
        let st3 := { st2 with resources := st2.resources.filter (fun r =>
            !(r.name == res_name)) }
        (save_conf_data st3, [])
  else
    (st, [DmRc.epersist])

/-! ## Garbage collection (server.py, cleanup, lines 2017-2112)

The five phases of `cleanup` are embedded as one function per phase.
Iteration over a Python dict while entries are being deleted is embedded as
iteration over a snapshot of the entries.  Phase 4 follows the source
exactly: the `volumes` removal-candidate dict is threaded through the scan
of all volume states of all assignments of a resource, a volume state of a
still-marked volume is removed as soon as it is seen undeployed, and a
deployed volume state un-marks its volume. -/

/-- Phase 1 of `cleanup` (server.py lines 2027-2036): delete the assignments
of registered nodes that have been undeployed (both DEPLOY flags clear). -/
def cleanup_step1 (st : ServerState) : ServerState :=
  { st with assignments := st.assignments.filter (fun a =>
      !((st.nodes.any (fun n => n.name == a.node_name)) &&
        (a.cstate &&& Assignment.FLAG_DEPLOY == 0) &&
        (a.tstate &&& Assignment.FLAG_DEPLOY == 0))) }

/-- Phase 2 of `cleanup` (server.py lines 2038-2059): delete nodes marked
for removal that have no assignments left; if any node was deleted, the
control volume is reconfigured (external) and the remaining peers are
flagged for an update. -/
def cleanup_step2 (st : ServerState) : ServerState :=
  let has_removable := st.nodes.any (fun n =>
      (n.state &&& DrbdNode.FLAG_REMOVE != 0) && !(node_has_assignments st n.name))
  let st1 := { st with nodes := st.nodes.filter (fun n =>
      !((n.state &&& DrbdNode.FLAG_REMOVE != 0) && !(node_has_assignments st n.name))) }
  if has_removable then cluster_nodes_update st1 else st1

/-- Phase 3 of `cleanup` (server.py lines 2061-2073): delete volume states
that have been undeployed (both DEPLOY flags clear), for the assignments of
every registered resource. -/
def cleanup_step3 (st : ServerState) : ServerState :=
  { st with assignments := st.assignments.map (fun a =>
      if st.resources.any (fun r => r.name == a.res_name) then
        { a with vol_states := a.vol_states.filter (fun vs =>
            !((vs.cstate &&& DrbdVolumeState.FLAG_DEPLOY == 0) &&
              (vs.tstate &&& DrbdVolumeState.FLAG_DEPLOY == 0))) }
      else a) }

/-- Phase 4 scan of one assignment's volume states (server.py lines
2085-2095): a volume state of a still-marked volume is kept and un-marks the
volume when its current state is deployed, and is removed otherwise; other
volume states are kept. -/
def cleanup_vol_scan (marked : List Int) :
    List DrbdVolumeState → List DrbdVolumeState × List Int
  | [] => ([], marked)
  | vs :: rest =>
    if marked.contains vs.vol_id then
      if vs.cstate &&& DrbdVolumeState.FLAG_DEPLOY != 0 then
        let r := cleanup_vol_scan (marked.erase vs.vol_id) rest
        (vs :: r.1, r.2)
      else
        cleanup_vol_scan marked rest
    else
      let r := cleanup_vol_scan marked rest
      (vs :: r.1, r.2)

/-- Phase 4 walk over the assignment store (server.py lines 2083-2095): the
removal-candidate set is threaded through the assignments of the resource,
in store order. -/
def cleanup_vol_walk (rname : String) (marked : List Int) :
    List Assignment → List Assignment × List Int
  | [] => ([], marked)
  | a :: rest =>
    if a.res_name == rname then
      let s := cleanup_vol_scan marked a.vol_states
      let r := cleanup_vol_walk rname s.2 rest
      ({ a with vol_states := s.1 } :: r.1, r.2)
    else
      let r := cleanup_vol_walk rname marked rest
      (a :: r.1, r.2)

/-- Phase 4 of `cleanup` for one resource (server.py lines 2077-2097):
collect the volumes marked for removal, scan the resource's volume states,
and delete the volumes that stayed marked. -/
def cleanup_step4_res (r : DrbdResource) (assgs : List Assignment) :
    DrbdResource × List Assignment :=
  let marked0 :=
    ((r.volumes.filter (fun v => v.state &&& DrbdVolume.FLAG_REMOVE != 0)).map
      (fun v => v.vol_id)).dedup
  let w := cleanup_vol_walk r.name marked0 assgs
  ({ r with volumes := r.volumes.filter (fun v => !(w.2.contains v.vol_id)) }, w.1)

/-- Phase 4 of `cleanup`, iterated over the resource map. -/
def cleanup_step4_go : List DrbdResource → List Assignment →
    List DrbdResource × List Assignment
  | [], assgs => ([], assgs)
  | r :: rest, assgs =>
    let p := cleanup_step4_res r assgs
    let q := cleanup_step4_go rest p.2
    (p.1 :: q.1, q.2)

/-- Phase 4 of `cleanup` (server.py lines 2075-2097). -/
def cleanup_step4 (st : ServerState) : ServerState :=
  let p := cleanup_step4_go st.resources st.assignments
  { st with resources := p.1, assignments := p.2 }

/-- Phase 5 of `cleanup` (server.py lines 2099-2108): delete resources
marked for removal that have no assignments left. -/
def cleanup_step5 (st : ServerState) : ServerState :=
  { st with resources := st.resources.filter (fun r =>
      !((r.state &&& DrbdResource.FLAG_REMOVE != 0) &&
        !(resource_has_assignments st r.name))) }

/-- Embedding of `DrbdManageServer.cleanup` (server.py lines 2017-2112). -/
def cleanup (st : ServerState) : ServerState :=
  cleanup_step5 (cleanup_step4 (cleanup_step3 (cleanup_step2 (cleanup_step1 st))))

/-- Embedding of `DrbdManageServer.create_volume` (server.py lines
1083-1146). -/
def create_volume_body (st : ServerState) (persist_ok : Bool) (res_name : String)
    (size_kiB : Int) (props : List (String × String)) : ServerState × List DmRc :=
  if persist_ok then
    let st1 := begin_modify_conf st
    match get_resource st1 res_name with
    | none => (st1, [DmRc.enoent])
    | some resource =>
      let minor0 : Option Int :=
        match props_get props VOL_MINOR with
        | none => some MINOR_NR_AUTO
        | some v => v.toInt?
      match minor0 with
      | none => (st1, [DmRc.eminor])
      | some minor1 =>
        let minor := if minor1 == MINOR_NR_AUTO then get_free_minor_nr st1 else minor1
        if minor == MINOR_NR_ERROR then
          (st1, [DmRc.eminor])
        else
          let vol_id := get_free_volume_id resource
          if vol_id == -1 then
            (st1, [DmRc.evolid])
          else
            let st2 := (get_serial st1).2
            if minor < 0 || minor > MINOR_NR_MAX then
              (st2, [DmRc.eminor])
            else
              let volume : DrbdVolume :=
                { vol_id := vol_id, size_kiB := size_kiB, minor := minor,
                  state := 0, props := merge_gen [] (aux_props_selector props) }
              let resource1 := { resource with volumes := resource.volumes ++ [volume] }
              let st3 := put_resource st2 resource1
              let st4 := { st3 with assignments := st3.assignments.map (fun a =>
                  if a.res_name == res_name then
                    let a1 := a.update_volume_states resource1
                    { a1 with vol_states := a1.vol_states.map (fun vs =>
                        if vs.vol_id == vol_id then (vs.deploy).attach else vs) }
                  else a) }
              (save_conf_data (perform_changes st4), [])
  else
    (st, [DmRc.epersist])

/-- Embedding of `DrbdManageServer.remove_volume` (server.py lines
1149-1190). -/
def remove_volume_body (st : ServerState) (persist_ok : Bool) (res_name : String)
    (vol_id : Int) (force : Bool) : ServerState × List DmRc :=
  if persist_ok then
    let st1 := begin_modify_conf st
    match get_resource st1 res_name with
    | none => (st1, [DmRc.enoent])
    | some resource =>
      match resource.volumes.find? (fun v => v.vol_id == vol_id) with
      | none => (st1, [DmRc.enoent])
      | some _ =>
        if !force && resource_has_assignments st1 res_name then
          let st2 := { st1 with assignments := st1.assignments.map (fun a =>
              if a.res_name == res_name then
                { a with vol_states := a.vol_states.map (fun vs =>
                    if vs.vol_id == vol_id then vs.undeploy else vs) }
              else a) }
          let resource1 := { resource with volumes := resource.volumes.map (fun v =>
              if v.vol_id == vol_id then v.remove else v) }
          let st3 := put_resource st2 resource1
          (save_conf_data (perform_changes st3), [])
        else
          let resource1 := { resource with volumes := resource.volumes.filter (fun v =>
              !(v.vol_id == vol_id)) }
          let st2 := put_resource st1 resource1
          let st3 := { st2 with assignments := st2.assignments.map (fun a =>
              if a.res_name == res_name then
                { a with vol_states := a.vol_states.filter (fun vs =>
                    !(vs.vol_id == vol_id)) }
              else a) }
          (save_conf_data st3, [])
  else
    (st, [DmRc.epersist])

/-- Embedding of `DrbdManageServer._assign` (server.py lines 1347-1378).
The `Assignment` constructor creates one volume state per volume of the
resource (modelled from the spec, section 3 invariant 3); the deploy/attach
loop over the new volume states follows the source. -/
def _assign (st : ServerState) (node_name res_name : String)
    (cstate tstate : Nat) : DmRc × ServerState :=
  let st1 := (get_serial st).2
  let node_id := get_free_node_id st1 res_name
  if node_id == -1 then (DmRc.enodeid, st1)
  else
    match get_resource st1 res_name with
    | none => (DmRc.debug, st1)
    | some resource =>
      let vol_states := resource.volumes.map (fun vol =>
        let vs : DrbdVolumeState := { vol_id := vol.vol_id, cstate := 0, tstate := 0 }
        if tstate &&& Assignment.FLAG_DISKLESS == 0 then (vs.deploy).attach
        else vs.deploy)
      let assignment : Assignment :=
        { node_name := node_name, res_name := res_name, node_id := node_id,
          cstate := cstate, tstate := tstate, vol_states := vol_states, props := [] }
      let st2 := { st1 with assignments := st1.assignments ++ [assignment] }
      let st3 := { st2 with assignments := st2.assignments.map (fun a =>
          if a.res_name == res_name && a.is_deployed then a.update_connections else a) }
      (DmRc.success, st3)

/-- Embedding of `DrbdManageServer.assign` (server.py lines 1193-1296).
The four flag properties are parsed before the configuration is opened; an
unparseable flag value raises `ValueError`, answered with `EINVAL`. -/
def assign_body (st : ServerState) (persist_ok : Bool) (node_name res_name : String)
    (props : List (String × String)) : ServerState × List DmRc :=
  match parse_bool_prop props KEY_FLAG_OVERWRITE false,
        parse_bool_prop props KEY_FLAG_DISKLESS false,
        parse_bool_prop props KEY_FLAG_CONNECT true,
        parse_bool_prop props KEY_FLAG_DISCARD false with
  | some flag_overwrite, some flag_diskless, some flag_connect, some flag_discard =>
    if persist_ok then
      let st1 := begin_modify_conf st
      if (get_node st1 node_name).isNone || (get_resource st1 res_name).isNone then
        (st1, [DmRc.enoent])
      else if (get_assignment st1 node_name res_name).isSome then
        (st1, [DmRc.eexist])
      else if flag_overwrite && flag_diskless then
        (st1, [DmRc.einval])
      else if flag_overwrite && flag_discard then
        (st1, [DmRc.einval])
      else
        let st2 :=
          if flag_overwrite then
            { st1 with assignments := st1.assignments.map (fun a =>
                if a.res_name == res_name then
                  a.clear_tstate_flags Assignment.FLAG_OVERWRITE
                else a) }
          else st1
        let tstate :=
          Assignment.FLAG_DEPLOY |||
          (if flag_overwrite then Assignment.FLAG_OVERWRITE else 0) |||
          (if flag_discard then Assignment.FLAG_DISCARD else 0) |||
          (if flag_connect then Assignment.FLAG_CONNECT else 0) |||
          (if flag_diskless then Assignment.FLAG_DISKLESS else 0)
        let r := _assign st2 node_name res_name 0 tstate
        if r.1 == DmRc.success then
          let st3 := update_assignment r.2 node_name res_name (fun a =>
            { a with props := merge_gen a.props (aux_props_selector props) })
          (save_conf_data (perform_changes st3), [])
        else
          (r.2, [r.1])
    else
      (st, [DmRc.epersist])
  | _, _, _, _ =>
    (st, [DmRc.einval])

/-- Embedding of `DrbdManageServer._unassign` (server.py lines 1381-1404). -/
def _unassign (st : ServerState) (node_name res_name : String) (force : Bool)
    (assignment : Assignment) : DmRc × ServerState :=
  let st1 := (get_serial st).2
  let st2 :=
    if !force && assignment.is_deployed then
      update_assignment st1 node_name res_name (fun a => (a.disconnect).undeploy)
    else
      { st1 with assignments := st1.assignments.filter (fun a =>
          !(a.node_name == node_name && a.res_name == res_name)) }
  let st3 := { st2 with assignments := st2.assignments.map (fun a =>
      if a.res_name == res_name && !(a.node_name == node_name) && a.is_deployed then
        a.update_connections
      else a) }
  (DmRc.success, cleanup st3)

/-- Embedding of `DrbdManageServer.unassign` (server.py lines 1299-1344).
When a node or resource lookup raises `KeyError`, `ENOENT` is recorded, and
the later reference to the unbound local then raises a `NameError`, which
the generic exception handler records as a `DEBUG` entry. -/
def unassign_body (st : ServerState) (persist_ok : Bool) (node_name res_name : String)
    (force : Bool) : ServerState × List DmRc :=
  if persist_ok then
    let st1 := begin_modify_conf st
    let node_rc : List DmRc :=
      if (get_node st1 node_name).isNone then [DmRc.enoent] else []
    let res_rc : List DmRc :=
      if (get_resource st1 res_name).isNone then [DmRc.enoent] else []
    if (get_node st1 node_name).isNone || (get_resource st1 res_name).isNone then
      (st1, (node_rc ++ res_rc ++ [DmRc.debug]))
    else
      match get_assignment st1 node_name res_name with
      | none => (st1, [DmRc.enoent])
      | some assignment =>
        let r := _unassign st1 node_name res_name force assignment
        if r.1 == DmRc.success then
          (save_conf_data (perform_changes r.2), [])
        else
          (r.2, [r.1])
  else
    (st, [DmRc.epersist])

/-- Embedding of `DrbdManageServer.modify_state` (server.py lines
1712-1767): applies the clear/set mask pairs to the assignment's state
bitfields; setting OVERWRITE overrides DISCARD and clears OVERWRITE on all
other assignments of the resource. -/
def modify_state_body (st : ServerState) (persist_ok : Bool)
    (node_name res_name : String)
    (cstate_clear_mask cstate_set_mask tstate_clear_mask tstate_set_mask : Nat) :
    ServerState × List DmRc :=
  if persist_ok then
    let st1 := begin_modify_conf st
    if (get_node st1 node_name).isNone then
      (st1, [DmRc.enoent])
    else
      match get_assignment st1 node_name res_name with
      | none => (st1, [DmRc.enoent])
      | some _ =>
        let tstate_clear_mask1 :=
          if tstate_set_mask &&& Assignment.FLAG_OVERWRITE != 0 then
            tstate_clear_mask ||| Assignment.FLAG_DISCARD
          else if tstate_set_mask &&& Assignment.FLAG_DISCARD != 0 then
            tstate_clear_mask ||| Assignment.FLAG_OVERWRITE
          else tstate_clear_mask
        let tstate_set_mask1 :=
          if tstate_set_mask &&& Assignment.FLAG_OVERWRITE != 0 then
            clear_flags tstate_set_mask Assignment.FLAG_DISCARD
          else tstate_set_mask
        let st2 := update_assignment st1 node_name res_name (fun a =>
          (((a.clear_cstate_flags cstate_clear_mask).set_cstate_flags
              cstate_set_mask).clear_tstate_flags
              tstate_clear_mask1).set_tstate_flags tstate_set_mask1)
        let st3 :=
          if tstate_set_mask1 &&& Assignment.FLAG_OVERWRITE != 0 then
            { st2 with assignments := st2.assignments.map (fun a =>
                if a.res_name == res_name &&
                   !(a.node_name == node_name && a.res_name == res_name) then
                  a.clear_tstate_flags Assignment.FLAG_OVERWRITE
                else a) }
          else st2
        (save_conf_data (perform_changes st3), [])
  else
    (st, [DmRc.epersist])

/-- Embedding of `DrbdManageServer.connect` (server.py lines 1771-1809).
A persistence failure is swallowed by the bare `except PersistenceException:
pass` handler, so the epilogue reports success. -/
def connect_body (st : ServerState) (persist_ok : Bool) (node_name res_name : String)
    (reconnect : Bool) : ServerState × List DmRc :=
  if persist_ok then
    let st1 := begin_modify_conf st
    if (get_node st1 node_name).isNone || (get_resource st1 res_name).isNone then
      (st1, [DmRc.enoent])
    else
      match get_assignment st1 node_name res_name with
      | none => (st1, [DmRc.enoent])
      | some _ =>
        let st2 := update_assignment st1 node_name res_name (fun a =>
          if reconnect then a.reconnect else a.connect)
        (save_conf_data (perform_changes st2), [])
  else
    (st, [])

/-- Embedding of `DrbdManageServer.disconnect` (server.py lines 1812-1848). -/
def disconnect_body (st : ServerState) (persist_ok : Bool)
    (node_name res_name : String) : ServerState × List DmRc :=
  if persist_ok then
    let st1 := begin_modify_conf st
    if (get_node st1 node_name).isNone || (get_resource st1 res_name).isNone then
      (st1, [DmRc.enoent])
    else
      match get_assignment st1 node_name res_name with
      | none => (st1, [DmRc.enoent])
      | some _ =>
        let st2 := update_assignment st1 node_name res_name Assignment.disconnect
        (save_conf_data (perform_changes st2), [])
  else
    (st, [DmRc.epersist])

/-- Embedding of `DrbdManageServer.attach` (server.py lines 1851-1892).
When `begin_modify_conf` returns `None`, the body is skipped without an
exception (the source has no `else` branch here), so the epilogue reports
success. -/
def attach_body (st : ServerState) (persist_ok : Bool) (node_name res_name : String)
    (vol_id : Int) : ServerState × List DmRc :=
  if persist_ok then
    let st1 := begin_modify_conf st
    if (get_node st1 node_name).isNone || (get_resource st1 res_name).isNone then
      (st1, [DmRc.enoent])
    else
      match get_assignment st1 node_name res_name with
      | none => (st1, [DmRc.enoent])
      | some assignment =>
        match get_volume_state assignment vol_id with
        | none => (st1, [DmRc.enoent])
        | some _ =>
          let st2 := update_assignment st1 node_name res_name (fun a =>
            { a with vol_states := a.vol_states.map (fun vs =>
                if vs.vol_id == vol_id then vs.attach else vs) })
          (save_conf_data (perform_changes st2), [DmRc.success])
  else
    (st, [])

/-- Embedding of `DrbdManageServer.detach` (server.py lines 1895-1936). -/
def detach_body (st : ServerState) (persist_ok : Bool) (node_name res_name : String)
    (vol_id : Int) : ServerState × List DmRc :=
  if persist_ok then
    let st1 := begin_modify_conf st
    if (get_node st1 node_name).isNone || (get_resource st1 res_name).isNone then
      (st1, [DmRc.enoent])
    else
      match get_assignment st1 node_name res_name with
      | none => (st1, [DmRc.enoent])
      | some assignment =>
        match get_volume_state assignment vol_id with
        | none => (st1, [DmRc.enoent])
        | some _ =>
          let st2 := update_assignment st1 node_name res_name (fun a =>
            { a with vol_states := a.vol_states.map (fun vs =>
                if vs.vol_id == vol_id then vs.detach else vs) })
          (save_conf_data (perform_changes st2), [])
  else
    (st, [DmRc.epersist])

/-- Embedding of `DrbdManageServer.update_pool_data` (server.py lines
1972-2014).  The storage backend call `self._bd_mgr.update_pool` is external;
its outcome is the input `stor` (`none` embeds a non-success storage return
code).  When the instance node has at least one assignment, the pool-free
correction loop references the undefined name `peers` (server.py line 1999),
so the generic handler reports `DM_DEBUG`. -/
def update_pool_data (st : ServerState) (stor : Option (Int × Int)) :
    DmRc × ServerState :=
  match get_node st st.instance_node_name with
  | none => (DmRc.enoent, st)
  | some _ =>
    match stor with
    | none => (DmRc.success, st)
    | some poolinfo =>
      if node_has_assignments st st.instance_node_name then (DmRc.debug, st)
      else
        let poolfree := if poolinfo.2 < 0 then 0 else poolinfo.2
        (DmRc.success,
         { st with nodes := st.nodes.map (fun n =>
             if n.name == st.instance_node_name then
               { n with poolsize := poolinfo.1, poolfree := poolfree }
             else n) })

/-- Embedding of `DrbdManageServer.update_pool` (server.py lines 1939-1969). -/
def update_pool_body (st : ServerState) (persist_ok : Bool)
    (stor : Option (Int × Int)) : ServerState × List DmRc :=
  if persist_ok then
    let st1 := begin_modify_conf st
    let r := update_pool_data st1 stor
    if r.1 == DmRc.success then
      (save_conf_data (cleanup r.2), [])
    else
      (r.2, [r.1])
  else
    (st, [DmRc.epersist])

/-! ## Mutator epilogue

Every public mutator of server.py runs `finally: self.end_modify_conf(persist)`
and then appends `DM_SUCCESS` when the return-code list is still empty; the
`*_body` functions above are each mutator up to that shared epilogue. -/

/-- Embedding of `DrbdManageServer.create_node` with its epilogue. -/
def create_node (st : ServerState) (persist_ok : Bool) (node_name : String)
    (props : List (String × String)) : ServerState × List DmRc :=
  let r := create_node_body st persist_ok node_name props
  (end_modify_conf r.1, finish_rc r.2)

/-- Embedding of `DrbdManageServer.remove_node` with its epilogue. -/
def remove_node (st : ServerState) (persist_ok : Bool) (node_name : String)
    (force : Bool) : ServerState × List DmRc :=
  let r := remove_node_body st persist_ok node_name force
  (end_modify_conf r.1, finish_rc r.2)

/-- Embedding of `DrbdManageServer.create_resource` with its epilogue. -/
def create_resource (st : ServerState) (persist_ok : Bool) (res_name : String)
    (props : List (String × String)) (secret : Option String) :
    ServerState × List DmRc :=
  let r := create_resource_body st persist_ok res_name props secret
  (end_modify_conf r.1, finish_rc r.2)

/-- Embedding of `DrbdManageServer.remove_resource` with its epilogue. -/
def remove_resource (st : ServerState) (persist_ok : Bool) (res_name : String)
    (force : Bool) : ServerState × List DmRc :=
  let r := remove_resource_body st persist_ok res_name force
  (end_modify_conf r.1, finish_rc r.2)

/-- Embedding of `DrbdManageServer.create_volume` with its epilogue. -/
def create_volume (st : ServerState) (persist_ok : Bool) (res_name : String)
    (size_kiB : Int) (props : List (String × String)) : ServerState × List DmRc :=
  let r := create_volume_body st persist_ok res_name size_kiB props
  (end_modify_conf r.1, finish_rc r.2)

/-- Embedding of `DrbdManageServer.remove_volume` with its epilogue. -/
def remove_volume (st : ServerState) (persist_ok : Bool) (res_name : String)
    (vol_id : Int) (force : Bool) : ServerState × List DmRc :=
  let r := remove_volume_body st persist_ok res_name vol_id force
  (end_modify_conf r.1, finish_rc r.2)

/-- Embedding of `DrbdManageServer.assign` with its epilogue. -/
def assign (st : ServerState) (persist_ok : Bool) (node_name res_name : String)
    (props : List (String × String)) : ServerState × List DmRc :=
  let r := assign_body st persist_ok node_name res_name props
  (end_modify_conf r.1, finish_rc r.2)

/-- Embedding of `DrbdManageServer.unassign` with its epilogue. -/
def unassign (st : ServerState) (persist_ok : Bool) (node_name res_name : String)
    (force : Bool) : ServerState × List DmRc :=
  let r := unassign_body st persist_ok node_name res_name force
  (end_modify_conf r.1, finish_rc r.2)

/-- Embedding of `DrbdManageServer.modify_state` with its epilogue. -/
def modify_state (st : ServerState) (persist_ok : Bool)
    (node_name res_name : String)
    (cstate_clear_mask cstate_set_mask tstate_clear_mask tstate_set_mask : Nat) :
    ServerState × List DmRc :=
  let r := modify_state_body st persist_ok node_name res_name
    cstate_clear_mask cstate_set_mask tstate_clear_mask tstate_set_mask
  (end_modify_conf r.1, finish_rc r.2)

/-- Embedding of `DrbdManageServer.connect` with its epilogue. -/
def connect (st : ServerState) (persist_ok : Bool) (node_name res_name : String)
    (reconnect : Bool) : ServerState × List DmRc :=
  let r := connect_body st persist_ok node_name res_name reconnect
  (end_modify_conf r.1, finish_rc r.2)

/-- Embedding of `DrbdManageServer.disconnect` with its epilogue. -/
def disconnect (st : ServerState) (persist_ok : Bool)
    (node_name res_name : String) : ServerState × List DmRc :=
  let r := disconnect_body st persist_ok node_name res_name
  (end_modify_conf r.1, finish_rc r.2)

/-- Embedding of `DrbdManageServer.attach` with its epilogue. -/
def attach (st : ServerState) (persist_ok : Bool) (node_name res_name : String)
    (vol_id : Int) : ServerState × List DmRc :=
  let r := attach_body st persist_ok node_name res_name vol_id
  (end_modify_conf r.1, finish_rc r.2)

/-- Embedding of `DrbdManageServer.detach` with its epilogue. -/
def detach (st : ServerState) (persist_ok : Bool) (node_name res_name : String)
    (vol_id : Int) : ServerState × List DmRc :=
  let r := detach_body st persist_ok node_name res_name vol_id
  (end_modify_conf r.1, finish_rc r.2)

/-- Embedding of `DrbdManageServer.update_pool` with its epilogue. -/
def update_pool (st : ServerState) (persist_ok : Bool)
    (stor : Option (Int × Int)) : ServerState × List DmRc :=
  let r := update_pool_body st persist_ok stor
  (end_modify_conf r.1, finish_rc r.2)

/-! ## Sample cluster state used by concrete witnesses -/

/-- A small concrete server state: two nodes, one resource, one assignment
of the resource to node beta with only the DEPLOY target flag set. -/
def sample_st : ServerState :=
  { instance_node_name := "alpha"
    nodes := [{ name := "alpha", addr := "10.0.0.1", addrfam := 4, node_id := 0,
                state := 0, poolsize := -1, poolfree := -1, props := [] },
              { name := "beta", addr := "10.0.0.2", addrfam := 4, node_id := 1,
                state := 0, poolsize := -1, poolfree := -1, props := [] }]
    resources := [{ name := "r0", port := 7000, secret := "s", state := 0,
                    volumes := [], props := [] }]
    assignments := [{ node_name := "beta", res_name := "r0", node_id := 0,
                      cstate := 0, tstate := Assignment.FLAG_DEPLOY,
                      vol_states := [], props := [] }]
    serial_conf := some 1
    change_open := false
    session_open := false
    conf_min_minor := 100
    conf_min_port := 7000
    conf_max_port := 7999
    conf_max_node_id := 31 }

/-! ## C2: the OVERWRITE flag observables

`overwrite_count st rn` counts the assignments of resource `rn` whose
target state carries the OVERWRITE flag. -/

/-- Whether the assignment's target state carries the OVERWRITE flag. -/
def overwrite_set (a : Assignment) : Bool :=
  a.tstate &&& Assignment.FLAG_OVERWRITE != 0

def overwrite_pred (rn : String) (a : Assignment) : Bool :=
  a.res_name == rn && overwrite_set a

def overwrite_count (st : ServerState) (rn : String) : Nat :=
  (st.assignments.filter (overwrite_pred rn)).length

/-! ## C8: observables and derivation predicates for cleanup

`flat_vol_states rname l` lists the volume states of the assignments of
resource `rname` in store order, `assg_deriv a b` says `b` is `a` with some
volume states removed, and `clean_res r l` says every volume of `r` still
marked for removal has a deployed first occurrence in the store. -/

def flat_vol_states (rname : String) : List Assignment → List DrbdVolumeState
  | [] => []
  | a :: rest =>
    (if a.res_name == rname then a.vol_states else []) ++ flat_vol_states rname rest

def assg_deriv (a b : Assignment) : Prop :=
  b.node_name = a.node_name ∧ b.res_name = a.res_name ∧ b.cstate = a.cstate ∧
  b.tstate = a.tstate ∧ b.vol_states.Sublist a.vol_states

def clean_res (r : DrbdResource) (l : List Assignment) : Prop :=
  (∀ v ∈ r.volumes, (v.state &&& DrbdVolume.FLAG_REMOVE != 0) = true →
    ∀ w, (flat_vol_states r.name l).find? (fun u => u.vol_id == v.vol_id) = some w →
      (w.cstate &&& DrbdVolumeState.FLAG_DEPLOY != 0) = true) ∧
  (∀ v ∈ r.volumes, (v.state &&& DrbdVolume.FLAG_REMOVE != 0) = true →
    (flat_vol_states r.name l).any (fun u => u.vol_id == v.vol_id) = true)

/-! ## C1: classification of event lines -/

/-- C1: an event line signals a reconciliation trigger if and only if its
type is "change", its name attribute equals the control-resource name
".drbdctrl", and either the source is "connection" with role attribute
"Secondary", or the source is "peer-device" with replication attribute
"SyncTarget"; every other line (missing attributes or a different resource
name included) signals no trigger. -/
theorem drbd_event_change_trigger_characterization
    (evt_type evt_source : String) (line_data : List (String × String)) :
    drbd_event_change_trigger evt_type evt_source line_data = true ↔
    (evt_type = EVT_TYPE_CHANGE ∧
     props_get line_data EVT_ARG_NAME = some DRBDCTRL_RES_NAME ∧
     ((evt_source = EVT_SRC_CON ∧
       props_get line_data EVT_ARG_ROLE = some EVT_ROLE_SECONDARY) ∨
      (evt_source = EVT_SRC_PEERDEV ∧
       props_get line_data EVT_ARG_REPL = some EVT_REPL_SYNCTARGET))) := by
  unfold drbd_event_change_trigger
  cases h1 : props_get line_data EVT_ARG_NAME with
  | none => simp [h1]
  | some nm =>
    cases h2 : props_get line_data EVT_ARG_ROLE with
    | none =>
      cases h3 : props_get line_data EVT_ARG_REPL with
      | none => simp [h2, h3]
      | some repl => simp [h2, h3]
    | some role =>
      cases h3 : props_get line_data EVT_ARG_REPL with
      | none => simp [h2, h3]
      | some repl => simp [h2, h3]

/-! ## C6: coalescing of event bursts -/

/-- The classification loop computes whether any drained line triggers. -/
theorem drbd_event_changed_eq_any (lines : List EventLine) :
    drbd_event_changed lines = lines.any line_triggers := by
  unfold drbd_event_changed
  suffices h : ∀ b : Bool, List.foldl
      (fun changed l => if changed then changed else line_triggers l) b lines
      = (b || lines.any line_triggers) by
    simpa using h false
  induction lines with
  | nil => intro b; simp
  | cons l rest ih =>
    intro b
    cases b <;> simp [List.any_cons, ih]

/-- C6: for one drain of the event pipe, the reconciliation run is invoked
at most once; it is invoked exactly once when at least one drained line is a
triggering line, and not at all otherwise. -/
theorem drbd_event_coalescing (lines : List EventLine) :
    drbd_event_run_count lines ≤ 1 ∧
    (drbd_event_run_count lines = 1 ↔ lines.any line_triggers = true) ∧
    (drbd_event_run_count lines = 0 ↔ lines.any line_triggers = false) := by
  unfold drbd_event_run_count
  rw [drbd_event_changed_eq_any]
  cases h : lines.any line_triggers <;> simp

/-! ## C3: serial numbers are incremented once per change generation -/

/-- C3: in a closed generation, the first `get_serial` call returns the
previous serial plus one and stores it; any call in an open generation
returns the stored serial and does not change the state, so every
subsequent call before `close_serial` returns the same value. -/
theorem serial_change_generation (st : ServerState)
    (h : st.change_open = false) :
    (get_serial st).1 = peek_serial st + 1 ∧
    peek_serial (get_serial st).2 = peek_serial st + 1 ∧
    (get_serial st).2.change_open = true ∧
    (∀ st1 : ServerState, st1.change_open = true →
      get_serial st1 = (peek_serial st1, st1)) := by
  refine ⟨?_, ?_, ?_, ?_⟩
  · simp [get_serial, h]
  · simp [get_serial, peek_serial, h]
  · simp [get_serial, h]
  · intro st1 h1
    simp [get_serial, h1]

/-- Witness for C3 at the sample state. -/
theorem serial_change_generation_witness :
    sample_st.change_open = false ∧
    (get_serial sample_st).1 = peek_serial sample_st + 1 ∧
    peek_serial (get_serial sample_st).2 = peek_serial sample_st + 1 :=
  ⟨rfl, (serial_change_generation sample_st rfl).1,
    (serial_change_generation sample_st rfl).2.1⟩

/-! ## C10: every mutator closes the change generation -/

/-- The shared epilogue closes the persistence session and the change
generation, so the next `get_serial` call opens a new generation. -/
theorem end_modify_conf_spec (st : ServerState) :
    (end_modify_conf st).change_open = false ∧
    (end_modify_conf st).session_open = false ∧
    (get_serial (end_modify_conf st)).1 = peek_serial (end_modify_conf st) + 1 := by
  refine ⟨rfl, rfl, ?_⟩
  simp [end_modify_conf, close_serial, get_serial]

/-- C10: after every public mutator returns, on every path, the
change-generation flag is closed and the persistence session is closed, so
the next `get_serial` call on the resulting state opens a new generation
(returns the stored serial plus one). -/
theorem mutators_close_change_generation :
    (∀ st pok nm props, (create_node st pok nm props).1.change_open = false ∧
      (create_node st pok nm props).1.session_open = false ∧
      (get_serial (create_node st pok nm props).1).1 =
        peek_serial (create_node st pok nm props).1 + 1) ∧
    (∀ st pok nm f, (remove_node st pok nm f).1.change_open = false ∧
      (remove_node st pok nm f).1.session_open = false ∧
      (get_serial (remove_node st pok nm f).1).1 =
        peek_serial (remove_node st pok nm f).1 + 1) ∧
    (∀ st pok rn props sec, (create_resource st pok rn props sec).1.change_open = false ∧
      (create_resource st pok rn props sec).1.session_open = false ∧
      (get_serial (create_resource st pok rn props sec).1).1 =
        peek_serial (create_resource st pok rn props sec).1 + 1) ∧
    (∀ st pok rn f, (remove_resource st pok rn f).1.change_open = false ∧
      (remove_resource st pok rn f).1.session_open = false ∧
      (get_serial (remove_resource st pok rn f).1).1 =
        peek_serial (remove_resource st pok rn f).1 + 1) ∧
    (∀ st pok rn sz props, (create_volume st pok rn sz props).1.change_open = false ∧
      (create_volume st pok rn sz props).1.session_open = false ∧
      (get_serial (create_volume st pok rn sz props).1).1 =
        peek_serial (create_volume st pok rn sz props).1 + 1) ∧
    (∀ st pok rn vid f, (remove_volume st pok rn vid f).1.change_open = false ∧
      (remove_volume st pok rn vid f).1.session_open = false ∧
      (get_serial (remove_volume st pok rn vid f).1).1 =
        peek_serial (remove_volume st pok rn vid f).1 + 1) ∧
    (∀ st pok nm rn props, (assign st pok nm rn props).1.change_open = false ∧
      (assign st pok nm rn props).1.session_open = false ∧
      (get_serial (assign st pok nm rn props).1).1 =
        peek_serial (assign st pok nm rn props).1 + 1) ∧
    (∀ st pok nm rn f, (unassign st pok nm rn f).1.change_open = false ∧
      (unassign st pok nm rn f).1.session_open = false ∧
      (get_serial (unassign st pok nm rn f).1).1 =
        peek_serial (unassign st pok nm rn f).1 + 1) ∧
    (∀ st pok nm rn cc cs tc ts, (modify_state st pok nm rn cc cs tc ts).1.change_open = false ∧
      (modify_state st pok nm rn cc cs tc ts).1.session_open = false ∧
      (get_serial (modify_state st pok nm rn cc cs tc ts).1).1 =
        peek_serial (modify_state st pok nm rn cc cs tc ts).1 + 1) ∧
    (∀ st pok nm rn rec, (connect st pok nm rn rec).1.change_open = false ∧
      (connect st pok nm rn rec).1.session_open = false ∧
      (get_serial (connect st pok nm rn rec).1).1 =
        peek_serial (connect st pok nm rn rec).1 + 1) ∧
    (∀ st pok nm rn, (disconnect st pok nm rn).1.change_open = false ∧
      (disconnect st pok nm rn).1.session_open = false ∧
      (get_serial (disconnect st pok nm rn).1).1 =
        peek_serial (disconnect st pok nm rn).1 + 1) ∧
    (∀ st pok nm rn vid, (attach st pok nm rn vid).1.change_open = false ∧
      (attach st pok nm rn vid).1.session_open = false ∧
      (get_serial (attach st pok nm rn vid).1).1 =
        peek_serial (attach st pok nm rn vid).1 + 1) ∧
    (∀ st pok nm rn vid, (detach st pok nm rn vid).1.change_open = false ∧
      (detach st pok nm rn vid).1.session_open = false ∧
      (get_serial (detach st pok nm rn vid).1).1 =
        peek_serial (detach st pok nm rn vid).1 + 1) ∧
    (∀ st pok stor, (update_pool st pok stor).1.change_open = false ∧
      (update_pool st pok stor).1.session_open = false ∧
      (get_serial (update_pool st pok stor).1).1 =
        peek_serial (update_pool st pok stor).1 + 1) := by
  refine ⟨?_, ?_, ?_, ?_, ?_, ?_, ?_, ?_, ?_, ?_, ?_, ?_, ?_, ?_⟩ <;>
    (intros; exact end_modify_conf_spec _)

/-! ## C4: behavior of the mutators when opening the configuration fails -/

/-- The in-memory model (nodes, resources, assignments and the cluster
serial) is the same in two server states. -/
def same_model (a b : ServerState) : Prop :=
  a.nodes = b.nodes ∧ a.resources = b.resources ∧
  a.assignments = b.assignments ∧ a.serial_conf = b.serial_conf

/-- C4 (amended): when `begin_modify_conf` fails, every public mutator
leaves the in-memory model unchanged; create_node, remove_node,
create_resource, remove_resource, create_volume, remove_volume, unassign,
modify_state, disconnect, detach and update_pool report EPERSIST, while
connect and attach report only SUCCESS (their persistence failure is
swallowed), and assign reports EPERSIST unless its flag properties fail to
parse, in which case it reports EINVAL before opening the configuration. -/
theorem mutators_persistence_failure :
    (∀ st nm props, same_model (create_node st false nm props).1 st ∧
      (create_node st false nm props).2 = [DmRc.epersist]) ∧
    (∀ st nm f, same_model (remove_node st false nm f).1 st ∧
      (remove_node st false nm f).2 = [DmRc.epersist]) ∧
    (∀ st rn props sec, same_model (create_resource st false rn props sec).1 st ∧
      (create_resource st false rn props sec).2 = [DmRc.epersist]) ∧
    (∀ st rn f, same_model (remove_resource st false rn f).1 st ∧
      (remove_resource st false rn f).2 = [DmRc.epersist]) ∧
    (∀ st rn sz props, same_model (create_volume st false rn sz props).1 st ∧
      (create_volume st false rn sz props).2 = [DmRc.epersist]) ∧
    (∀ st rn vid f, same_model (remove_volume st false rn vid f).1 st ∧
      (remove_volume st false rn vid f).2 = [DmRc.epersist]) ∧
    (∀ st nm rn f, same_model (unassign st false nm rn f).1 st ∧
      (unassign st false nm rn f).2 = [DmRc.epersist]) ∧
    (∀ st nm rn cc cs tc ts, same_model (modify_state st false nm rn cc cs tc ts).1 st ∧
      (modify_state st false nm rn cc cs tc ts).2 = [DmRc.epersist]) ∧
    (∀ st nm rn, same_model (disconnect st false nm rn).1 st ∧
      (disconnect st false nm rn).2 = [DmRc.epersist]) ∧
    (∀ st nm rn vid, same_model (detach st false nm rn vid).1 st ∧
      (detach st false nm rn vid).2 = [DmRc.epersist]) ∧
    (∀ st stor, same_model (update_pool st false stor).1 st ∧
      (update_pool st false stor).2 = [DmRc.epersist]) ∧
    (∀ st nm rn rec, same_model (connect st false nm rn rec).1 st ∧
      (connect st false nm rn rec).2 = [DmRc.success]) ∧
    (∀ st nm rn vid, same_model (attach st false nm rn vid).1 st ∧
      (attach st false nm rn vid).2 = [DmRc.success]) ∧
    (∀ st nm rn props, same_model (assign st false nm rn props).1 st ∧
      ((assign st false nm rn props).2 = [DmRc.epersist] ∨
       (assign st false nm rn props).2 = [DmRc.einval])) := by
  refine ⟨?_, ?_, ?_, ?_, ?_, ?_, ?_, ?_, ?_, ?_, ?_, ?_, ?_, ?_⟩
  · intro st nm props
    exact ⟨⟨rfl, rfl, rfl, rfl⟩, rfl⟩
  · intro st nm f
    exact ⟨⟨rfl, rfl, rfl, rfl⟩, rfl⟩
  · intro st rn props sec
    exact ⟨⟨rfl, rfl, rfl, rfl⟩, rfl⟩
  · intro st rn f
    exact ⟨⟨rfl, rfl, rfl, rfl⟩, rfl⟩
  · intro st rn sz props
    exact ⟨⟨rfl, rfl, rfl, rfl⟩, rfl⟩
  · intro st rn vid f
    exact ⟨⟨rfl, rfl, rfl, rfl⟩, rfl⟩
  · intro st nm rn f
    exact ⟨⟨rfl, rfl, rfl, rfl⟩, rfl⟩
  · intro st nm rn cc cs tc ts
    exact ⟨⟨rfl, rfl, rfl, rfl⟩, rfl⟩
  · intro st nm rn
    exact ⟨⟨rfl, rfl, rfl, rfl⟩, rfl⟩
  · intro st nm rn vid
    exact ⟨⟨rfl, rfl, rfl, rfl⟩, rfl⟩
  · intro st stor
    exact ⟨⟨rfl, rfl, rfl, rfl⟩, rfl⟩
  · intro st nm rn rec
    exact ⟨⟨rfl, rfl, rfl, rfl⟩, rfl⟩
  · intro st nm rn vid
    exact ⟨⟨rfl, rfl, rfl, rfl⟩, rfl⟩
  · intro st nm rn props
    unfold assign assign_body
    cases h1 : parse_bool_prop props KEY_FLAG_OVERWRITE false with
    | none =>
      cases h2 : parse_bool_prop props KEY_FLAG_DISKLESS false <;>
        cases h3 : parse_bool_prop props KEY_FLAG_CONNECT true <;>
          cases h4 : parse_bool_prop props KEY_FLAG_DISCARD false <;>
            exact ⟨⟨rfl, rfl, rfl, rfl⟩, Or.inr rfl⟩
    | some b1 =>
      cases h2 : parse_bool_prop props KEY_FLAG_DISKLESS false with
      | none =>
        cases h3 : parse_bool_prop props KEY_FLAG_CONNECT true <;>
          cases h4 : parse_bool_prop props KEY_FLAG_DISCARD false <;>
            exact ⟨⟨rfl, rfl, rfl, rfl⟩, Or.inr rfl⟩
      | some b2 =>
        cases h3 : parse_bool_prop props KEY_FLAG_CONNECT true with
        | none =>
          cases h4 : parse_bool_prop props KEY_FLAG_DISCARD false <;>
            exact ⟨⟨rfl, rfl, rfl, rfl⟩, Or.inr rfl⟩
        | some b3 =>
          cases h4 : parse_bool_prop props KEY_FLAG_DISCARD false with
          | none => exact ⟨⟨rfl, rfl, rfl, rfl⟩, Or.inr rfl⟩
          | some b4 => exact ⟨⟨rfl, rfl, rfl, rfl⟩, Or.inl rfl⟩

/-- Counterexample for C4 as frozen: with a failing `begin_modify_conf`,
`connect` reports SUCCESS and its result does not contain EPERSIST. -/
theorem connect_persistence_failure_cx :
    (connect sample_st false "beta" "r0" false).2 = [DmRc.success] ∧
    DmRc.epersist ∉ (connect sample_st false "beta" "r0" false).2 := by
  decide

/-! ## C9: create_node without an address -/

/-- C9 (amended): a `create_node` call whose properties contain no "addr"
entry never registers a node; it reports EINVAL provided the configuration
opens for modification and the node name is not already registered (a
duplicate name is answered with EEXIST first, and a persistence failure
with EPERSIST). -/
theorem create_node_missing_addr (st : ServerState) (persist_ok : Bool)
    (nm : String) (props : List (String × String))
    (haddr : props_get props NODE_ADDR = none) :
    (create_node st persist_ok nm props).1.nodes = st.nodes ∧
    (persist_ok = true → (get_node st nm).isNone = true →
      (create_node st persist_ok nm props).2 = [DmRc.einval]) := by
  cases persist_ok with
  | false => exact ⟨rfl, by intro h; cases h⟩
  | true =>
    simp only [create_node, create_node_body, _create_node]
    cases hx : get_node (begin_modify_conf st) nm with
    | some node =>
      have hx2 : get_node st nm = some node := hx
      simp only [hx, Option.isSome_some, if_true]
      refine ⟨rfl, ?_⟩
      intro _ hnone
      rw [hx2] at hnone
      cases hnone
    | none =>
      simp only [hx, Option.isSome_none, Bool.false_eq_true, if_false, haddr]
      exact ⟨rfl, fun _ _ => rfl⟩

/-- Counterexample for C9 as frozen: a `create_node` call with no "addr"
entry on an already-registered node name reports EEXIST, not EINVAL. -/
theorem create_node_missing_addr_cx :
    props_get [] NODE_ADDR = none ∧
    (create_node sample_st true "alpha" []).2 = [DmRc.eexist] ∧
    DmRc.einval ∉ (create_node sample_st true "alpha" []).2 := by
  decide

/-- Witness for C9 at the sample state: a fresh node name with no address
entry is answered with EINVAL and no node is registered. -/
theorem create_node_missing_addr_witness :
    (create_node sample_st true "gamma" []).1.nodes = sample_st.nodes ∧
    (create_node sample_st true "gamma" []).2 = [DmRc.einval] := by
  have h := create_node_missing_addr sample_st true "gamma" [] rfl
  exact ⟨h.1, h.2 rfl (by decide)⟩

/-! ## Bitfield helper lemmas -/

theorem testBit_set_flags (x m : Nat) (k : Nat) :
    (set_flags x m).testBit k = (x.testBit k || m.testBit k) := by
  simp [set_flags, Nat.testBit_or]

theorem testBit_clear_flags (x m : Nat) (k : Nat) :
    (clear_flags x m).testBit k = (x.testBit k && !(m.testBit k)) := by
  simp only [clear_flags, Nat.testBit_xor, Nat.testBit_or]
  cases hx : x.testBit k <;> cases hm : m.testBit k <;> rfl

theorem and_pow_ne_zero_iff (x k : Nat) : x &&& 2 ^ k ≠ 0 ↔ x.testBit k := by
  rw [Nat.and_two_pow]
  cases h : x.testBit k with
  | false => simp
  | true =>
    simp only [Bool.toNat_true, one_mul, iff_true]
    exact (Nat.two_pow_pos k).ne'

theorem and_flag_ne_zero_iff_testBit (x : Nat) :
    (x &&& Assignment.FLAG_OVERWRITE ≠ 0 ↔ x.testBit 4) ∧
    (x &&& Assignment.FLAG_DISKLESS ≠ 0 ↔ x.testBit 3) ∧
    (x &&& Assignment.FLAG_DEPLOY ≠ 0 ↔ x.testBit 0) := by
  have h16 : Assignment.FLAG_OVERWRITE = 2 ^ 4 := by norm_num [Assignment.FLAG_OVERWRITE]
  have h8 : Assignment.FLAG_DISKLESS = 2 ^ 3 := by norm_num [Assignment.FLAG_DISKLESS]
  have h1 : Assignment.FLAG_DEPLOY = 2 ^ 0 := by norm_num [Assignment.FLAG_DEPLOY]
  exact ⟨h16 ▸ and_pow_ne_zero_iff x 4, h8 ▸ and_pow_ne_zero_iff x 3,
    h1 ▸ and_pow_ne_zero_iff x 0⟩

/-! ## Find/map helper lemmas for the assignment store -/

theorem find?_map_update (l : List Assignment) (nm rn : String)
    (f : Assignment → Assignment)
    (hf : ∀ a, (f a).node_name = a.node_name ∧ (f a).res_name = a.res_name) :
    (l.map (fun a => if a.node_name == nm && a.res_name == rn then f a else a)).find?
      (fun a => a.node_name == nm && a.res_name == rn)
    = (l.find? (fun a => a.node_name == nm && a.res_name == rn)).map f := by
  induction l with
  | nil => rfl
  | cons a rest ih =>
    cases hb : (a.node_name == nm && a.res_name == rn) with
    | true =>
      have h2 : ((f a).node_name == nm && (f a).res_name == rn) = true := by
        rw [(hf a).1, (hf a).2]; exact hb
      have hcond : (if (a.node_name == nm && a.res_name == rn) = true
          then f a else a) = f a := if_pos hb
      rw [List.map_cons, hcond,
        List.find?_cons_of_pos (p := fun b : Assignment => b.node_name == nm && b.res_name == rn) _ h2,
        List.find?_cons_of_pos (p := fun b : Assignment => b.node_name == nm && b.res_name == rn) _ hb]
      rfl
    | false =>
      have hcond : (if (a.node_name == nm && a.res_name == rn) = true
          then f a else a) = a := if_neg (by simp [hb])
      rw [List.map_cons, hcond,
        List.find?_cons_of_neg (p := fun b : Assignment => b.node_name == nm && b.res_name == rn) _
          (by simp [hb]),
        List.find?_cons_of_neg (p := fun b : Assignment => b.node_name == nm && b.res_name == rn) _
          (by simp [hb])]
      exact ih

theorem find?_map_id_on (l : List Assignment) (p : Assignment → Bool)
    (g : Assignment → Assignment)
    (hid : ∀ a, p a = true → g a = a)
    (hkeep : ∀ a, p (g a) = p a) :
    (l.map g).find? p = l.find? p := by
  induction l with
  | nil => rfl
  | cons a rest ih =>
    cases hb : p a with
    | true =>
      have hb2 : p (g a) = true := by rw [hkeep a]; exact hb
      rw [List.map_cons, List.find?_cons_of_pos (p := p) _ hb2,
        List.find?_cons_of_pos (p := p) _ hb, hid a hb]
    | false =>
      have hb2 : p (g a) = false := by rw [hkeep a]; exact hb
      rw [List.map_cons, List.find?_cons_of_neg (p := p) _ (by simp [hb2]),
        List.find?_cons_of_neg (p := p) _ (by simp [hb])]
      exact ih

/-! ## C5: modify_state with conflicting OVERWRITE and DISKLESS flags -/

/-- The DISCARD flag bit of a state bitfield. -/
theorem discard_flag_iff (x : Nat) :
    x &&& Assignment.FLAG_DISCARD ≠ 0 ↔ x.testBit 5 := by
  have h32 : Assignment.FLAG_DISCARD = 2 ^ 5 := by norm_num [Assignment.FLAG_DISCARD]
  exact h32 ▸ and_pow_ne_zero_iff x 5

/-- The assignment targeted by a `modify_state` call whose tstate set mask
carries OVERWRITE: the clear/set masks are applied, with DISCARD forced
cleared. -/
theorem get_assignment_modify_state_ov (st : ServerState) (nm rn : String)
    (cc cs tc ts : Nat) (a0 : Assignment)
    (hnode : (get_node st nm).isSome = true)
    (hassg : get_assignment st nm rn = some a0)
    (hb4 : ts.testBit 4 = true) :
    get_assignment (modify_state st true nm rn cc cs tc ts).1 nm rn =
      some ((((a0.clear_cstate_flags cc).set_cstate_flags cs).clear_tstate_flags
        (tc ||| Assignment.FLAG_DISCARD)).set_tstate_flags
        (clear_flags ts Assignment.FLAG_DISCARD)) := by
  have hbov : (ts &&& Assignment.FLAG_OVERWRITE != 0) = true := by
    have h := ((and_flag_ne_zero_iff_testBit ts).1).mpr hb4
    simpa using h
  have hoc : clear_flags ts Assignment.FLAG_DISCARD &&& Assignment.FLAG_OVERWRITE ≠ 0 := by
    apply ((and_flag_ne_zero_iff_testBit _).1).mpr
    rw [testBit_clear_flags]
    have hd : (Assignment.FLAG_DISCARD : Nat).testBit 4 = false := by decide
    rw [hb4, hd]
    rfl
  have hbov2 : (clear_flags ts Assignment.FLAG_DISCARD &&& Assignment.FLAG_OVERWRITE != 0)
      = true := by simpa using hoc
  have hnone : (get_node (begin_modify_conf st) nm).isNone = false := by
    have h0 : get_node (begin_modify_conf st) nm = get_node st nm := rfl
    rw [h0]
    cases hx : get_node st nm with
    | none => rw [hx] at hnode; cases hnode
    | some v => rfl
  have hassg1 : get_assignment (begin_modify_conf st) nm rn = some a0 := hassg
  unfold modify_state modify_state_body
  simp only [if_pos rfl, hnone, Bool.false_eq_true, if_false, hassg1, hbov, if_true]
  unfold get_assignment end_modify_conf close_serial save_conf_data perform_changes
    update_assignment
  simp only [hbov2, if_true]
  rw [find?_map_id_on _ _ _ ?hid ?hkeep]
  case hid =>
    intro a ha
    simp [ha]
  case hkeep =>
    intro a
    by_cases hc : (a.res_name == rn && !(a.node_name == nm && a.res_name == rn)) = true
    · simp only [if_pos hc]
      rfl
    · simp only [if_neg hc]
  rw [find?_map_update (begin_modify_conf st).assignments nm rn
    (fun a => (((a.clear_cstate_flags cc).set_cstate_flags cs).clear_tstate_flags
      (tc ||| Assignment.FLAG_DISCARD)).set_tstate_flags
      (clear_flags ts Assignment.FLAG_DISCARD))
    (fun a => ⟨rfl, rfl⟩)]
  have hfind : (begin_modify_conf st).assignments.find?
      (fun a => a.node_name == nm && a.res_name == rn) = some a0 := hassg1
  rw [hfind]
  rfl

/-- C5 (amended): a `modify_state` call on an existing assignment whose
tstate set mask contains both OVERWRITE and DISKLESS performs no conflict
check: it reports SUCCESS (not EINVAL) and applies the masks, so the
assignment's target state afterwards carries both OVERWRITE and DISKLESS
(and DISCARD is cleared because OVERWRITE overrides it). -/
theorem modify_state_overwrite_diskless (st : ServerState) (nm rn : String)
    (cc cs tc ts : Nat) (a0 : Assignment)
    (hov : ts &&& Assignment.FLAG_OVERWRITE ≠ 0)
    (hdl : ts &&& Assignment.FLAG_DISKLESS ≠ 0)
    (hnode : (get_node st nm).isSome = true)
    (hassg : get_assignment st nm rn = some a0) :
    (modify_state st true nm rn cc cs tc ts).2 = [DmRc.success] ∧
    DmRc.einval ∉ (modify_state st true nm rn cc cs tc ts).2 ∧
    (∃ a1, get_assignment (modify_state st true nm rn cc cs tc ts).1 nm rn = some a1 ∧
      a1.tstate &&& Assignment.FLAG_OVERWRITE ≠ 0 ∧
      a1.tstate &&& Assignment.FLAG_DISKLESS ≠ 0 ∧
      a1.tstate &&& Assignment.FLAG_DISCARD = 0) := by
  have hb4 : ts.testBit 4 = true := ((and_flag_ne_zero_iff_testBit ts).1).mp hov
  have hb3 : ts.testBit 3 = true := ((and_flag_ne_zero_iff_testBit ts).2.1).mp hdl
  have hbov : (ts &&& Assignment.FLAG_OVERWRITE != 0) = true := by simpa using hov
  have hnone : (get_node (begin_modify_conf st) nm).isNone = false := by
    have h0 : get_node (begin_modify_conf st) nm = get_node st nm := rfl
    rw [h0]
    cases hx : get_node st nm with
    | none => rw [hx] at hnode; cases hnode
    | some v => rfl
  have hassg1 : get_assignment (begin_modify_conf st) nm rn = some a0 := hassg
  have hrc : (modify_state st true nm rn cc cs tc ts).2 = [DmRc.success] := by
    unfold modify_state modify_state_body
    simp only [if_pos rfl, hnone, Bool.false_eq_true, if_false, hassg1, hbov, if_true]
    rfl
  refine ⟨hrc, by rw [hrc]; simp, ?_⟩
  refine ⟨_, get_assignment_modify_state_ov st nm rn cc cs tc ts a0 hnode hassg hb4,
    ?_, ?_, ?_⟩
  · apply ((and_flag_ne_zero_iff_testBit _).1).mpr
    show (set_flags _ (clear_flags ts Assignment.FLAG_DISCARD)).testBit 4 = true
    rw [testBit_set_flags, testBit_clear_flags]
    have hd : (Assignment.FLAG_DISCARD : Nat).testBit 4 = false := by decide
    rw [hb4, hd]
    simp
  · apply ((and_flag_ne_zero_iff_testBit _).2.1).mpr
    show (set_flags _ (clear_flags ts Assignment.FLAG_DISCARD)).testBit 3 = true
    rw [testBit_set_flags, testBit_clear_flags]
    have hd : (Assignment.FLAG_DISCARD : Nat).testBit 3 = false := by decide
    rw [hb3, hd]
    simp
  · have h5 : (set_flags
        (clear_flags (((a0.clear_cstate_flags cc).set_cstate_flags cs).tstate)
          (tc ||| Assignment.FLAG_DISCARD))
        (clear_flags ts Assignment.FLAG_DISCARD)).testBit 5 = false := by
      rw [testBit_set_flags, testBit_clear_flags, testBit_clear_flags]
      have hd5 : (Assignment.FLAG_DISCARD : Nat).testBit 5 = true := by decide
      have hor : ((tc ||| Assignment.FLAG_DISCARD) : Nat).testBit 5 = true := by
        rw [Nat.testBit_or, hd5]
        simp
      rw [hd5, hor]
      simp
    by_contra hne
    have h5p := (discard_flag_iff _).mp hne
    have heq : ((((a0.clear_cstate_flags cc).set_cstate_flags cs).clear_tstate_flags
        (tc ||| Assignment.FLAG_DISCARD)).set_tstate_flags
        (clear_flags ts Assignment.FLAG_DISCARD)).tstate = set_flags
          (clear_flags (((a0.clear_cstate_flags cc).set_cstate_flags cs).tstate)
            (tc ||| Assignment.FLAG_DISCARD))
          (clear_flags ts Assignment.FLAG_DISCARD) := rfl
    rw [heq, h5] at h5p
    cases h5p

/-- Counterexample for C5 as frozen: at a concrete state, `modify_state`
with a tstate set mask of OVERWRITE|DISKLESS reports SUCCESS (not EINVAL)
and changes the assignment's state bitfields. -/
theorem modify_state_overwrite_diskless_cx :
    (modify_state sample_st true "beta" "r0" 0 0 0
      (Assignment.FLAG_OVERWRITE ||| Assignment.FLAG_DISKLESS)).2 = [DmRc.success] ∧
    DmRc.einval ∉ (modify_state sample_st true "beta" "r0" 0 0 0
      (Assignment.FLAG_OVERWRITE ||| Assignment.FLAG_DISKLESS)).2 ∧
    (modify_state sample_st true "beta" "r0" 0 0 0
      (Assignment.FLAG_OVERWRITE ||| Assignment.FLAG_DISKLESS)).1.assignments ≠
      sample_st.assignments := by
  decide

/-- Witness for C5 (amended) at the sample state. -/
theorem modify_state_overwrite_diskless_witness :
    (modify_state sample_st true "beta" "r0" 0 0 0 24).2 = [DmRc.success] :=
  (modify_state_overwrite_diskless sample_st "beta" "r0" 0 0 0 24
    { node_name := "beta", res_name := "r0", node_id := 0, cstate := 0,
      tstate := Assignment.FLAG_DEPLOY, vol_states := [], props := [] }
    (by decide) (by decide) (by decide) (by decide)).1

/-! ## C7: the free-number allocators -/

/-- Soundness of the free-number scan: a non-error result is the smallest
free number of the scanned window, and an error result means the whole
window is in use. -/
theorem get_free_number_go_spec (k : Nat) : ∀ (cand : Int) (l : List Int),
    0 ≤ cand →
    ((get_free_number_go cand k l = -1 →
       ∀ q : Int, cand ≤ q → q < cand + k → l.contains q = true) ∧
     (get_free_number_go cand k l ≠ -1 →
       cand ≤ get_free_number_go cand k l ∧
       get_free_number_go cand k l < cand + k ∧
       l.contains (get_free_number_go cand k l) = false ∧
       ∀ q : Int, cand ≤ q → q < get_free_number_go cand k l →
         l.contains q = true)) := by
  induction k with
  | zero =>
    intro cand l hc
    constructor
    · intro _ q hq1 hq2
      exfalso
      simp only [Nat.cast_zero, add_zero] at hq2
      omega
    · intro hne
      exact absurd rfl hne
  | succ k1 ih =>
    intro cand l hc
    unfold get_free_number_go
    cases hct : l.contains cand with
    | true =>
      simp only [if_pos rfl]
      have hrec := ih (cand + 1) l (by omega)
      constructor
      · intro hres q hq1 hq2
        by_cases hq : q = cand
        · rw [hq]; exact hct
        · exact hrec.1 hres q (by omega) (by push_cast at hq2; omega)
      · intro hne
        have h2 := hrec.2 hne
        have h3 := h2.2.1
        push_cast at h3 ⊢
        refine ⟨by omega, by omega, h2.2.2.1, ?_⟩
        intro q hq1 hq2
        by_cases hq : q = cand
        · rw [hq]; exact hct
        · exact h2.2.2.2 q (by omega) hq2
    | false =>
      simp only [Bool.false_eq_true, if_false]
      constructor
      · intro hres
        exfalso
        omega
      · intro _
        refine ⟨le_refl _, by push_cast; omega, hct, ?_⟩
        intro q hq1 hq2
        exfalso
        omega

/-- Soundness of `get_free_number` over the closed interval. -/
theorem get_free_number_spec (min_nr max_nr : Int) (l : List Int)
    (h0 : 0 ≤ min_nr) :
    ((get_free_number min_nr max_nr l = -1 →
       ∀ q : Int, min_nr ≤ q → q ≤ max_nr → l.contains q = true) ∧
     (get_free_number min_nr max_nr l ≠ -1 →
       min_nr ≤ get_free_number min_nr max_nr l ∧
       get_free_number min_nr max_nr l ≤ max_nr ∧
       l.contains (get_free_number min_nr max_nr l) = false ∧
       ∀ q : Int, min_nr ≤ q → q < get_free_number min_nr max_nr l →
         l.contains q = true)) := by
  unfold get_free_number
  have hspec := get_free_number_go_spec (max_nr + 1 - min_nr).toNat min_nr l h0
  by_cases hle : min_nr ≤ max_nr
  · have hk : (min_nr + ((max_nr + 1 - min_nr).toNat : Int)) = max_nr + 1 := by
      rw [Int.toNat_of_nonneg (by omega)]
      omega
    constructor
    · intro hres q hq1 hq2
      exact hspec.1 hres q hq1 (by omega)
    · intro hne
      have h2 := hspec.2 hne
      exact ⟨h2.1, by omega, h2.2.2.1, h2.2.2.2⟩
  · have hk : (max_nr + 1 - min_nr).toNat = 0 := by
      apply Int.toNat_of_nonpos
      omega
    rw [hk]
    constructor
    · intro _ q hq1 hq2
      exfalso
      omega
    · intro hne
      exact absurd rfl hne

/-- The scan only depends on membership in the in-use list. -/
theorem get_free_number_go_congr (k : Nat) : ∀ (cand : Int) (l1 l2 : List Int),
    (∀ q, l1.contains q = l2.contains q) →
    get_free_number_go cand k l1 = get_free_number_go cand k l2 := by
  induction k with
  | zero => intro cand l1 l2 _; rfl
  | succ k1 ih =>
    intro cand l1 l2 h
    unfold get_free_number_go
    rw [h cand]
    cases l2.contains cand with
    | true => simp only [if_pos rfl]; exact ih (cand + 1) l1 l2 h
    | false => simp

/-- The result of `get_free_number` only depends on membership in the
in-use list, not on its order. -/
theorem get_free_number_congr (min_nr max_nr : Int) (l1 l2 : List Int)
    (h : ∀ q, l1.contains q = l2.contains q) :
    get_free_number min_nr max_nr l1 = get_free_number min_nr max_nr l2 := by
  unfold get_free_number
  exact get_free_number_go_congr _ _ _ _ h

/-- Some registered resource carries this port number. -/
def port_in_use (st : ServerState) (q : Int) : Prop :=
  ∃ r ∈ st.resources, r.port = q

/-- Some volume of some registered resource carries this minor number. -/
def minor_in_use (st : ServerState) (q : Int) : Prop :=
  ∃ r ∈ st.resources, ∃ v ∈ r.volumes, v.minor = q

/-- Membership in the port list collected by `get_free_port_nr`. -/
theorem mem_collected_port_list (min_nr max_nr q : Int)
    (resources : List DrbdResource) :
    q ∈ collected_port_list min_nr max_nr resources ↔
      (min_nr ≤ q ∧ q ≤ max_nr ∧ ∃ r ∈ resources, r.port = q) := by
  unfold collected_port_list
  rw [List.mem_filterMap]
  constructor
  · rintro ⟨r, hr, hf⟩
    by_cases hc : (min_nr ≤ r.port && r.port ≤ max_nr) = true
    · rw [if_pos hc] at hf
      have hpq : r.port = q := by
        cases hf
        rfl
      have hb := (Bool.and_eq_true _ _).mp hc
      have h1 : min_nr ≤ r.port := by
        have := hb.1
        simpa using this
      have h2 : r.port ≤ max_nr := by
        have := hb.2
        simpa using this
      exact ⟨hpq ▸ h1, hpq ▸ h2, r, hr, hpq⟩
    · rw [if_neg hc] at hf
      cases hf
  · rintro ⟨h1, h2, r, hr, hp⟩
    refine ⟨r, hr, ?_⟩
    rw [if_pos]
    · rw [hp]
    · rw [hp]
      simp only [Bool.and_eq_true, decide_eq_true_eq]
      exact ⟨h1, h2⟩

/-- Membership in the minor list collected by `get_free_minor_nr`. -/
theorem mem_collected_minor_list (min_nr q : Int) :
    ∀ resources : List DrbdResource,
    q ∈ collected_minor_list min_nr resources ↔
      (min_nr ≤ q ∧ q ≤ MINOR_NR_MAX ∧
        ∃ r ∈ resources, ∃ v ∈ r.volumes, v.minor = q) := by
  intro resources
  induction resources with
  | nil => simp [collected_minor_list]
  | cons r rest ih =>
    unfold collected_minor_list
    rw [List.foldr_cons, List.mem_append]
    constructor
    · intro h
      cases h with
      | inl h1 =>
        rw [List.mem_filterMap] at h1
        obtain ⟨v, hv, hf⟩ := h1
        by_cases hc : (min_nr ≤ v.minor && v.minor ≤ MINOR_NR_MAX) = true
        · rw [if_pos hc] at hf
          have hvq : v.minor = q := by cases hf; rfl
          have hb := (Bool.and_eq_true _ _).mp hc
          have h1m : min_nr ≤ v.minor := by have := hb.1; simpa using this
          have h2m : v.minor ≤ MINOR_NR_MAX := by have := hb.2; simpa using this
          exact ⟨hvq ▸ h1m, hvq ▸ h2m, r, List.mem_cons_self r rest, v, hv, hvq⟩
        · rw [if_neg hc] at hf
          cases hf
      | inr h1 =>
        have h2 := (ih).mp h1
        obtain ⟨ha, hb, r1, hr1, hv⟩ := h2
        exact ⟨ha, hb, r1, List.mem_cons_of_mem r hr1, hv⟩
    · rintro ⟨h1, h2, r1, hr1, v, hv, hq⟩
      cases List.mem_cons.mp hr1 with
      | inl heq =>
        left
        rw [List.mem_filterMap]
        refine ⟨v, heq ▸ hv, ?_⟩
        rw [if_pos]
        · rw [hq]
        · rw [hq]
          simp only [Bool.and_eq_true, decide_eq_true_eq]
          exact ⟨h1, h2⟩
      | inr hmem =>
        right
        exact (ih).mpr ⟨h1, h2, r1, hmem, v, hv, hq⟩

/-- Bridge between the boolean `contains` and list membership. -/
theorem int_contains_iff (l : List Int) (q : Int) :
    l.contains q = true ↔ q ∈ l :=
  List.elem_iff

/-- C7: `get_free_port_nr` returns the smallest number of the configured
port interval that is the port of no registered resource, or the error
sentinel when every port of the interval is in use; `get_free_minor_nr`
does the same over the minor interval with respect to the minor numbers of
all volumes of all resources; and both results depend only on which numbers
are in use, not on the order in which resources and volumes are stored. -/
theorem free_number_allocation (st : ServerState)
    (hp : 0 ≤ st.conf_min_port) (hm : 0 ≤ st.conf_min_minor) :
    (get_free_port_nr st ≠ RES_PORT_NR_ERROR →
      st.conf_min_port ≤ get_free_port_nr st ∧
      get_free_port_nr st ≤ st.conf_max_port ∧
      ¬ port_in_use st (get_free_port_nr st) ∧
      ∀ q, st.conf_min_port ≤ q → q < get_free_port_nr st → port_in_use st q) ∧
    (get_free_port_nr st = RES_PORT_NR_ERROR →
      ∀ q, st.conf_min_port ≤ q → q ≤ st.conf_max_port → port_in_use st q) ∧
    (get_free_minor_nr st ≠ MINOR_NR_ERROR →
      st.conf_min_minor ≤ get_free_minor_nr st ∧
      get_free_minor_nr st ≤ MINOR_NR_MAX ∧
      ¬ minor_in_use st (get_free_minor_nr st) ∧
      ∀ q, st.conf_min_minor ≤ q → q < get_free_minor_nr st → minor_in_use st q) ∧
    (get_free_minor_nr st = MINOR_NR_ERROR →
      ∀ q, st.conf_min_minor ≤ q → q ≤ MINOR_NR_MAX → minor_in_use st q) ∧
    (∀ st2 : ServerState, st2.conf_min_port = st.conf_min_port →
      st2.conf_max_port = st.conf_max_port →
      (∀ q, port_in_use st2 q ↔ port_in_use st q) →
      get_free_port_nr st2 = get_free_port_nr st) ∧
    (∀ st2 : ServerState, st2.conf_min_minor = st.conf_min_minor →
      (∀ q, minor_in_use st2 q ↔ minor_in_use st q) →
      get_free_minor_nr st2 = get_free_minor_nr st) := by
  have hport := get_free_number_spec st.conf_min_port st.conf_max_port
    (collected_port_list st.conf_min_port st.conf_max_port st.resources) hp
  have hminor := get_free_number_spec st.conf_min_minor MINOR_NR_MAX
    (collected_minor_list st.conf_min_minor st.resources) hm
  refine ⟨?_, ?_, ?_, ?_, ?_, ?_⟩
  · intro hne
    unfold get_free_port_nr at hne ⊢
    by_cases hr : get_free_number st.conf_min_port st.conf_max_port
        (collected_port_list st.conf_min_port st.conf_max_port st.resources) = -1
    · exfalso
      apply hne
      simp only [hr]
      rfl
    · have h2 := hport.2 hr
      have hif : (get_free_number st.conf_min_port st.conf_max_port
          (collected_port_list st.conf_min_port st.conf_max_port st.resources) == -1)
          = false := by
        simpa using hr
      simp only [hif, Bool.false_eq_true, if_false]
      refine ⟨h2.1, h2.2.1, ?_, ?_⟩
      · intro hiu
        obtain ⟨r, hr1, hp1⟩ := hiu
        have hmem : get_free_number st.conf_min_port st.conf_max_port
            (collected_port_list st.conf_min_port st.conf_max_port st.resources) ∈
            collected_port_list st.conf_min_port st.conf_max_port st.resources :=
          (mem_collected_port_list _ _ _ _).mpr ⟨h2.1, h2.2.1, r, hr1, hp1⟩
        rw [← int_contains_iff] at hmem
        rw [h2.2.2.1] at hmem
        cases hmem
      · intro q hq1 hq2
        have hct := h2.2.2.2 q hq1 hq2
        have hmem := (int_contains_iff _ _).mp hct
        have hx := (mem_collected_port_list _ _ _ _).mp hmem
        exact hx.2.2
  · intro herr q hq1 hq2
    unfold get_free_port_nr at herr
    by_cases hr : get_free_number st.conf_min_port st.conf_max_port
        (collected_port_list st.conf_min_port st.conf_max_port st.resources) = -1
    · have hct := hport.1 hr q hq1 hq2
      have hmem := (int_contains_iff _ _).mp hct
      exact ((mem_collected_port_list _ _ _ _).mp hmem).2.2
    · exfalso
      have h2 := hport.2 hr
      have hif : (get_free_number st.conf_min_port st.conf_max_port
          (collected_port_list st.conf_min_port st.conf_max_port st.resources) == -1)
          = false := by simpa using hr
      simp only [hif, Bool.false_eq_true, if_false] at herr
      have := h2.1
      rw [herr] at this
      unfold RES_PORT_NR_ERROR at this
      omega
  · intro hne
    unfold get_free_minor_nr at hne ⊢
    by_cases hr : get_free_number st.conf_min_minor MINOR_NR_MAX
        (collected_minor_list st.conf_min_minor st.resources) = -1
    · exfalso
      apply hne
      simp only [hr]
      rfl
    · have h2 := hminor.2 hr
      have hif : (get_free_number st.conf_min_minor MINOR_NR_MAX
          (collected_minor_list st.conf_min_minor st.resources) == -1) = false := by
        simpa using hr
      simp only [hif, Bool.false_eq_true, if_false]
      refine ⟨h2.1, h2.2.1, ?_, ?_⟩
      · intro hiu
        obtain ⟨r, hr1, v, hv1, hm1⟩ := hiu
        have hmem : get_free_number st.conf_min_minor MINOR_NR_MAX
            (collected_minor_list st.conf_min_minor st.resources) ∈
            collected_minor_list st.conf_min_minor st.resources :=
          (mem_collected_minor_list _ _ _).mpr ⟨h2.1, h2.2.1, r, hr1, v, hv1, hm1⟩
        rw [← int_contains_iff] at hmem
        rw [h2.2.2.1] at hmem
        cases hmem
      · intro q hq1 hq2
        have hct := h2.2.2.2 q hq1 hq2
        have hmem := (int_contains_iff _ _).mp hct
        exact ((mem_collected_minor_list _ _ _).mp hmem).2.2
  · intro herr q hq1 hq2
    unfold get_free_minor_nr at herr
    by_cases hr : get_free_number st.conf_min_minor MINOR_NR_MAX
        (collected_minor_list st.conf_min_minor st.resources) = -1
    · have hct := hminor.1 hr q hq1 hq2
      have hmem := (int_contains_iff _ _).mp hct
      exact ((mem_collected_minor_list _ _ _).mp hmem).2.2
    · exfalso
      have h2 := hminor.2 hr
      have hif : (get_free_number st.conf_min_minor MINOR_NR_MAX
          (collected_minor_list st.conf_min_minor st.resources) == -1) = false := by
        simpa using hr
      simp only [hif, Bool.false_eq_true, if_false] at herr
      have := h2.1
      rw [herr] at this
      unfold MINOR_NR_ERROR at this
      omega
  · intro st2 hmin hmax hiff
    simp only [get_free_port_nr]
    rw [hmin, hmax]
    have hcontains : ∀ q, (collected_port_list st.conf_min_port st.conf_max_port
        st2.resources).contains q =
        (collected_port_list st.conf_min_port st.conf_max_port st.resources).contains q := by
      intro q
      rw [Bool.eq_iff_iff, int_contains_iff, int_contains_iff,
        mem_collected_port_list, mem_collected_port_list]
      constructor
      · rintro ⟨h1, h2, hex⟩
        exact ⟨h1, h2, (hiff q).mp ⟨hex.choose, hex.choose_spec⟩ |>.choose,
          ((hiff q).mp ⟨hex.choose, hex.choose_spec⟩).choose_spec⟩
      · rintro ⟨h1, h2, hex⟩
        exact ⟨h1, h2, ((hiff q).mpr ⟨hex.choose, hex.choose_spec⟩).choose,
          ((hiff q).mpr ⟨hex.choose, hex.choose_spec⟩).choose_spec⟩
    rw [get_free_number_congr st.conf_min_port st.conf_max_port
      (collected_port_list st.conf_min_port st.conf_max_port st2.resources)
      (collected_port_list st.conf_min_port st.conf_max_port st.resources) hcontains]
  · intro st2 hmin hiff
    simp only [get_free_minor_nr]
    rw [hmin]
    have hcontains : ∀ q, (collected_minor_list st.conf_min_minor st2.resources).contains q =
        (collected_minor_list st.conf_min_minor st.resources).contains q := by
      intro q
      rw [Bool.eq_iff_iff, int_contains_iff, int_contains_iff,
        mem_collected_minor_list, mem_collected_minor_list]
      constructor
      · rintro ⟨h1, h2, hex⟩
        refine ⟨h1, h2, ?_⟩
        have := (hiff q).mp ⟨hex.choose, hex.choose_spec⟩
        exact ⟨this.choose, this.choose_spec⟩
      · rintro ⟨h1, h2, hex⟩
        refine ⟨h1, h2, ?_⟩
        have := (hiff q).mpr ⟨hex.choose, hex.choose_spec⟩
        exact ⟨this.choose, this.choose_spec⟩
    rw [get_free_number_congr st.conf_min_minor MINOR_NR_MAX
      (collected_minor_list st.conf_min_minor st2.resources)
      (collected_minor_list st.conf_min_minor st.resources) hcontains]

/-- Witness for C7 at the sample state: port 7000 is taken, so the smallest
free port is found and is not the port of any resource. -/
theorem free_number_allocation_witness :
    (0 : Int) ≤ sample_st.conf_min_port ∧
    sample_st.conf_min_port ≤ get_free_port_nr sample_st ∧
    ¬ port_in_use sample_st (get_free_port_nr sample_st) := by
  have h := free_number_allocation sample_st (by decide) (by decide)
  have h1 := h.1 (by decide)
  exact ⟨by decide, h1.1, h1.2.2.1⟩

/-! ## C2: OVERWRITE exclusivity under assign and modify_state -/

theorem filter_length_map_le {α : Type} (l : List α) (f : α → α) (p : α → Bool)
    (h : ∀ a ∈ l, p (f a) = true → p a = true) :
    ((l.map f).filter p).length ≤ (l.filter p).length := by
  induction l with
  | nil => exact Nat.le_refl 0
  | cons a rest ih =>
    have ih2 := ih (fun b hb => h b (List.mem_cons_of_mem a hb))
    rw [List.map_cons, List.filter_cons, List.filter_cons]
    cases hfa : p (f a) with
    | true =>
      have hpa : p a = true := h a (List.mem_cons_self a rest) hfa
      rw [hpa]
      simpa using Nat.succ_le_succ ih2
    | false =>
      cases hpa : p a with
      | true =>
        simp only [if_pos rfl, Bool.false_eq_true, if_false]
        exact Nat.le_succ_of_le ih2
      | false =>
        simpa using ih2

theorem filter_length_map_eq {α : Type} (l : List α) (f : α → α) (p : α → Bool)
    (h : ∀ a ∈ l, p (f a) = p a) :
    ((l.map f).filter p).length = (l.filter p).length := by
  induction l with
  | nil => rfl
  | cons a rest ih =>
    have ih2 := ih (fun b hb => h b (List.mem_cons_of_mem a hb))
    rw [List.map_cons, List.filter_cons, List.filter_cons,
      h a (List.mem_cons_self a rest)]
    cases hpa : p a with
    | true => simpa using ih2
    | false => simpa using ih2

theorem filter_length_le_one_key (l : List Assignment) (p : Assignment → Bool)
    (k : String × String)
    (hnodup : (l.map (fun a => (a.node_name, a.res_name))).Nodup)
    (h : ∀ a ∈ l, p a = true → (a.node_name, a.res_name) = k) :
    (l.filter p).length ≤ 1 := by
  induction l with
  | nil => exact Nat.zero_le 1
  | cons a rest ih =>
    rw [List.map_cons, List.nodup_cons] at hnodup
    rw [List.filter_cons]
    cases hpa : p a with
    | false =>
      simp only [Bool.false_eq_true, if_false]
      exact ih hnodup.2 (fun b hb hpb => h b (List.mem_cons_of_mem a hb) hpb)
    | true =>
      have hka := h a (List.mem_cons_self a rest) hpa
      have hrest : rest.filter p = [] := by
        rw [List.filter_eq_nil_iff]
        intro b hb hpb
        have hkb := h b (List.mem_cons_of_mem a hb) hpb
        apply hnodup.1
        rw [List.mem_map]
        exact ⟨b, hb, by rw [hkb, hka]⟩
      simp [hrest]

theorem overwrite_set_eq_testBit (a : Assignment) :
    overwrite_set a = a.tstate.testBit 4 := by
  unfold overwrite_set
  rw [Bool.eq_iff_iff]
  simp only [bne_iff_ne]
  exact (and_flag_ne_zero_iff_testBit a.tstate).1

theorem overwrite_set_clear_ovw (a : Assignment) :
    overwrite_set (a.clear_tstate_flags Assignment.FLAG_OVERWRITE) = false := by
  rw [overwrite_set_eq_testBit]
  show (clear_flags a.tstate Assignment.FLAG_OVERWRITE).testBit 4 = false
  rw [testBit_clear_flags]
  have h : (Assignment.FLAG_OVERWRITE : Nat).testBit 4 = true := by decide
  rw [h]
  simp

theorem overwrite_set_update_connections (a : Assignment) :
    overwrite_set a.update_connections = overwrite_set a := by
  rw [overwrite_set_eq_testBit, overwrite_set_eq_testBit]
  show (set_flags a.tstate Assignment.FLAG_UPD_CON).testBit 4 = a.tstate.testBit 4
  rw [testBit_set_flags]
  have h : (Assignment.FLAG_UPD_CON : Nat).testBit 4 = false := by decide
  rw [h]
  simp

theorem get_serial_assignments (st : ServerState) :
    (get_serial st).2.assignments = st.assignments := by
  unfold get_serial
  split <;> rfl

theorem get_serial_nodes (st : ServerState) :
    (get_serial st).2.nodes = st.nodes := by
  unfold get_serial
  split <;> rfl

theorem tstate_build_testBit4 (fov fdc fcn fdl : Bool) :
    (Assignment.FLAG_DEPLOY |||
     (if fov then Assignment.FLAG_OVERWRITE else 0) |||
     (if fdc then Assignment.FLAG_DISCARD else 0) |||
     (if fcn then Assignment.FLAG_CONNECT else 0) |||
     (if fdl then Assignment.FLAG_DISKLESS else 0)).testBit 4 = fov := by
  cases fov <;> cases fdc <;> cases fcn <;> cases fdl <;> decide

theorem clearmap_count_le (l : List Assignment) (rn r0 : String) :
    ((l.map (fun a => if a.res_name == rn
        then a.clear_tstate_flags Assignment.FLAG_OVERWRITE else a)).filter
      (overwrite_pred r0)).length ≤ (l.filter (overwrite_pred r0)).length := by
  apply filter_length_map_le
  intro a _ hp
  cases hc : (a.res_name == rn) with
  | true =>
    rw [if_pos hc] at hp
    unfold overwrite_pred at hp
    rw [overwrite_set_clear_ovw] at hp
    simp at hp
  | false =>
    rw [if_neg (by simp [hc])] at hp
    exact hp

theorem clearmap_count_zero (l : List Assignment) (rn : String) :
    ((l.map (fun a => if a.res_name == rn
        then a.clear_tstate_flags Assignment.FLAG_OVERWRITE else a)).filter
      (overwrite_pred rn)).length = 0 := by
  rw [List.length_eq_zero, List.filter_eq_nil_iff]
  intro b hb
  rw [List.mem_map] at hb
  obtain ⟨a, _, rfl⟩ := hb
  cases hc : (a.res_name == rn) with
  | true =>
    rw [if_pos rfl]
    unfold overwrite_pred
    rw [overwrite_set_clear_ovw]
    simp
  | false =>
    rw [if_neg (by simp)]
    unfold overwrite_pred
    show ¬(a.res_name == rn && overwrite_set a) = true
    rw [hc]
    simp

theorem updconmap_count_eq (l : List Assignment) (rn r0 : String) :
    ((l.map (fun a => if a.res_name == rn && a.is_deployed
        then a.update_connections else a)).filter (overwrite_pred r0)).length
      = (l.filter (overwrite_pred r0)).length := by
  apply filter_length_map_eq
  intro a _
  cases hc : (a.res_name == rn && a.is_deployed) with
  | true =>
    rw [if_pos rfl]
    unfold overwrite_pred
    show ((a.update_connections.res_name == r0) &&
      overwrite_set a.update_connections) = ((a.res_name == r0) && overwrite_set a)
    rw [overwrite_set_update_connections]
    rfl
  | false =>
    rw [if_neg (by simp)]

theorem auxmerge_count_eq (l : List Assignment) (nm rn r0 : String)
    (props : List (String × String)) :
    ((l.map (fun a => if a.node_name == nm && a.res_name == rn
        then { a with props := merge_gen a.props (aux_props_selector props) }
        else a)).filter (overwrite_pred r0)).length
      = (l.filter (overwrite_pred r0)).length := by
  apply filter_length_map_eq
  intro a _
  cases hc : (a.node_name == nm && a.res_name == rn) with
  | true => rw [if_pos rfl]; rfl
  | false => rw [if_neg (by simp)]

theorem _assign_assignments (st : ServerState) (nm rn : String)
    (c t : Nat) :
    (_assign st nm rn c t).2.assignments = st.assignments ∨
    ∃ nid vs, (_assign st nm rn c t).2.assignments =
      (st.assignments ++ [Assignment.mk nm rn nid c t vs []]).map
        (fun a => if a.res_name == rn && a.is_deployed
          then a.update_connections else a) := by
  unfold _assign
  by_cases hid : (get_free_node_id (get_serial st).2 rn == -1) = true
  · simp only [hid, if_true]
    left
    exact get_serial_assignments st
  · simp only [hid, Bool.false_eq_true, if_false]
    cases hres : get_resource (get_serial st).2 rn with
    | none =>
      left
      exact get_serial_assignments st
    | some resource =>
      right
      refine ⟨get_free_node_id (get_serial st).2 rn,
        resource.volumes.map (fun vol =>
          if t &&& Assignment.FLAG_DISKLESS == 0
          then (DrbdVolumeState.deploy
            { vol_id := vol.vol_id, cstate := 0, tstate := 0 }).attach
          else DrbdVolumeState.deploy
            { vol_id := vol.vol_id, cstate := 0, tstate := 0 }), ?_⟩
      show (((get_serial st).2.assignments ++ [_]).map _) = _
      rw [get_serial_assignments st]

theorem filter_single_length (p : Assignment → Bool) (a : Assignment) :
    (List.filter p [a]).length = if p a then 1 else 0 := by
  rw [List.filter_cons]
  cases h : p a <;> simp

theorem assign_tail_count (st2 : ServerState) (nm rn r0 : String)
    (props : List (String × String)) (t : Nat)
    (h0 : (st2.assignments.filter (overwrite_pred r0)).length +
      (if (rn == r0) && t.testBit 4 then 1 else 0) ≤ 1) :
    (List.filter (overwrite_pred r0)
      (if ((_assign st2 nm rn 0 t).1 == DmRc.success) = true then
        (save_conf_data (perform_changes (update_assignment (_assign st2 nm rn 0 t).2
          nm rn (fun a =>
            { a with props := merge_gen a.props (aux_props_selector props) }))),
          ([] : List DmRc))
      else ((_assign st2 nm rn 0 t).2,
        [(_assign st2 nm rn 0 t).1])).1.assignments).length ≤ 1 := by
  have hcount : ((_assign st2 nm rn 0 t).2.assignments.filter
      (overwrite_pred r0)).length ≤ 1 := by
    rcases _assign_assignments st2 nm rn 0 t with hA | ⟨nid, vs, hA⟩
    · rw [hA]
      omega
    · rw [hA, updconmap_count_eq, List.filter_append, List.length_append,
        filter_single_length]
      have hp : overwrite_pred r0 (Assignment.mk nm rn nid 0 t vs []) =
          ((rn == r0) && t.testBit 4) := by
        unfold overwrite_pred
        rw [overwrite_set_eq_testBit]
      rw [hp]
      omega
  by_cases hs : ((_assign st2 nm rn 0 t).1 == DmRc.success) = true
  · simp only [hs, if_true]
    show (List.filter (overwrite_pred r0)
      (update_assignment (_assign st2 nm rn 0 t).2 nm rn _).assignments).length ≤ 1
    unfold update_assignment
    show (List.filter (overwrite_pred r0)
      ((_assign st2 nm rn 0 t).2.assignments.map _)).length ≤ 1
    rw [auxmerge_count_eq]
    exact hcount
  · simp only [hs, Bool.false_eq_true, if_false]
    exact hcount

theorem if_and_bit_false (c : Bool) (x : Nat) (k : Nat) (h : x.testBit k = false) :
    (if (c && x.testBit k) = true then 1 else 0) = 0 := by
  rw [h]
  simp

theorem if_true_and_bit_true (x : Nat) (k : Nat) (h : x.testBit k = true) :
    (if (true && x.testBit k) = true then 1 else 0) = 1 := by
  rw [h]
  simp

theorem if_false_and_bit (x : Nat) (k : Nat) :
    (if (false && x.testBit k) = true then 1 else 0) = 0 := by
  simp

theorem assign_overwrite_count (st : ServerState) (pok : Bool) (nm rn : String)
    (props : List (String × String)) (r0 : String)
    (hpre : overwrite_count st r0 ≤ 1) :
    overwrite_count (assign st pok nm rn props).1 r0 ≤ 1 := by
  have hres : (assign st pok nm rn props).1.assignments =
      (assign_body st pok nm rn props).1.assignments := rfl
  unfold overwrite_count at hpre ⊢
  rw [hres]
  unfold assign_body
  split
  case h_2 => exact hpre
  case h_1 fov fdl fcn fdc hp1 hp2 hp3 hp4 =>
    cases pok with
    | false => exact hpre
    | true =>
      simp only [if_pos rfl]
      by_cases hno : ((get_node (begin_modify_conf st) nm).isNone ||
          (get_resource (begin_modify_conf st) rn).isNone) = true
      · simp only [hno, if_true]
        exact hpre
      · simp only [hno, Bool.false_eq_true, if_false]
        by_cases hex : ((get_assignment (begin_modify_conf st) nm rn).isSome) = true
        · simp only [hex, if_true]
          exact hpre
        · simp only [hex, Bool.false_eq_true, if_false]
          by_cases hc1 : (fov && fdl) = true
          · simp only [hc1, if_true]
            exact hpre
          · simp only [hc1, Bool.false_eq_true, if_false]
            by_cases hc2 : (fov && fdc) = true
            · simp only [hc2, if_true]
              exact hpre
            · simp only [hc2, Bool.false_eq_true, if_false]
              have hbeg : (begin_modify_conf st).assignments = st.assignments := rfl
              cases fov with
              | true =>
                have hfdl : fdl = false := by
                  cases fdl
                  · rfl
                  · simp at hc1
                have hfdc : fdc = false := by
                  cases fdc
                  · rfl
                  · simp at hc2
                subst hfdl hfdc
                have hcl0 := clearmap_count_zero (begin_modify_conf st).assignments rn
                have hcle := clearmap_count_le (begin_modify_conf st).assignments rn r0
                rw [hbeg] at hcle
                cases fcn <;>
                · simp only [if_pos rfl, if_pos trivial, Bool.false_eq_true, if_false]
                  apply assign_tail_count
                  cases hrr : (rn == r0) with
                  | true =>
                    have hr0 : rn = r0 := eq_of_beq hrr
                    subst hr0
                    rw [if_true_and_bit_true _ 4 (by decide)]
                    show (List.filter (overwrite_pred rn)
                      (List.map (fun a => if a.res_name == rn
                        then a.clear_tstate_flags Assignment.FLAG_OVERWRITE else a)
                        (begin_modify_conf st).assignments)).length + 1 ≤ 1
                    rw [hcl0]
                  | false =>
                    rw [if_false_and_bit]
                    show (List.filter (overwrite_pred r0)
                      (List.map (fun a => if a.res_name == rn
                        then a.clear_tstate_flags Assignment.FLAG_OVERWRITE else a)
                        st.assignments)).length + 0 ≤ 1
                    omega
              | false =>
                simp only [Bool.false_eq_true, if_false, if_pos rfl, if_pos trivial]
                cases fdc <;> cases fcn <;> cases fdl <;>
                · simp only [if_pos rfl, if_pos trivial, Bool.false_eq_true, if_false]
                  apply assign_tail_count
                  rw [if_and_bit_false _ _ 4 (by decide)]
                  show (List.filter (overwrite_pred r0)
                    (begin_modify_conf st).assignments).length + 0 ≤ 1
                  rw [hbeg]
                  omega

theorem overwrite_set_masks (a : Assignment) (cc cs tcl tst : Nat)
    (h : tst.testBit 4 = false) :
    overwrite_set ((((a.clear_cstate_flags cc).set_cstate_flags
      cs).clear_tstate_flags tcl).set_tstate_flags tst) = true →
    overwrite_set a = true := by
  rw [overwrite_set_eq_testBit, overwrite_set_eq_testBit]
  show (set_flags (clear_flags a.tstate tcl) tst).testBit 4 = true → _
  rw [testBit_set_flags, testBit_clear_flags, h]
  intro hx
  simp only [Bool.or_false, Bool.and_eq_true] at hx
  exact hx.1

theorem map_keys_eq (l : List Assignment) (f : Assignment → Assignment)
    (hf : ∀ a, (f a).node_name = a.node_name ∧ (f a).res_name = a.res_name) :
    (l.map f).map (fun a => (a.node_name, a.res_name)) =
      l.map (fun a => (a.node_name, a.res_name)) := by
  rw [List.map_map]
  apply List.map_congr_left
  intro a _
  show ((f a).node_name, (f a).res_name) = (a.node_name, a.res_name)
  rw [(hf a).1, (hf a).2]

theorem modify_count_ovw_case (l : List Assignment) (nm rn r0 : String)
    (cc cs tc ts : Nat)
    (hkeys : (l.map (fun a => (a.node_name, a.res_name))).Nodup)
    (hpre : (l.filter (overwrite_pred r0)).length ≤ 1) :
    ((List.map (fun a =>
        if a.res_name == rn && !(a.node_name == nm && a.res_name == rn) then
          a.clear_tstate_flags Assignment.FLAG_OVERWRITE
        else a)
      (List.map (fun a =>
        if a.node_name == nm && a.res_name == rn then
          (((a.clear_cstate_flags cc).set_cstate_flags cs).clear_tstate_flags
            (tc ||| Assignment.FLAG_DISCARD)).set_tstate_flags
            (clear_flags ts Assignment.FLAG_DISCARD)
        else a) l)).filter (overwrite_pred r0)).length ≤ 1 := by
  set f1 : Assignment → Assignment := (fun a =>
      if a.node_name == nm && a.res_name == rn then
        (((a.clear_cstate_flags cc).set_cstate_flags cs).clear_tstate_flags
          (tc ||| Assignment.FLAG_DISCARD)).set_tstate_flags
          (clear_flags ts Assignment.FLAG_DISCARD)
      else a) with hf1
  set pc : Assignment → Assignment := (fun a =>
      if a.res_name == rn && !(a.node_name == nm && a.res_name == rn) then
        a.clear_tstate_flags Assignment.FLAG_OVERWRITE
      else a) with hpc
  have hf1k : ∀ a, (f1 a).node_name = a.node_name ∧ (f1 a).res_name = a.res_name := by
    intro a
    simp only [hf1]
    by_cases hc : (a.node_name == nm && a.res_name == rn) = true
    · rw [if_pos hc]
      exact ⟨rfl, rfl⟩
    · rw [if_neg hc]
      exact ⟨rfl, rfl⟩
  have hpck : ∀ a, (pc a).node_name = a.node_name ∧ (pc a).res_name = a.res_name := by
    intro a
    simp only [hpc]
    by_cases hc : (a.res_name == rn && !(a.node_name == nm && a.res_name == rn)) = true
    · rw [if_pos hc]
      exact ⟨rfl, rfl⟩
    · rw [if_neg hc]
      exact ⟨rfl, rfl⟩
  cases hrr : (rn == r0) with
  | true =>
    have h0 : rn = r0 := eq_of_beq hrr
    subst h0
    apply filter_length_le_one_key _ _ (nm, rn)
    · rw [map_keys_eq _ pc hpck, map_keys_eq _ f1 hf1k]
      exact hkeys
    · intro b hb hpb
      rw [List.mem_map] at hb
      obtain ⟨b1, hb1, rfl⟩ := hb
      rw [List.mem_map] at hb1
      obtain ⟨a, ha, rfl⟩ := hb1
      by_cases hkey : ((f1 a).node_name == nm && (f1 a).res_name == rn) = true
      · have hpcfa : pc (f1 a) = f1 a := by
          simp only [hpc]
          rw [if_neg]
          simp [hkey]
        rw [hpcfa] at hpb ⊢
        have h1 := (Bool.and_eq_true _ _).mp hkey
        simp only [Prod.mk.injEq]
        exact ⟨eq_of_beq h1.1, eq_of_beq h1.2⟩
      · have hkeya : (a.node_name == nm && a.res_name == rn) ≠ true := by
          rcases hf1k a with ⟨h1, h2⟩
          rw [← h1, ← h2]
          exact hkey
        have hfa1 : f1 a = a := by
          simp only [hf1]
          exact if_neg hkeya
        rw [hfa1] at hpb ⊢
        by_cases hc2 : (a.res_name == rn && !(a.node_name == nm && a.res_name == rn)) = true
        · exfalso
          have hpca : pc a = a.clear_tstate_flags Assignment.FLAG_OVERWRITE := by
            simp only [hpc]
            exact if_pos hc2
          rw [hpca] at hpb
          unfold overwrite_pred at hpb
          rw [overwrite_set_clear_ovw] at hpb
          simp at hpb
        · have hpca : pc a = a := by
            simp only [hpc]
            exact if_neg hc2
          rw [hpca] at hpb
          exfalso
          unfold overwrite_pred at hpb
          have hres : (a.res_name == rn) = true := ((Bool.and_eq_true _ _).mp hpb).1
          apply hkeya
          cases hkk : (a.node_name == nm && a.res_name == rn) with
          | true => rfl
          | false =>
            rw [hres] at hkk
            simp only [Bool.and_true] at hkk
            exact absurd (by simp [hkk, hres]) hc2
  | false =>
    calc ((List.filter (overwrite_pred r0) ((l.map f1).map pc))).length
        ≤ ((l.map f1).filter (overwrite_pred r0)).length := by
          apply filter_length_map_le
          intro a _ hp
          by_cases hc : (a.res_name == rn && !(a.node_name == nm && a.res_name == rn)) = true
          · exfalso
            have hpca : pc a = a.clear_tstate_flags Assignment.FLAG_OVERWRITE := by
              simp only [hpc]
              exact if_pos hc
            rw [hpca] at hp
            unfold overwrite_pred at hp
            rw [overwrite_set_clear_ovw] at hp
            simp at hp
          · have hpca : pc a = a := by
              simp only [hpc]
              exact if_neg hc
            rw [hpca] at hp
            exact hp
      _ ≤ (l.filter (overwrite_pred r0)).length := by
          apply filter_length_map_le
          intro a _ hp
          by_cases hc : (a.node_name == nm && a.res_name == rn) = true
          · exfalso
            have hk2 : a.res_name = rn := eq_of_beq ((Bool.and_eq_true _ _).mp hc).2
            unfold overwrite_pred at hp
            have h1 : ((f1 a).res_name == r0) = true := ((Bool.and_eq_true _ _).mp hp).1
            rw [(hf1k a).2, hk2] at h1
            rw [h1] at hrr
            cases hrr
          · have hfa1 : f1 a = a := by
              simp only [hf1]
              exact if_neg hc
            rw [hfa1] at hp
            exact hp
      _ ≤ 1 := hpre

theorem modify_count_noovw_case (l : List Assignment) (nm rn r0 : String)
    (cc cs tcl ts : Nat) (hts4 : ts.testBit 4 = false)
    (hpre : (l.filter (overwrite_pred r0)).length ≤ 1) :
    ((List.map (fun a =>
        if a.node_name == nm && a.res_name == rn then
          (((a.clear_cstate_flags cc).set_cstate_flags cs).clear_tstate_flags
            tcl).set_tstate_flags ts
        else a) l).filter (overwrite_pred r0)).length ≤ 1 := by
  apply Nat.le_trans _ hpre
  apply filter_length_map_le
  intro a _ hp
  by_cases hc : (a.node_name == nm && a.res_name == rn) = true
  · rw [if_pos hc] at hp
    unfold overwrite_pred at hp ⊢
    rw [Bool.and_eq_true] at hp ⊢
    exact ⟨hp.1, overwrite_set_masks a cc cs tcl ts hts4 hp.2⟩
  · rw [if_neg hc] at hp
    exact hp

theorem modify_state_overwrite_count (st : ServerState) (pok : Bool)
    (nm rn : String) (cc cs tc ts : Nat) (r0 : String)
    (hkeys : (st.assignments.map (fun a => (a.node_name, a.res_name))).Nodup)
    (hpre : overwrite_count st r0 ≤ 1) :
    overwrite_count (modify_state st pok nm rn cc cs tc ts).1 r0 ≤ 1 := by
  have hres : (modify_state st pok nm rn cc cs tc ts).1.assignments =
      (modify_state_body st pok nm rn cc cs tc ts).1.assignments := rfl
  unfold overwrite_count at hpre ⊢
  rw [hres]
  unfold modify_state_body
  cases pok with
  | false => exact hpre
  | true =>
    simp only [if_pos rfl]
    by_cases hnone : ((get_node (begin_modify_conf st) nm).isNone) = true
    · simp only [hnone, if_true]
      exact hpre
    · simp only [hnone, Bool.false_eq_true, if_false]
      cases hassg : get_assignment (begin_modify_conf st) nm rn with
      | none => exact hpre
      | some a0 =>
        by_cases hov : (ts &&& Assignment.FLAG_OVERWRITE != 0) = true
        · have hb4 : ts.testBit 4 = true :=
            (and_flag_ne_zero_iff_testBit ts).1.mp (by simpa using hov)
          have hoc : (clear_flags ts Assignment.FLAG_DISCARD &&&
              Assignment.FLAG_OVERWRITE != 0) = true := by
            have h1 : clear_flags ts Assignment.FLAG_DISCARD &&&
                Assignment.FLAG_OVERWRITE ≠ 0 := by
              apply ((and_flag_ne_zero_iff_testBit _).1).mpr
              rw [testBit_clear_flags]
              have hd : (Assignment.FLAG_DISCARD : Nat).testBit 4 = false := by decide
              rw [hb4, hd]
              rfl
            simpa using h1
          simp only [hov, if_true, hoc]
          exact modify_count_ovw_case st.assignments nm rn r0 cc cs tc ts hkeys hpre
        · have hts4 : ts.testBit 4 = false := by
            have h1 : ts &&& Assignment.FLAG_OVERWRITE = 0 := by
              by_contra hne
              exact hov (by simpa using hne)
            by_contra hne
            have h2 := ((and_flag_ne_zero_iff_testBit ts).1).mpr
              (by simpa using hne)
            exact h2 h1
          simp only [hov, Bool.false_eq_true, if_false]
          exact modify_count_noovw_case st.assignments nm rn r0 cc cs _ ts hts4 hpre

theorem modify_peers_core (l : List Assignment) (nm rn : String)
    (cc cs tc ts : Nat) (b : Assignment)
    (hb : b ∈ List.map (fun a =>
        if a.res_name == rn && !(a.node_name == nm && a.res_name == rn) then
          a.clear_tstate_flags Assignment.FLAG_OVERWRITE
        else a)
      (List.map (fun a =>
        if a.node_name == nm && a.res_name == rn then
          (((a.clear_cstate_flags cc).set_cstate_flags cs).clear_tstate_flags
            (tc ||| Assignment.FLAG_DISCARD)).set_tstate_flags
            (clear_flags ts Assignment.FLAG_DISCARD)
        else a) l))
    (hres : b.res_name = rn) (hnode : b.node_name ≠ nm) :
    overwrite_set b = false := by
  set f1 : Assignment → Assignment := (fun a =>
      if a.node_name == nm && a.res_name == rn then
        (((a.clear_cstate_flags cc).set_cstate_flags cs).clear_tstate_flags
          (tc ||| Assignment.FLAG_DISCARD)).set_tstate_flags
          (clear_flags ts Assignment.FLAG_DISCARD)
      else a) with hf1
  set pc : Assignment → Assignment := (fun a =>
      if a.res_name == rn && !(a.node_name == nm && a.res_name == rn) then
        a.clear_tstate_flags Assignment.FLAG_OVERWRITE
      else a) with hpc
  have hpck : ∀ a, (pc a).node_name = a.node_name ∧ (pc a).res_name = a.res_name := by
    intro a
    simp only [hpc]
    by_cases hc : (a.res_name == rn && !(a.node_name == nm && a.res_name == rn)) = true
    · rw [if_pos hc]
      exact ⟨rfl, rfl⟩
    · rw [if_neg hc]
      exact ⟨rfl, rfl⟩
  rw [List.mem_map] at hb
  obtain ⟨b1, hb1, rfl⟩ := hb
  rw [List.mem_map] at hb1
  obtain ⟨a, ha, rfl⟩ := hb1
  by_cases hkey : ((f1 a).node_name == nm && (f1 a).res_name == rn) = true
  · exfalso
    have hpcfa : pc (f1 a) = f1 a := by
      simp only [hpc]
      rw [if_neg]
      simp [hkey]
    rw [hpcfa] at hnode
    exact hnode (eq_of_beq ((Bool.and_eq_true _ _).mp hkey).1)
  · have hr2 : (f1 a).res_name = rn := by
      rw [← (hpck (f1 a)).2]
      exact hres
    cases hnn : ((f1 a).node_name == nm) with
    | true =>
      have hk : ((f1 a).node_name == nm && (f1 a).res_name == rn) = true := by
        rw [hnn, hr2]
        simp
      exact absurd hk hkey
    | false =>
      have hcond : ((f1 a).res_name == rn &&
          !((f1 a).node_name == nm && (f1 a).res_name == rn)) = true := by
        rw [hr2, hnn]
        simp
      have hpcfa : pc (f1 a) = (f1 a).clear_tstate_flags Assignment.FLAG_OVERWRITE := by
        simp only [hpc]
        exact if_pos hcond
      rw [hpcfa]
      exact overwrite_set_clear_ovw _

theorem modify_state_clears_peers (st : ServerState) (nm rn : String)
    (cc cs tc ts : Nat) (b : Assignment)
    (hov : (ts &&& Assignment.FLAG_OVERWRITE != 0) = true)
    (hsucc : (modify_state st true nm rn cc cs tc ts).2 = [DmRc.success])
    (hb : b ∈ (modify_state st true nm rn cc cs tc ts).1.assignments)
    (hres : b.res_name = rn) (hnode : b.node_name ≠ nm) :
    overwrite_set b = false := by
  have h2 : (modify_state st true nm rn cc cs tc ts).2 =
      finish_rc (modify_state_body st true nm rn cc cs tc ts).2 := rfl
  have h1 : (modify_state st true nm rn cc cs tc ts).1.assignments =
      (modify_state_body st true nm rn cc cs tc ts).1.assignments := rfl
  rw [h2] at hsucc
  rw [h1] at hb
  unfold modify_state_body at hsucc hb
  simp only [if_pos rfl] at hsucc hb
  by_cases hnone : ((get_node (begin_modify_conf st) nm).isNone) = true
  · simp only [hnone, if_true] at hsucc
    simp [finish_rc] at hsucc
  · simp only [hnone, Bool.false_eq_true, if_false] at hsucc hb
    cases hassg : get_assignment (begin_modify_conf st) nm rn with
    | none =>
      rw [hassg] at hsucc
      simp [finish_rc] at hsucc
    | some a0 =>
      rw [hassg] at hb
      have hb4 : ts.testBit 4 = true :=
        (and_flag_ne_zero_iff_testBit ts).1.mp (by simpa using hov)
      have hoc : (clear_flags ts Assignment.FLAG_DISCARD &&&
          Assignment.FLAG_OVERWRITE != 0) = true := by
        have hx : clear_flags ts Assignment.FLAG_DISCARD &&&
            Assignment.FLAG_OVERWRITE ≠ 0 := by
          apply ((and_flag_ne_zero_iff_testBit _).1).mpr
          rw [testBit_clear_flags]
          have hd : (Assignment.FLAG_DISCARD : Nat).testBit 4 = false := by decide
          rw [hb4, hd]
          rfl
        simpa using hx
      simp only [hov, if_true, hoc] at hb
      exact modify_peers_core (begin_modify_conf st).assignments nm rn cc cs tc ts b hb hres hnode

theorem assign_tail_peers (st2 : ServerState) (nm rn : String)
    (props : List (String × String)) (t : Nat) (b : Assignment)
    (hb : b ∈ (if ((_assign st2 nm rn 0 t).1 == DmRc.success) = true then
        (save_conf_data (perform_changes (update_assignment (_assign st2 nm rn 0 t).2
          nm rn (fun a =>
            { a with props := merge_gen a.props (aux_props_selector props) }))),
          ([] : List DmRc))
      else ((_assign st2 nm rn 0 t).2,
        [(_assign st2 nm rn 0 t).1])).1.assignments)
    (hres : b.res_name = rn) (hnode : b.node_name ≠ nm)
    (hcl : ∀ a ∈ st2.assignments, a.res_name = rn → overwrite_set a = false) :
    overwrite_set b = false := by
  have key : ∀ b1, b1 ∈ (_assign st2 nm rn 0 t).2.assignments →
      b1.res_name = rn → b1.node_name ≠ nm → overwrite_set b1 = false := by
    intro b1 hb1 hr1 hn1
    rcases _assign_assignments st2 nm rn 0 t with hA | ⟨nid, vs, hA⟩
    · rw [hA] at hb1
      exact hcl b1 hb1 hr1
    · rw [hA] at hb1
      rw [List.mem_map] at hb1
      obtain ⟨c, hc, rfl⟩ := hb1
      have hun : (if c.res_name == rn && c.is_deployed then c.update_connections
          else c).node_name = c.node_name ∧
          (if c.res_name == rn && c.is_deployed then c.update_connections
          else c).res_name = c.res_name ∧
          overwrite_set (if c.res_name == rn && c.is_deployed then
            c.update_connections else c) = overwrite_set c := by
        by_cases hd : (c.res_name == rn && c.is_deployed) = true
        · rw [if_pos hd]
          exact ⟨rfl, rfl, overwrite_set_update_connections c⟩
        · rw [if_neg hd]
          exact ⟨rfl, rfl, rfl⟩
      rcases List.mem_append.mp hc with hc1 | hc2
      · rw [hun.2.2]
        apply hcl c hc1
        rw [← hun.2.1]
        exact hr1
      · exfalso
        rw [List.mem_singleton] at hc2
        subst hc2
        apply hn1
        rw [hun.1]
  by_cases hs : ((_assign st2 nm rn 0 t).1 == DmRc.success) = true
  · rw [if_pos hs] at hb
    have hb2 : b ∈ (_assign st2 nm rn 0 t).2.assignments.map
        (fun a => if a.node_name == nm && a.res_name == rn then
          { a with props := merge_gen a.props (aux_props_selector props) }
        else a) := hb
    rw [List.mem_map] at hb2
    obtain ⟨a, ha, hba⟩ := hb2
    have hpk : b.node_name = a.node_name ∧ b.res_name = a.res_name ∧
        overwrite_set b = overwrite_set a := by
      rw [← hba]
      by_cases hk : (a.node_name == nm && a.res_name == rn) = true
      · rw [if_pos hk]
        exact ⟨rfl, rfl, rfl⟩
      · rw [if_neg hk]
        exact ⟨rfl, rfl, rfl⟩
    rw [hpk.2.2]
    apply key a ha
    · rw [← hpk.2.1]
      exact hres
    · rw [← hpk.1]
      exact hnode
  · rw [if_neg hs] at hb
    exact key b hb hres hnode

theorem assign_clears_peers (st : ServerState) (nm rn : String)
    (props : List (String × String)) (b : Assignment)
    (hov : parse_bool_prop props KEY_FLAG_OVERWRITE false = some true)
    (hsucc : (assign st true nm rn props).2 = [DmRc.success])
    (hb : b ∈ (assign st true nm rn props).1.assignments)
    (hres : b.res_name = rn) (hnode : b.node_name ≠ nm) :
    overwrite_set b = false := by
  have h2 : (assign st true nm rn props).2 =
      finish_rc (assign_body st true nm rn props).2 := rfl
  have h1 : (assign st true nm rn props).1.assignments =
      (assign_body st true nm rn props).1.assignments := rfl
  rw [h2] at hsucc
  rw [h1] at hb
  unfold assign_body at hsucc hb
  rw [hov] at hsucc hb
  cases hdl : parse_bool_prop props KEY_FLAG_DISKLESS false with
  | none =>
    rw [hdl] at hsucc
    simp [finish_rc] at hsucc
  | some fdl =>
    rw [hdl] at hsucc hb
    cases hcn : parse_bool_prop props KEY_FLAG_CONNECT true with
    | none =>
      rw [hcn] at hsucc
      simp [finish_rc] at hsucc
    | some fcn =>
      rw [hcn] at hsucc hb
      cases hdc : parse_bool_prop props KEY_FLAG_DISCARD false with
      | none =>
        rw [hdc] at hsucc
        simp [finish_rc] at hsucc
      | some fdc =>
        rw [hdc] at hsucc hb
        simp only [if_pos rfl] at hsucc hb
        by_cases hno : ((get_node (begin_modify_conf st) nm).isNone ||
            (get_resource (begin_modify_conf st) rn).isNone) = true
        · simp only [hno, if_true] at hsucc
          simp [finish_rc] at hsucc
        · simp only [hno, Bool.false_eq_true, if_false] at hsucc hb
          by_cases hex : ((get_assignment (begin_modify_conf st) nm rn).isSome) = true
          · simp only [hex, if_true] at hsucc
            simp [finish_rc] at hsucc
          · simp only [hex, Bool.false_eq_true, if_false] at hsucc hb
            cases fdl with
            | true =>
              simp [finish_rc] at hsucc
            | false =>
              cases fdc with
              | true =>
                simp [finish_rc] at hsucc
              | false =>
                simp only [Bool.and_false, Bool.false_eq_true, if_false,
                  if_pos rfl] at hb
                refine assign_tail_peers _ nm rn props _ b hb hres hnode ?_
                intro a ha hr
                have ha2 : a ∈ st.assignments.map (fun c =>
                    if c.res_name == rn then
                      c.clear_tstate_flags Assignment.FLAG_OVERWRITE
                    else c) := ha
                rw [List.mem_map] at ha2
                obtain ⟨c, hc, hca⟩ := ha2
                by_cases hcc : (c.res_name == rn) = true
                · rw [← hca, if_pos hcc]
                  exact overwrite_set_clear_ovw c
                · exfalso
                  rw [← hca, if_neg hcc] at hr
                  exact hcc (beq_iff_eq.mpr hr)

/-- **C2.** For every set of assignments of one resource, at most one
assignment carries the OVERWRITE flag in its target state after the
mutators `assign` or `modify_state` complete: under the data-model
invariant that (node, resource) keys are unique (Python keeps assignments
in dicts keyed by node and resource name) and assuming the at-most-one
invariant held before the call, it holds for every resource after either
mutator, with any outcome; and whenever a successful call sets OVERWRITE
on the assignment (node_name, res_name), every other assignment of the
same resource ends with OVERWRITE cleared. -/
theorem overwrite_flag_exclusivity (st : ServerState)
    (hkeys : (st.assignments.map (fun a => (a.node_name, a.res_name))).Nodup)
    (hpre : ∀ r, overwrite_count st r ≤ 1) :
    (∀ pok nm rn props r,
      overwrite_count (assign st pok nm rn props).1 r ≤ 1) ∧
    (∀ pok nm rn cc cs tc ts r,
      overwrite_count (modify_state st pok nm rn cc cs tc ts).1 r ≤ 1) ∧
    (∀ nm rn cc cs tc ts b, (ts &&& Assignment.FLAG_OVERWRITE != 0) = true →
      (modify_state st true nm rn cc cs tc ts).2 = [DmRc.success] →
      b ∈ (modify_state st true nm rn cc cs tc ts).1.assignments →
      b.res_name = rn → b.node_name ≠ nm → overwrite_set b = false) ∧
    (∀ nm rn props b,
      parse_bool_prop props KEY_FLAG_OVERWRITE false = some true →
      (assign st true nm rn props).2 = [DmRc.success] →
      b ∈ (assign st true nm rn props).1.assignments →
      b.res_name = rn → b.node_name ≠ nm → overwrite_set b = false) := by
  refine ⟨?_, ?_, ?_, ?_⟩
  · intro pok nm rn props r
    exact assign_overwrite_count st pok nm rn props r (hpre r)
  · intro pok nm rn cc cs tc ts r
    exact modify_state_overwrite_count st pok nm rn cc cs tc ts r hkeys (hpre r)
  · intro nm rn cc cs tc ts b hov hsucc hb hr hn
    exact modify_state_clears_peers st nm rn cc cs tc ts b hov hsucc hb hr hn
  · intro nm rn props b hov hsucc hb hr hn
    exact assign_clears_peers st nm rn props b hov hsucc hb hr hn

theorem overwrite_flag_exclusivity_witness :
    overwrite_count (modify_state sample_st true "beta" "r0" 0 0 0
      Assignment.FLAG_OVERWRITE).1 "r0" ≤ 1 :=
  (overwrite_flag_exclusivity sample_st (by decide)
    (fun r => Nat.le_trans (List.length_filter_le _ _) (by decide))).2.1
    true "beta" "r0" 0 0 0 Assignment.FLAG_OVERWRITE "r0"

/-! ## C8: idempotence of cleanup -/

theorem scan_marked_sublist (m : List Int) (l : List DrbdVolumeState) :
    ((cleanup_vol_scan m l).2).Sublist m := by
  induction l generalizing m with
  | nil => exact List.Sublist.refl m
  | cons vs rest ih =>
    unfold cleanup_vol_scan
    by_cases hc : (m.contains vs.vol_id) = true
    · rw [if_pos hc]
      by_cases hd : (vs.cstate &&& DrbdVolumeState.FLAG_DEPLOY != 0) = true
      · rw [if_pos hd]
        show ((cleanup_vol_scan (m.erase vs.vol_id) rest).2).Sublist m
        exact (ih (m.erase vs.vol_id)).trans (List.erase_sublist _ _)
      · rw [if_neg hd]
        exact ih m
    · rw [if_neg hc]
      exact ih m

theorem scan_out_fod (m : List Int) (l : List DrbdVolumeState) :
    ∀ i ∈ m, ∀ w, ((cleanup_vol_scan m l).1).find?
      (fun u => u.vol_id == i) = some w →
      (w.cstate &&& DrbdVolumeState.FLAG_DEPLOY != 0) = true := by
  induction l generalizing m with
  | nil =>
    intro i _ w hw
    exact absurd hw (by simp [cleanup_vol_scan])
  | cons vs rest ih =>
    intro i hi w hw
    unfold cleanup_vol_scan at hw
    by_cases hc : (m.contains vs.vol_id) = true
    · rw [if_pos hc] at hw
      by_cases hd : (vs.cstate &&& DrbdVolumeState.FLAG_DEPLOY != 0) = true
      · rw [if_pos hd] at hw
        have hw2 : (vs :: (cleanup_vol_scan (m.erase vs.vol_id) rest).1).find?
            (fun u => u.vol_id == i) = some w := hw
        by_cases he : (vs.vol_id == i) = true
        · rw [List.find?_cons_of_pos (p := fun u : DrbdVolumeState => u.vol_id == i) _ he] at hw2
          cases hw2
          exact hd
        · rw [List.find?_cons_of_neg (p := fun u : DrbdVolumeState => u.vol_id == i) _ (by simp [he])] at hw2
          have hi2 : i ∈ m.erase vs.vol_id := by
            rw [List.mem_erase_of_ne]
            · exact hi
            · intro hx
              rw [hx] at he
              simp at he
          exact ih (m.erase vs.vol_id) i hi2 w hw2
      · rw [if_neg hd] at hw
        exact ih m i hi w hw
    · rw [if_neg hc] at hw
      have hne : (vs.vol_id == i) = false := by
        by_contra hx
        rw [Bool.not_eq_false] at hx
        have : vs.vol_id ∈ m := by
          rw [← eq_of_beq hx] at hi
          exact hi
        exact hc ((int_contains_iff _ _).mpr this)
      have hw2 : (vs :: (cleanup_vol_scan m rest).1).find?
          (fun u => u.vol_id == i) = some w := hw
      rw [List.find?_cons_of_neg (p := fun u : DrbdVolumeState => u.vol_id == i) _ (by simp [hne])] at hw2
      exact ih m i hi w hw2

theorem scan_out_occ (m : List Int) (l : List DrbdVolumeState) :
    ∀ i ∈ m, i ∉ (cleanup_vol_scan m l).2 →
      ((cleanup_vol_scan m l).1).any (fun u => u.vol_id == i) = true := by
  induction l generalizing m with
  | nil =>
    intro i hi hni
    exact absurd hi hni
  | cons vs rest ih =>
    intro i hi hni
    unfold cleanup_vol_scan at hni ⊢
    by_cases hc : (m.contains vs.vol_id) = true
    · rw [if_pos hc] at hni ⊢
      by_cases hd : (vs.cstate &&& DrbdVolumeState.FLAG_DEPLOY != 0) = true
      · rw [if_pos hd] at hni ⊢
        show ((vs :: (cleanup_vol_scan (m.erase vs.vol_id) rest).1).any
          (fun u => u.vol_id == i)) = true
        by_cases he : (vs.vol_id == i) = true
        · rw [List.any_cons, he]
          rfl
        · have hi2 : i ∈ m.erase vs.vol_id := by
            rw [List.mem_erase_of_ne]
            · exact hi
            · intro hx
              rw [hx] at he
              simp at he
          have := ih (m.erase vs.vol_id) i hi2 hni
          rw [List.any_cons, this]
          simp
      · rw [if_neg hd] at hni ⊢
        exact ih m i hi hni
    · rw [if_neg hc] at hni ⊢
      have hne : (vs.vol_id == i) = false := by
        by_contra hx
        rw [Bool.not_eq_false] at hx
        have : vs.vol_id ∈ m := by
          rw [← eq_of_beq hx] at hi
          exact hi
        exact hc ((int_contains_iff _ _).mpr this)
      have := ih m i hi hni
      show ((vs :: (cleanup_vol_scan m rest).1).any (fun u => u.vol_id == i)) = true
      rw [List.any_cons, this]
      simp

theorem scan_out_none (m : List Int) (l : List DrbdVolumeState) (hnd : m.Nodup) :
    ∀ i ∈ (cleanup_vol_scan m l).2,
      ((cleanup_vol_scan m l).1).any (fun u => u.vol_id == i) = false := by
  induction l generalizing m with
  | nil =>
    intro i _
    rfl
  | cons vs rest ih =>
    intro i hi
    unfold cleanup_vol_scan at hi ⊢
    by_cases hc : (m.contains vs.vol_id) = true
    · rw [if_pos hc] at hi ⊢
      by_cases hd : (vs.cstate &&& DrbdVolumeState.FLAG_DEPLOY != 0) = true
      · rw [if_pos hd] at hi ⊢
        have hi2 : i ∈ (cleanup_vol_scan (m.erase vs.vol_id) rest).2 := hi
        have him : i ∈ m.erase vs.vol_id :=
          (scan_marked_sublist _ _).subset hi2
        have hne : (vs.vol_id == i) = false := by
          have : i ≠ vs.vol_id := (hnd.mem_erase_iff.mp him).1
          by_contra hx
          rw [Bool.not_eq_false] at hx
          exact this (eq_of_beq hx).symm
        show ((vs :: (cleanup_vol_scan (m.erase vs.vol_id) rest).1).any
          (fun u => u.vol_id == i)) = false
        rw [List.any_cons, hne, ih (m.erase vs.vol_id) (hnd.erase _) i hi2]
        rfl
      · rw [if_neg hd] at hi ⊢
        exact ih m hnd i hi
    · rw [if_neg hc] at hi ⊢
      have hi2 : i ∈ (cleanup_vol_scan m rest).2 := hi
      have him : i ∈ m := (scan_marked_sublist _ _).subset hi2
      have hne : (vs.vol_id == i) = false := by
        by_contra hx
        rw [Bool.not_eq_false] at hx
        have : vs.vol_id ∈ m := by
          rw [← eq_of_beq hx] at him
          exact him
        exact hc ((int_contains_iff _ _).mpr this)
      show ((vs :: (cleanup_vol_scan m rest).1).any
        (fun u => u.vol_id == i)) = false
      rw [List.any_cons, hne, ih m hnd i hi2]
      rfl

theorem scan_clean (m : List Int) (l : List DrbdVolumeState) (hnd : m.Nodup)
    (hfod : ∀ i ∈ m, ∀ w, l.find? (fun u => u.vol_id == i) = some w →
      (w.cstate &&& DrbdVolumeState.FLAG_DEPLOY != 0) = true) :
    cleanup_vol_scan m l =
      (l, m.filter (fun i => !(l.any (fun u => u.vol_id == i)))) := by
  induction l generalizing m with
  | nil =>
    unfold cleanup_vol_scan
    simp
  | cons vs rest ih =>
    unfold cleanup_vol_scan
    by_cases hc : (m.contains vs.vol_id) = true
    · have hmem : vs.vol_id ∈ m := (int_contains_iff _ _).mp hc
      have hd : (vs.cstate &&& DrbdVolumeState.FLAG_DEPLOY != 0) = true := by
        apply hfod vs.vol_id hmem vs
        rw [List.find?_cons_of_pos (p := fun u : DrbdVolumeState =>
          u.vol_id == vs.vol_id) _ (by simp)]
      rw [if_pos hc, if_pos hd]
      have hfod2 : ∀ i ∈ m.erase vs.vol_id, ∀ w,
          rest.find? (fun u => u.vol_id == i) = some w →
          (w.cstate &&& DrbdVolumeState.FLAG_DEPLOY != 0) = true := by
        intro i hie w hw
        have hne : i ≠ vs.vol_id := (hnd.mem_erase_iff.mp hie).1
        apply hfod i (hnd.mem_erase_iff.mp hie).2 w
        rw [List.find?_cons_of_neg (p := fun u : DrbdVolumeState =>
          u.vol_id == i) _ (by simp; exact fun hx => hne hx.symm)]
        exact hw
      have ih2 := ih (m.erase vs.vol_id) (hnd.erase _) hfod2
      show ((vs :: (cleanup_vol_scan (m.erase vs.vol_id) rest).1,
        (cleanup_vol_scan (m.erase vs.vol_id) rest).2) :
        List DrbdVolumeState × List Int) = _
      rw [ih2]
      refine Prod.ext rfl ?_
      show (m.erase vs.vol_id).filter
          (fun i => !(rest.any (fun u => u.vol_id == i))) =
        m.filter (fun i => !((vs :: rest).any (fun u => u.vol_id == i)))
      rw [hnd.erase_eq_filter, List.filter_filter]
      apply List.filter_congr
      intro i _
      rw [List.any_cons]
      by_cases he : (vs.vol_id == i) = true
      · rw [← eq_of_beq he]
        simp
      · have hne : i ≠ vs.vol_id := by
          intro hx
          rw [hx] at he
          simp at he
        simp [he, hne]
    · rw [if_neg hc]
      have hfod2 : ∀ i ∈ m, ∀ w,
          rest.find? (fun u => u.vol_id == i) = some w →
          (w.cstate &&& DrbdVolumeState.FLAG_DEPLOY != 0) = true := by
        intro i hi w hw
        have hne : (vs.vol_id == i) = false := by
          by_contra hx
          rw [Bool.not_eq_false] at hx
          have : vs.vol_id ∈ m := by
            rw [← eq_of_beq hx] at hi
            exact hi
          exact hc ((int_contains_iff _ _).mpr this)
        apply hfod i hi w
        rw [List.find?_cons_of_neg (p := fun u : DrbdVolumeState =>
          u.vol_id == i) _ (by simp [hne])]
        exact hw
      have ih2 := ih m hnd hfod2
      show ((vs :: (cleanup_vol_scan m rest).1,
        (cleanup_vol_scan m rest).2) : List DrbdVolumeState × List Int) = _
      rw [ih2]
      refine Prod.ext rfl ?_
      show m.filter (fun i => !(rest.any (fun u => u.vol_id == i))) =
        m.filter (fun i => !((vs :: rest).any (fun u => u.vol_id == i)))
      apply List.filter_congr
      intro i hi
      have hne : (vs.vol_id == i) = false := by
        by_contra hx
        rw [Bool.not_eq_false] at hx
        have : vs.vol_id ∈ m := by
          rw [← eq_of_beq hx] at hi
          exact hi
        exact hc ((int_contains_iff _ _).mpr this)
      rw [List.any_cons, hne]
      simp


theorem flat_cons (rname : String) (a : Assignment) (rest : List Assignment) :
    flat_vol_states rname (a :: rest) =
      (if a.res_name == rname then a.vol_states else []) ++
        flat_vol_states rname rest := rfl

theorem scan_sublist (m : List Int) (l : List DrbdVolumeState) :
    ((cleanup_vol_scan m l).1).Sublist l := by
  induction l generalizing m with
  | nil => exact List.Sublist.refl []
  | cons vs rest ih =>
    unfold cleanup_vol_scan
    by_cases hc : (m.contains vs.vol_id) = true
    · rw [if_pos hc]
      by_cases hd : (vs.cstate &&& DrbdVolumeState.FLAG_DEPLOY != 0) = true
      · rw [if_pos hd]
        exact List.Sublist.cons₂ vs (ih (m.erase vs.vol_id))
      · rw [if_neg hd]
        exact List.Sublist.cons vs (ih m)
    · rw [if_neg hc]
      exact List.Sublist.cons₂ vs (ih m)

theorem walk_marked_sublist (rname : String) (m : List Int) (l : List Assignment) :
    ((cleanup_vol_walk rname m l).2).Sublist m := by
  induction l generalizing m with
  | nil => exact List.Sublist.refl m
  | cons a rest ih =>
    unfold cleanup_vol_walk
    by_cases hr : (a.res_name == rname) = true
    · rw [if_pos hr]
      exact (ih _).trans (scan_marked_sublist m a.vol_states)
    · rw [if_neg hr]
      exact ih m

theorem walk_forall2 (rname : String) (m : List Int) (l : List Assignment) :
    List.Forall₂ assg_deriv l ((cleanup_vol_walk rname m l).1) := by
  induction l generalizing m with
  | nil => exact List.Forall₂.nil
  | cons a rest ih =>
    unfold cleanup_vol_walk
    by_cases hr : (a.res_name == rname) = true
    · rw [if_pos hr]
      exact List.Forall₂.cons
        ⟨rfl, rfl, rfl, rfl, scan_sublist m a.vol_states⟩ (ih _)
    · rw [if_neg hr]
      exact List.Forall₂.cons
        ⟨rfl, rfl, rfl, rfl, List.Sublist.refl _⟩ (ih m)

theorem walk_flat_other (rname n : String) (hne : n ≠ rname)
    (m : List Int) (l : List Assignment) :
    flat_vol_states n ((cleanup_vol_walk rname m l).1) = flat_vol_states n l := by
  induction l generalizing m with
  | nil => rfl
  | cons a rest ih =>
    unfold cleanup_vol_walk
    by_cases hr : (a.res_name == rname) = true
    · rw [if_pos hr]
      have hrn : (a.res_name == n) = false := by
        rw [eq_of_beq hr]
        by_contra hx
        rw [Bool.not_eq_false] at hx
        exact hne (eq_of_beq hx).symm
      show flat_vol_states n ({ a with vol_states := _ } ::
        (cleanup_vol_walk rname _ rest).1) = _
      unfold flat_vol_states
      show ((if a.res_name == n then _ else []) ++ _) = _
      rw [hrn]
      simp only [Bool.false_eq_true, if_false, List.nil_append]
      rw [ih _]
    · rw [if_neg hr]
      show flat_vol_states n (a :: (cleanup_vol_walk rname m rest).1) = _
      unfold flat_vol_states
      rw [ih m]

theorem walk_out (rname : String) (m : List Int) (l : List Assignment)
    (hnd : m.Nodup) :
    (∀ i ∈ m, ∀ w, (flat_vol_states rname ((cleanup_vol_walk rname m l).1)).find?
        (fun u => u.vol_id == i) = some w →
        (w.cstate &&& DrbdVolumeState.FLAG_DEPLOY != 0) = true) ∧
    (∀ i ∈ (cleanup_vol_walk rname m l).2,
        (flat_vol_states rname ((cleanup_vol_walk rname m l).1)).any
          (fun u => u.vol_id == i) = false) ∧
    (∀ i ∈ m, i ∉ (cleanup_vol_walk rname m l).2 →
        (flat_vol_states rname ((cleanup_vol_walk rname m l).1)).any
          (fun u => u.vol_id == i) = true) := by
  induction l generalizing m with
  | nil =>
    refine ⟨?_, ?_, ?_⟩
    · intro i _ w hw
      exact absurd hw (by simp [cleanup_vol_walk, flat_vol_states])
    · intro i _
      rfl
    · intro i hi hni
      exact absurd hi hni
  | cons a rest ih =>
    unfold cleanup_vol_walk
    by_cases hr : (a.res_name == rname) = true
    · rw [if_pos hr]
      have hnd2 : ((cleanup_vol_scan m a.vol_states).2).Nodup :=
        hnd.sublist (scan_marked_sublist m a.vol_states)
      have IH := ih (cleanup_vol_scan m a.vol_states).2 hnd2
      have hflat : flat_vol_states rname
          ({ a with vol_states := (cleanup_vol_scan m a.vol_states).1 } ::
            (cleanup_vol_walk rname (cleanup_vol_scan m a.vol_states).2 rest).1) =
          (cleanup_vol_scan m a.vol_states).1 ++
          flat_vol_states rname
            ((cleanup_vol_walk rname (cleanup_vol_scan m a.vol_states).2 rest).1) := by
        rw [flat_cons]
        show ((if a.res_name == rname then _ else []) ++ _) = _
        rw [hr]
        simp
      refine ⟨?_, ?_, ?_⟩
      · intro i hi w hw
        show (_ : Bool) = true
        rw [hflat] at hw
        rw [List.find?_append] at hw
        cases hf : (cleanup_vol_scan m a.vol_states).1.find?
            (fun u => u.vol_id == i) with
        | some w1 =>
          rw [hf] at hw
          have hw2 : some w1 = some w := hw
          cases hw2
          exact scan_out_fod m a.vol_states i hi _ hf
        | none =>
          rw [hf] at hw
          rw [Option.none_or] at hw
          by_cases his : i ∈ (cleanup_vol_scan m a.vol_states).2
          · exact IH.1 i his w hw
          · exfalso
            have hany := scan_out_occ m a.vol_states i hi his
            have := List.find?_isSome.mpr (List.any_eq_true.mp hany)
            rw [hf] at this
            exact absurd this (by simp)
      · intro i hi
        show (_ : Bool) = false
        have hi2 : i ∈ (cleanup_vol_scan m a.vol_states).2 :=
          (walk_marked_sublist rname _ rest).subset hi
        rw [hflat, List.any_append]
        rw [scan_out_none m a.vol_states hnd i hi2, IH.2.1 i hi]
        rfl
      · intro i hi hni
        show (_ : Bool) = true
        rw [hflat, List.any_append]
        by_cases his : i ∈ (cleanup_vol_scan m a.vol_states).2
        · rw [IH.2.2 i his hni]
          simp
        · rw [scan_out_occ m a.vol_states i hi his]
          rfl
    · rw [if_neg hr]
      have IH := ih m hnd
      have hflat : flat_vol_states rname
          (a :: (cleanup_vol_walk rname m rest).1) =
          flat_vol_states rname ((cleanup_vol_walk rname m rest).1) := by
        rw [flat_cons]
        show ((if a.res_name == rname then _ else []) ++ _) = _
        rw [if_neg hr]
        simp
      refine ⟨?_, ?_, ?_⟩
      · intro i hi w hw
        show (_ : Bool) = true
        rw [hflat] at hw
        exact IH.1 i hi w hw
      · intro i hi
        show (_ : Bool) = false
        rw [hflat]
        exact IH.2.1 i hi
      · intro i hi hni
        show (_ : Bool) = true
        rw [hflat]
        exact IH.2.2 i hi hni

theorem walk_clean (rname : String) (m : List Int) (l : List Assignment)
    (hnd : m.Nodup)
    (hfod : ∀ i ∈ m, ∀ w, (flat_vol_states rname l).find?
      (fun u => u.vol_id == i) = some w →
      (w.cstate &&& DrbdVolumeState.FLAG_DEPLOY != 0) = true) :
    cleanup_vol_walk rname m l =
      (l, m.filter (fun i =>
        !((flat_vol_states rname l).any (fun u => u.vol_id == i)))) := by
  induction l generalizing m with
  | nil =>
    unfold cleanup_vol_walk
    simp [flat_vol_states]
  | cons a rest ih =>
    unfold cleanup_vol_walk
    by_cases hr : (a.res_name == rname) = true
    · rw [if_pos hr]
      have hflat : flat_vol_states rname (a :: rest) =
          a.vol_states ++ flat_vol_states rname rest := by
        rw [flat_cons, hr]
        simp
      have hfod1 : ∀ i ∈ m, ∀ w, a.vol_states.find?
          (fun u => u.vol_id == i) = some w →
          (w.cstate &&& DrbdVolumeState.FLAG_DEPLOY != 0) = true := by
        intro i hi w hw
        apply hfod i hi w
        rw [hflat, List.find?_append, hw]
        rfl
      have hscan := scan_clean m a.vol_states hnd hfod1
      have hs1 : (cleanup_vol_scan m a.vol_states).1 = a.vol_states := by
        rw [hscan]
      have hs2 : (cleanup_vol_scan m a.vol_states).2 = m.filter (fun i =>
          !(a.vol_states.any (fun u => u.vol_id == i))) := by
        rw [hscan]
      show (({ a with vol_states := (cleanup_vol_scan m a.vol_states).1 } ::
        (cleanup_vol_walk rname (cleanup_vol_scan m a.vol_states).2 rest).1,
        (cleanup_vol_walk rname (cleanup_vol_scan m a.vol_states).2 rest).2) :
        List Assignment × List Int) = _
      rw [hs1, hs2]
      have hfod2 : ∀ i ∈ m.filter (fun i =>
          !(a.vol_states.any (fun u => u.vol_id == i))), ∀ w,
          (flat_vol_states rname rest).find? (fun u => u.vol_id == i) = some w →
          (w.cstate &&& DrbdVolumeState.FLAG_DEPLOY != 0) = true := by
        intro i hi w hw
        rw [List.mem_filter] at hi
        apply hfod i hi.1 w
        rw [hflat, List.find?_append]
        have hnone : a.vol_states.find? (fun u => u.vol_id == i) = none := by
          rw [List.find?_eq_none]
          intro x hx
          have h3 := (by simpa using hi.2 :
            ∀ x ∈ a.vol_states, ¬ x.vol_id = i) x hx
          simpa using h3
        rw [hnone, Option.none_or]
        exact hw
      have ih2 := ih (m.filter (fun i =>
          !(a.vol_states.any (fun u => u.vol_id == i)))) (hnd.filter _) hfod2
      rw [ih2]
      refine Prod.ext ?_ ?_
      · show ({ a with vol_states := a.vol_states } : Assignment) :: rest = a :: rest
        rfl
      · show (m.filter _).filter _ = m.filter _
        rw [List.filter_filter]
        apply List.filter_congr
        intro i _
        rw [hflat, List.any_append]
        cases ha : a.vol_states.any (fun u => u.vol_id == i) with
        | true => simp
        | false => simp
    · rw [if_neg hr]
      have hflat : flat_vol_states rname (a :: rest) =
          flat_vol_states rname rest := by
        rw [flat_cons, if_neg hr]
        simp
      rw [hflat] at hfod ⊢
      have ih2 := ih m hnd hfod
      rw [ih2]


theorem step4_res_clean (r : DrbdResource) (l : List Assignment)
    (hcl : clean_res r l) :
    cleanup_step4_res r l = (r, l) := by
  unfold cleanup_step4_res
  show (({ r with volumes := r.volumes.filter (fun v =>
      !((cleanup_vol_walk r.name
        (((r.volumes.filter (fun v => v.state &&& DrbdVolume.FLAG_REMOVE != 0)).map
          (fun v => v.vol_id)).dedup) l).2.contains v.vol_id)) },
    (cleanup_vol_walk r.name
      (((r.volumes.filter (fun v => v.state &&& DrbdVolume.FLAG_REMOVE != 0)).map
        (fun v => v.vol_id)).dedup) l).1) : DrbdResource × List Assignment) = (r, l)
  set m0 := ((r.volumes.filter (fun v =>
    v.state &&& DrbdVolume.FLAG_REMOVE != 0)).map (fun v => v.vol_id)).dedup with hm0
  have hmem : ∀ i ∈ m0, ∃ v ∈ r.volumes,
      (v.state &&& DrbdVolume.FLAG_REMOVE != 0) = true ∧ v.vol_id = i := by
    intro i hi
    rw [hm0, List.mem_dedup, List.mem_map] at hi
    obtain ⟨v, hv, hveq⟩ := hi
    rw [List.mem_filter] at hv
    exact ⟨v, hv.1, hv.2, hveq⟩
  have hnd0 : m0.Nodup := by
    rw [hm0]
    exact List.nodup_dedup _
  have hw := walk_clean r.name m0 l hnd0 (by
    intro i hi w hfw
    obtain ⟨v, hv, hrm, hveq⟩ := hmem i hi
    subst hveq
    exact hcl.1 v hv hrm w hfw)
  have h1 : (cleanup_vol_walk r.name m0 l).1 = l := by
    rw [hw]
  have h2 : (cleanup_vol_walk r.name m0 l).2 = m0.filter (fun i =>
      !((flat_vol_states r.name l).any (fun u => u.vol_id == i))) := by
    rw [hw]
  rw [h1, h2]
  have hempty : m0.filter (fun i =>
      !((flat_vol_states r.name l).any (fun u => u.vol_id == i))) = [] := by
    rw [List.filter_eq_nil_iff]
    intro i hi
    obtain ⟨v, hv, hrm, hveq⟩ := hmem i hi
    subst hveq
    rw [hcl.2 v hv hrm]
    simp
  rw [hempty]
  have hvols : r.volumes.filter (fun v =>
      !(([] : List Int).contains v.vol_id)) = r.volumes := by
    rw [List.filter_eq_self]
    intro v _
    rfl
  rw [hvols]

theorem step4_res_out (r : DrbdResource) (l : List Assignment) :
    clean_res (cleanup_step4_res r l).1 (cleanup_step4_res r l).2 := by
  have hname : (cleanup_step4_res r l).1.name = r.name := rfl
  set m0 := ((r.volumes.filter (fun v =>
    v.state &&& DrbdVolume.FLAG_REMOVE != 0)).map (fun v => v.vol_id)).dedup with hm0
  have hnd0 : m0.Nodup := by
    rw [hm0]
    exact List.nodup_dedup _
  have WO := walk_out r.name m0 l hnd0
  have hvol : ∀ v ∈ (cleanup_step4_res r l).1.volumes,
      (v.state &&& DrbdVolume.FLAG_REMOVE != 0) = true →
      v.vol_id ∈ m0 ∧ v.vol_id ∉ (cleanup_vol_walk r.name m0 l).2 := by
    intro v hv hrm
    have hv2 : v ∈ r.volumes.filter (fun v =>
        !((cleanup_vol_walk r.name m0 l).2.contains v.vol_id)) := hv
    rw [List.mem_filter] at hv2
    constructor
    · rw [hm0, List.mem_dedup, List.mem_map]
      exact ⟨v, List.mem_filter.mpr ⟨hv2.1, hrm⟩, rfl⟩
    · intro hin
      have := hv2.2
      rw [(int_contains_iff _ _).mpr hin] at this
      simp at this
  have hout2 : (cleanup_step4_res r l).2 = (cleanup_vol_walk r.name m0 l).1 := rfl
  constructor
  · intro v hv hrm w hfw
    have h := hvol v hv hrm
    rw [hname, hout2] at hfw
    exact WO.1 v.vol_id h.1 w hfw
  · intro v hv hrm
    have h := hvol v hv hrm
    rw [hname, hout2]
    exact WO.2.2 v.vol_id h.1 h.2

theorem step4_res_flat_other (r : DrbdResource) (l : List Assignment)
    (n : String) (hne : n ≠ r.name) :
    flat_vol_states n (cleanup_step4_res r l).2 = flat_vol_states n l :=
  walk_flat_other r.name n hne _ l

theorem step4_res_forall2 (r : DrbdResource) (l : List Assignment) :
    List.Forall₂ assg_deriv l (cleanup_step4_res r l).2 :=
  walk_forall2 r.name _ l

theorem deriv_trans {a b c : Assignment} (h1 : assg_deriv a b)
    (h2 : assg_deriv b c) : assg_deriv a c :=
  ⟨h2.1.trans h1.1, h2.2.1.trans h1.2.1, h2.2.2.1.trans h1.2.2.1,
   h2.2.2.2.1.trans h1.2.2.2.1, h2.2.2.2.2.trans h1.2.2.2.2⟩

theorem forall2_deriv_trans {l1 l2 l3 : List Assignment}
    (h1 : List.Forall₂ assg_deriv l1 l2) (h2 : List.Forall₂ assg_deriv l2 l3) :
    List.Forall₂ assg_deriv l1 l3 := by
  induction h1 generalizing l3 with
  | nil =>
    cases h2
    exact List.Forall₂.nil
  | cons hab htail ih =>
    cases h2 with
    | cons hbc htail2 =>
      exact List.Forall₂.cons (deriv_trans hab hbc) (ih htail2)

theorem forall2_deriv_refl (l : List Assignment) :
    List.Forall₂ assg_deriv l l := by
  induction l with
  | nil => exact List.Forall₂.nil
  | cons a rest ih =>
    exact List.Forall₂.cons ⟨rfl, rfl, rfl, rfl, List.Sublist.refl _⟩ ih

theorem go_forall2 (rs : List DrbdResource) (l : List Assignment) :
    List.Forall₂ assg_deriv l (cleanup_step4_go rs l).2 := by
  induction rs generalizing l with
  | nil => exact forall2_deriv_refl l
  | cons r rest ih =>
    unfold cleanup_step4_go
    show List.Forall₂ assg_deriv l
      (cleanup_step4_go rest (cleanup_step4_res r l).2).2
    exact forall2_deriv_trans (step4_res_forall2 r l)
      (ih (cleanup_step4_res r l).2)

theorem go_names (rs : List DrbdResource) (l : List Assignment) :
    ((cleanup_step4_go rs l).1).map (fun r => r.name) =
      rs.map (fun r => r.name) := by
  induction rs generalizing l with
  | nil => rfl
  | cons r rest ih =>
    unfold cleanup_step4_go
    show ((cleanup_step4_res r l).1 ::
      (cleanup_step4_go rest (cleanup_step4_res r l).2).1).map (fun r => r.name) = _
    rw [List.map_cons, List.map_cons, ih]
    rfl

theorem go_flat_other (rs : List DrbdResource) (l : List Assignment)
    (n : String) (hn : ∀ r ∈ rs, n ≠ r.name) :
    flat_vol_states n (cleanup_step4_go rs l).2 = flat_vol_states n l := by
  induction rs generalizing l with
  | nil => rfl
  | cons r rest ih =>
    unfold cleanup_step4_go
    show flat_vol_states n
      (cleanup_step4_go rest (cleanup_step4_res r l).2).2 = _
    rw [ih (cleanup_step4_res r l).2 (fun x hx => hn x (List.mem_cons_of_mem r hx))]
    exact step4_res_flat_other r l n (hn r (List.mem_cons_self r rest))

theorem go_clean (rs : List DrbdResource) (l : List Assignment)
    (h : ∀ r ∈ rs, clean_res r l) :
    cleanup_step4_go rs l = (rs, l) := by
  induction rs with
  | nil => rfl
  | cons r rest ih =>
    unfold cleanup_step4_go
    have hp := step4_res_clean r l (h r (List.mem_cons_self r rest))
    have hp1 : (cleanup_step4_res r l).1 = r := by
      rw [hp]
    have hp2 : (cleanup_step4_res r l).2 = l := by
      rw [hp]
    show (((cleanup_step4_res r l).1 ::
      (cleanup_step4_go rest (cleanup_step4_res r l).2).1,
      (cleanup_step4_go rest (cleanup_step4_res r l).2).2) :
      List DrbdResource × List Assignment) = (r :: rest, l)
    rw [hp1, hp2]
    have hq := ih (fun x hx => h x (List.mem_cons_of_mem r hx))
    have hq1 : (cleanup_step4_go rest l).1 = rest := by
      rw [hq]
    have hq2 : (cleanup_step4_go rest l).2 = l := by
      rw [hq]
    rw [hq1, hq2]

theorem clean_res_transfer (x : DrbdResource) (l l2 : List Assignment)
    (hx : clean_res x l) (hflat : flat_vol_states x.name l2 = flat_vol_states x.name l) :
    clean_res x l2 := by
  constructor
  · intro v hv hrm w hfw
    rw [hflat] at hfw
    exact hx.1 v hv hrm w hfw
  · intro v hv hrm
    rw [hflat]
    exact hx.2 v hv hrm

theorem go_out (rs : List DrbdResource) (l : List Assignment)
    (hnames : (rs.map (fun r => r.name)).Nodup) :
    ∀ r' ∈ (cleanup_step4_go rs l).1, clean_res r' (cleanup_step4_go rs l).2 := by
  induction rs generalizing l with
  | nil =>
    intro r' hr'
    exact absurd hr' (by simp [cleanup_step4_go])
  | cons r rest ih =>
    intro r' hr'
    rw [List.map_cons, List.nodup_cons] at hnames
    have hr'2 : r' ∈ (cleanup_step4_res r l).1 ::
        (cleanup_step4_go rest (cleanup_step4_res r l).2).1 := hr'
    have hout : (cleanup_step4_go (r :: rest) l).2 =
        (cleanup_step4_go rest (cleanup_step4_res r l).2).2 := rfl
    rw [hout]
    rcases List.mem_cons.mp hr'2 with he | hm
    · subst he
      apply clean_res_transfer _ (cleanup_step4_res r l).2 _ (step4_res_out r l)
      apply go_flat_other
      intro x hx hxe
      apply hnames.1
      rw [List.mem_map]
      have hnm : (cleanup_step4_res r l).1.name = r.name := rfl
      rw [hnm] at hxe
      exact ⟨x, hx, hxe.symm⟩
    · exact ih (cleanup_step4_res r l).2 hnames.2 r' hm

theorem or_two_and_one (s : Nat) : (s ||| 2) &&& 1 = s &&& 1 := by
  apply Nat.eq_of_testBit_eq
  intro k
  rw [Nat.testBit_and, Nat.testBit_and, Nat.testBit_or]
  cases k with
  | zero => simp
  | succ k =>
    have h1 : (1 : Nat).testBit (k + 1) = false := by
      apply Nat.testBit_lt_two_pow
      have := Nat.one_lt_two_pow_iff.mpr (Nat.succ_ne_zero k)
      omega
    rw [h1]
    simp

theorem update_keeps_remove (s : Nat) :
    ((set_flags s DrbdNode.FLAG_UPDATE) &&& DrbdNode.FLAG_REMOVE != 0) =
      (s &&& DrbdNode.FLAG_REMOVE != 0) := by
  show ((s ||| 2) &&& 1 != 0) = (s &&& 1 != 0)
  rw [or_two_and_one]

theorem cluster_resources (st : ServerState) :
    (cluster_nodes_update st).resources = st.resources := by
  unfold cluster_nodes_update
  split <;> rfl

theorem cluster_assignments (st : ServerState) :
    (cluster_nodes_update st).assignments = st.assignments := by
  unfold cluster_nodes_update
  split <;> rfl

theorem step2_resources (st : ServerState) :
    (cleanup_step2 st).resources = st.resources := by
  unfold cleanup_step2
  show (if (st.nodes.any (fun n => (n.state &&& DrbdNode.FLAG_REMOVE != 0) &&
      !(node_has_assignments st n.name))) = true
    then cluster_nodes_update _ else _).resources = st.resources
  split
  · rw [cluster_resources]
  · rfl

theorem step2_assignments (st : ServerState) :
    (cleanup_step2 st).assignments = st.assignments := by
  unfold cleanup_step2
  show (if (st.nodes.any (fun n => (n.state &&& DrbdNode.FLAG_REMOVE != 0) &&
      !(node_has_assignments st n.name))) = true
    then cluster_nodes_update _ else _).assignments = st.assignments
  split
  · rw [cluster_assignments]
  · rfl

theorem step2_nodes_origin (st : ServerState) :
    ∀ n ∈ (cleanup_step2 st).nodes, ∃ n0 ∈ st.nodes,
      n.name = n0.name ∧
      (n.state &&& DrbdNode.FLAG_REMOVE != 0) =
        (n0.state &&& DrbdNode.FLAG_REMOVE != 0) ∧
      ((n0.state &&& DrbdNode.FLAG_REMOVE != 0) &&
        !(node_has_assignments st n0.name)) = false := by
  intro n hn
  have hfil : ∀ n1 ∈ st.nodes.filter (fun n =>
      !((n.state &&& DrbdNode.FLAG_REMOVE != 0) &&
        !(node_has_assignments st n.name))), ∃ n0 ∈ st.nodes,
      n1.name = n0.name ∧
      (n1.state &&& DrbdNode.FLAG_REMOVE != 0) =
        (n0.state &&& DrbdNode.FLAG_REMOVE != 0) ∧
      ((n0.state &&& DrbdNode.FLAG_REMOVE != 0) &&
        !(node_has_assignments st n0.name)) = false := by
    intro n1 hn1
    rw [List.mem_filter] at hn1
    refine ⟨n1, hn1.1, rfl, rfl, ?_⟩
    have := hn1.2
    cases hx : ((n1.state &&& DrbdNode.FLAG_REMOVE != 0) &&
        !(node_has_assignments st n1.name)) with
    | false => rfl
    | true =>
      rw [hx] at this
      exact absurd this (by simp)
  unfold cleanup_step2 at hn
  by_cases hrm : (st.nodes.any (fun n =>
      (n.state &&& DrbdNode.FLAG_REMOVE != 0) &&
      !(node_has_assignments st n.name))) = true
  · rw [if_pos hrm] at hn
    unfold cluster_nodes_update at hn
    set stf : ServerState := { st with nodes := st.nodes.filter (fun n =>
      !((n.state &&& DrbdNode.FLAG_REMOVE != 0) &&
        !(node_has_assignments st n.name))) } with hstf
    cases hgn : get_node stf stf.instance_node_name with
    | none =>
      rw [hgn] at hn
      have hn2 : n ∈ stf.nodes.map (fun n =>
          { n with state := set_flags n.state DrbdNode.FLAG_UPDATE }) := hn
      rw [List.mem_map] at hn2
      obtain ⟨n1, hn1, rfl⟩ := hn2
      obtain ⟨n0, hn0, he1, he2, he3⟩ := hfil n1 hn1
      exact ⟨n0, hn0, he1, by rw [update_keeps_remove]; exact he2, he3⟩
    | some x =>
      rw [hgn] at hn
      have hn2 : n ∈ stf.nodes.map (fun n =>
          if n.name == stf.instance_node_name then n
          else { n with state := set_flags n.state DrbdNode.FLAG_UPDATE }) := hn
      rw [List.mem_map] at hn2
      obtain ⟨n1, hn1, rfl⟩ := hn2
      obtain ⟨n0, hn0, he1, he2, he3⟩ := hfil n1 hn1
      by_cases hc : (n1.name == stf.instance_node_name) = true
      · rw [if_pos hc]
        exact ⟨n0, hn0, he1, he2, he3⟩
      · rw [if_neg hc]
        exact ⟨n0, hn0, he1, by rw [update_keeps_remove]; exact he2, he3⟩
  · rw [if_neg hrm] at hn
    exact hfil n hn

theorem step3_forall2 (st : ServerState) :
    List.Forall₂ assg_deriv st.assignments (cleanup_step3 st).assignments := by
  show List.Forall₂ assg_deriv st.assignments (st.assignments.map _)
  induction st.assignments with
  | nil => exact List.Forall₂.nil
  | cons a rest ih =>
    rw [List.map_cons]
    refine List.Forall₂.cons ?_ ih
    by_cases hc : (st.resources.any (fun r => r.name == a.res_name)) = true
    · rw [if_pos hc]
      exact ⟨rfl, rfl, rfl, rfl, List.filter_sublist _⟩
    · rw [if_neg hc]
      exact ⟨rfl, rfl, rfl, rfl, List.Sublist.refl _⟩

theorem forall2_mem_right {l l2 : List Assignment}
    (h : List.Forall₂ assg_deriv l l2) :
    ∀ b ∈ l2, ∃ a ∈ l, assg_deriv a b := by
  induction h with
  | nil =>
    intro b hb
    exact absurd hb (by simp)
  | cons hab htail ih =>
    intro b hb
    rcases List.mem_cons.mp hb with he | hm
    · subst he
      exact ⟨_, List.mem_cons_self _ _, hab⟩
    · obtain ⟨a, ha, hd⟩ := ih b hm
      exact ⟨a, List.mem_cons_of_mem _ ha, hd⟩

theorem forall2_any_node {l l2 : List Assignment}
    (h : List.Forall₂ assg_deriv l l2) (x : String) :
    l2.any (fun a => a.node_name == x) = l.any (fun a => a.node_name == x) := by
  induction h with
  | nil => rfl
  | cons hab htail ih =>
    rw [List.any_cons, List.any_cons, ih, hab.1]

theorem cleanup_chain (st : ServerState) :
    List.Forall₂ assg_deriv (cleanup_step1 st).assignments
      (cleanup st).assignments := by
  have hA : (cleanup st).assignments =
      (cleanup_step4_go
        (cleanup_step3 (cleanup_step2 (cleanup_step1 st))).resources
        (cleanup_step3 (cleanup_step2 (cleanup_step1 st))).assignments).2 := rfl
  rw [hA]
  have h1 : List.Forall₂ assg_deriv (cleanup_step1 st).assignments
      (cleanup_step3 (cleanup_step2 (cleanup_step1 st))).assignments := by
    have h2 := step3_forall2 (cleanup_step2 (cleanup_step1 st))
    rw [step2_assignments] at h2
    exact h2
  exact forall2_deriv_trans h1 (go_forall2 _ _)

theorem step1_idem (st : ServerState) :
    cleanup_step1 (cleanup st) = cleanup st := by
  have hfil : (cleanup st).assignments.filter (fun a =>
      !(((cleanup st).nodes.any (fun n => n.name == a.node_name)) &&
        (a.cstate &&& Assignment.FLAG_DEPLOY == 0) &&
        (a.tstate &&& Assignment.FLAG_DEPLOY == 0))) =
      (cleanup st).assignments := by
    rw [List.filter_eq_self]
    intro a ha
    obtain ⟨a1, ha1, hd⟩ := forall2_mem_right (cleanup_chain st) a ha
    have ha1' : a1 ∈ st.assignments.filter (fun a =>
        !((st.nodes.any (fun n => n.name == a.node_name)) &&
          (a.cstate &&& Assignment.FLAG_DEPLOY == 0) &&
          (a.tstate &&& Assignment.FLAG_DEPLOY == 0))) := ha1
    rw [List.mem_filter] at ha1'
    have hp0 := ha1'.2
    by_cases hx : (((cleanup st).nodes.any (fun n => n.name == a.node_name)) &&
        (a.cstate &&& Assignment.FLAG_DEPLOY == 0) &&
        (a.tstate &&& Assignment.FLAG_DEPLOY == 0)) = true
    swap
    · rw [Bool.not_eq_true] at hx
      rw [hx]
      rfl
    · exfalso
      rw [Bool.and_eq_true, Bool.and_eq_true] at hx
      obtain ⟨⟨hany, hcb⟩, htb⟩ := hx
      have hany0 : (st.nodes.any (fun n => n.name == a1.node_name)) = true := by
        rw [List.any_eq_true] at hany ⊢
        obtain ⟨n, hn, hname⟩ := hany
        have hNN : (cleanup st).nodes =
            (cleanup_step2 (cleanup_step1 st)).nodes := rfl
        rw [hNN] at hn
        obtain ⟨n0, hn0, he1, _, _⟩ := step2_nodes_origin (cleanup_step1 st) n hn
        have hn0' : n0 ∈ st.nodes := hn0
        refine ⟨n0, hn0', ?_⟩
        rw [← he1, ← hd.1]
        exact hname
      have hcb1 : (a1.cstate &&& Assignment.FLAG_DEPLOY == 0) = true := by
        rw [← hd.2.2.1]
        exact hcb
      have htb1 : (a1.tstate &&& Assignment.FLAG_DEPLOY == 0) = true := by
        rw [← hd.2.2.2.1]
        exact htb
      rw [hany0, hcb1, htb1] at hp0
      simp at hp0
  unfold cleanup_step1
  rw [hfil]

theorem step2_idem (st : ServerState) :
    cleanup_step2 (cleanup st) = cleanup st := by
  have hall : ∀ n ∈ (cleanup st).nodes,
      ((n.state &&& DrbdNode.FLAG_REMOVE != 0) &&
        !(node_has_assignments (cleanup st) n.name)) = false := by
    intro n hn
    have hNN : (cleanup st).nodes =
        (cleanup_step2 (cleanup_step1 st)).nodes := rfl
    rw [hNN] at hn
    obtain ⟨n0, hn0, he1, he2, he3⟩ := step2_nodes_origin (cleanup_step1 st) n hn
    have hhas : node_has_assignments (cleanup st) n.name =
        node_has_assignments (cleanup_step1 st) n0.name := by
      unfold node_has_assignments
      rw [he1]
      exact forall2_any_node (cleanup_chain st) n0.name
    rw [he2, hhas]
    exact he3
  have hrm : ((cleanup st).nodes.any (fun n =>
      (n.state &&& DrbdNode.FLAG_REMOVE != 0) &&
      !(node_has_assignments (cleanup st) n.name))) = false := by
    rw [List.any_eq_false]
    intro n hn
    rw [hall n hn]
    simp
  have hfil : (cleanup st).nodes.filter (fun n =>
      !((n.state &&& DrbdNode.FLAG_REMOVE != 0) &&
        !(node_has_assignments (cleanup st) n.name))) = (cleanup st).nodes := by
    rw [List.filter_eq_self]
    intro n hn
    rw [hall n hn]
    rfl
  unfold cleanup_step2
  show (if ((cleanup st).nodes.any (fun n =>
      (n.state &&& DrbdNode.FLAG_REMOVE != 0) &&
      !(node_has_assignments (cleanup st) n.name))) = true
    then cluster_nodes_update
      { cleanup st with nodes := (cleanup st).nodes.filter (fun n =>
        !((n.state &&& DrbdNode.FLAG_REMOVE != 0) &&
          !(node_has_assignments (cleanup st) n.name))) }
    else
      { cleanup st with nodes := (cleanup st).nodes.filter (fun n =>
        !((n.state &&& DrbdNode.FLAG_REMOVE != 0) &&
          !(node_has_assignments (cleanup st) n.name))) }) = cleanup st
  rw [if_neg (by rw [hrm]; simp)]
  rw [hfil]

theorem step3_idem (st : ServerState) :
    cleanup_step3 (cleanup st) = cleanup st := by
  have hpt : ∀ a ∈ (cleanup st).assignments,
      (if (cleanup st).resources.any (fun r => r.name == a.res_name) then
        { a with vol_states := a.vol_states.filter (fun vs =>
            !((vs.cstate &&& DrbdVolumeState.FLAG_DEPLOY == 0) &&
              (vs.tstate &&& DrbdVolumeState.FLAG_DEPLOY == 0))) }
      else a) = (fun a => a) a := by
    intro a ha
    by_cases hc : ((cleanup st).resources.any
        (fun r => r.name == a.res_name)) = true
    · rw [if_pos hc]
      have hA : (cleanup st).assignments =
          (cleanup_step4_go
            (cleanup_step3 (cleanup_step2 (cleanup_step1 st))).resources
            (cleanup_step3 (cleanup_step2 (cleanup_step1 st))).assignments).2 := rfl
      rw [hA] at ha
      obtain ⟨a3, ha3, hd⟩ := forall2_mem_right (go_forall2 _ _) a ha
      have ha3' : a3 ∈ (cleanup_step2 (cleanup_step1 st)).assignments.map
          (fun a => if (cleanup_step2 (cleanup_step1 st)).resources.any
              (fun r => r.name == a.res_name) then
            { a with vol_states := a.vol_states.filter (fun vs =>
                !((vs.cstate &&& DrbdVolumeState.FLAG_DEPLOY == 0) &&
                  (vs.tstate &&& DrbdVolumeState.FLAG_DEPLOY == 0))) }
          else a) := ha3
      rw [List.mem_map] at ha3'
      obtain ⟨a2, ha2, hga⟩ := ha3'
      by_cases hreg : ((cleanup_step2 (cleanup_step1 st)).resources.any
          (fun r => r.name == a2.res_name)) = true
      · have ha3eq : a3 = { a2 with vol_states := a2.vol_states.filter (fun vs =>
            !((vs.cstate &&& DrbdVolumeState.FLAG_DEPLOY == 0) &&
              (vs.tstate &&& DrbdVolumeState.FLAG_DEPLOY == 0))) } := by
          rw [← hga, if_pos hreg]
        have hvs : a.vol_states.filter (fun vs =>
            !((vs.cstate &&& DrbdVolumeState.FLAG_DEPLOY == 0) &&
              (vs.tstate &&& DrbdVolumeState.FLAG_DEPLOY == 0))) = a.vol_states := by
          rw [List.filter_eq_self]
          intro vs hvsm
          have hvs3 : vs ∈ a3.vol_states := hd.2.2.2.2.subset hvsm
          rw [ha3eq] at hvs3
          exact (List.mem_filter.mp hvs3).2
        rw [hvs]
      · exfalso
        rw [List.any_eq_true] at hc
        obtain ⟨r, hr, hrn⟩ := hc
        have hr' : r ∈ (cleanup_step4_go
            (cleanup_step3 (cleanup_step2 (cleanup_step1 st))).resources
            (cleanup_step3 (cleanup_step2 (cleanup_step1 st))).assignments).1.filter
            (fun r => !((r.state &&& DrbdResource.FLAG_REMOVE != 0) &&
              !(resource_has_assignments (cleanup_step4 (cleanup_step3
                (cleanup_step2 (cleanup_step1 st)))) r.name))) := hr
        rw [List.mem_filter] at hr'
        have hrn2 : r.name ∈ ((cleanup_step4_go
            (cleanup_step3 (cleanup_step2 (cleanup_step1 st))).resources
            (cleanup_step3 (cleanup_step2 (cleanup_step1 st))).assignments).1.map
            (fun r => r.name)) := List.mem_map_of_mem _ hr'.1
        rw [go_names] at hrn2
        rw [List.mem_map] at hrn2
        obtain ⟨r2, hr2, hr2n⟩ := hrn2
        have hr2' : r2 ∈ (cleanup_step2 (cleanup_step1 st)).resources := by
          have h3 : (cleanup_step3 (cleanup_step2 (cleanup_step1 st))).resources =
              (cleanup_step2 (cleanup_step1 st)).resources := rfl
          rw [h3] at hr2
          exact hr2
        have hares : a.res_name = a2.res_name := by
          have h1 : a.res_name = a3.res_name := hd.2.1
          have h2 : a3.res_name = a2.res_name := by
            rw [← hga]
            by_cases hz : ((cleanup_step2 (cleanup_step1 st)).resources.any
                (fun r => r.name == a2.res_name)) = true
            · rw [if_pos hz]
            · rw [if_neg hz]
          rw [h1, h2]
        apply hreg
        rw [List.any_eq_true]
        refine ⟨r2, hr2', ?_⟩
        rw [hr2n, ← hares]
        exact hrn
    · rw [if_neg hc]
  have hmap : (cleanup st).assignments.map (fun a =>
      if (cleanup st).resources.any (fun r => r.name == a.res_name) then
        { a with vol_states := a.vol_states.filter (fun vs =>
            !((vs.cstate &&& DrbdVolumeState.FLAG_DEPLOY == 0) &&
              (vs.tstate &&& DrbdVolumeState.FLAG_DEPLOY == 0))) }
      else a) = (cleanup st).assignments := by
    rw [List.map_congr_left hpt]
    exact List.map_id _
  unfold cleanup_step3
  rw [hmap]

theorem step5_idem (st : ServerState) :
    cleanup_step5 (cleanup st) = cleanup st := by
  have hfil : (cleanup st).resources.filter (fun r =>
      !((r.state &&& DrbdResource.FLAG_REMOVE != 0) &&
        !(resource_has_assignments (cleanup st) r.name))) =
      (cleanup st).resources := by
    rw [List.filter_eq_self]
    intro r hr
    have hr' : r ∈ (cleanup_step4 (cleanup_step3 (cleanup_step2
        (cleanup_step1 st)))).resources.filter
        (fun r => !((r.state &&& DrbdResource.FLAG_REMOVE != 0) &&
          !(resource_has_assignments (cleanup_step4 (cleanup_step3
            (cleanup_step2 (cleanup_step1 st)))) r.name))) := hr
    rw [List.mem_filter] at hr'
    exact hr'.2
  unfold cleanup_step5
  rw [hfil]

theorem step4_idem (st : ServerState)
    (hnames : (st.resources.map (fun r => r.name)).Nodup) :
    cleanup_step4 (cleanup st) = cleanup st := by
  have hnames3 : ((cleanup_step3 (cleanup_step2
      (cleanup_step1 st))).resources.map (fun r => r.name)).Nodup := by
    have h3 : (cleanup_step3 (cleanup_step2 (cleanup_step1 st))).resources =
        (cleanup_step2 (cleanup_step1 st)).resources := rfl
    rw [h3, step2_resources]
    exact hnames
  have hgo := go_out (cleanup_step3 (cleanup_step2 (cleanup_step1 st))).resources
    (cleanup_step3 (cleanup_step2 (cleanup_step1 st))).assignments hnames3
  have hcr : ∀ r ∈ (cleanup st).resources,
      clean_res r (cleanup st).assignments := by
    intro r hr
    have hr' : r ∈ (cleanup_step4_go
        (cleanup_step3 (cleanup_step2 (cleanup_step1 st))).resources
        (cleanup_step3 (cleanup_step2 (cleanup_step1 st))).assignments).1.filter
        (fun r => !((r.state &&& DrbdResource.FLAG_REMOVE != 0) &&
          !(resource_has_assignments (cleanup_step4 (cleanup_step3
            (cleanup_step2 (cleanup_step1 st)))) r.name))) := hr
    rw [List.mem_filter] at hr'
    exact hgo r hr'.1
  have hgoc := go_clean (cleanup st).resources (cleanup st).assignments hcr
  have h1 : (cleanup_step4_go (cleanup st).resources
      (cleanup st).assignments).1 = (cleanup st).resources := by
    rw [hgoc]
  have h2 : (cleanup_step4_go (cleanup st).resources
      (cleanup st).assignments).2 = (cleanup st).assignments := by
    rw [hgoc]
  unfold cleanup_step4
  show ({ cleanup st with
    resources := (cleanup_step4_go (cleanup st).resources
      (cleanup st).assignments).1,
    assignments := (cleanup_step4_go (cleanup st).resources
      (cleanup st).assignments).2 } : ServerState) = cleanup st
  rw [h1, h2]

/-- **C8.** The garbage-collection operation `cleanup` is idempotent: under
the data-model invariant that resource names are unique (Python keeps the
resources in a dict keyed by name), running `cleanup` twice in immediate
succession yields exactly the state of running it once — the second run
removes no node, resource, volume, assignment or volume state. -/
theorem cleanup_idempotent (st : ServerState)
    (hnames : (st.resources.map (fun r => r.name)).Nodup) :
    cleanup (cleanup st) = cleanup st := by
  show cleanup_step5 (cleanup_step4 (cleanup_step3 (cleanup_step2
    (cleanup_step1 (cleanup st))))) = cleanup st
  rw [step1_idem, step2_idem, step3_idem, step4_idem st hnames, step5_idem]

theorem cleanup_idempotent_witness :
    cleanup (cleanup sample_st) = cleanup sample_st :=
  cleanup_idempotent sample_st (by decide)
